import Mathlib

/-!
# SDAM topology description (`mongoc-topology-description.c`)

A shallow embedding of the topology state machine and of server selection,
followed by theorems about them.

Conventions of the embedding.

* A C string pointer is an `Option String` (`none` is `NULL`); `strcmp` on a
  `NULL` argument is undefined, so the transitions that call it return an
  `Option` and `none` stands for that undefined run.
* The set destroys the description it removes (the destructor is registered
  in `mongoc_topology_description_init`); a read of a description after that
  is undefined as well, and is `none`.
* `topology->servers` (a `mongoc_set_t`) is the list of its items in iteration
  order; the key of an item is the `id` field of the description it holds,
  which is how `mongoc_topology_description_add_server` fills the set.
* `uint32_t` and `size_t` arithmetic is written with an explicit modulus.
* The observer callbacks `cb.add` and `cb.rm` are recorded: each call appends
  an event to the `events` log of the topology.
-/

namespace Mongoc

/-- Server kinds, `mongoc_server_description_type_t`, in the row order of the
transition table. -/
inductive ServerType where
  | UNKNOWN
  | STANDALONE
  | MONGOS
  | POSSIBLE_PRIMARY
  | RS_PRIMARY
  | RS_SECONDARY
  | RS_ARBITER
  | RS_OTHER
  | RS_GHOST
  deriving DecidableEq, Repr

/-- Topology kinds, `mongoc_topology_description_type_t`: the four columns of
the transition table, then `SINGLE`. -/
inductive TopologyType where
  | UNKNOWN
  | SHARDED
  | RS_NO_PRIMARY
  | RS_WITH_PRIMARY
  | SINGLE
  deriving DecidableEq, Repr

/-- Read preference modes, `mongoc_read_mode_t`. -/
inductive ReadMode where
  | PRIMARY
  | PRIMARY_PREFERRED
  | SECONDARY
  | SECONDARY_PREFERRED
  | NEAREST
  deriving DecidableEq, Repr

/-- Operation kinds for server selection, `mongoc_ss_optype_t`. -/
inductive OpType where
  | READ
  | WRITE
  deriving DecidableEq, Repr

/-- The fields of `mongoc_server_description_t` that the topology code reads
or writes. `round_trip_time` is an `int64_t`. -/
structure ServerDescription where
  id : Nat
  connection_address : String
  type : ServerType
  round_trip_time : Int
  set_name : Option String
  current_primary : Option String
  hosts : List String
  passives : List String
  arbiters : List String
  deriving DecidableEq, Repr

/-- One call of an observer callback, with the description it was given. -/
inductive CbEvent where
  | add (sd : ServerDescription)
  | rm (sd : ServerDescription)
  deriving DecidableEq, Repr

/-- The struct `mongoc_topology_description_t`. `cb_add` and `cb_rm` tell whether
the callback pointers `cb.add` and `cb.rm` are set; `events` is the log of the
calls made to them. `max_server_id` is a `uint32_t`. -/
structure TopologyDescription where
  type : TopologyType
  servers : List ServerDescription
  set_name : Option String
  compatible : Bool
  compatibility_error : Option String
  stale : Bool
  max_server_id : Nat
  cb_add : Bool
  cb_rm : Bool
  events : List CbEvent
  deriving DecidableEq, Repr

/-! ## Collaborators that are not part of this file of the driver -/

/-- Modelled from the spec: `mongoc_set_get`, the `get(id)` of the ServerSet
(section 4.2), a collection keyed by id: the item stored under `id`. -/
def mongoc_set_get (items : List ServerDescription) (id : Nat) : Option ServerDescription :=
  items.find? (fun s => s.id == id)

/-- Modelled from the spec: `mongoc_set_rm`, the `remove(id)` of the ServerSet
(section 4.2): afterwards nothing is stored under `id`, the other items keep
their order. -/
def mongoc_set_rm (items : List ServerDescription) (id : Nat) : List ServerDescription :=
  items.filter (fun s => s.id != id)

/-- Modelled from the spec: `mongoc_set_add`, the `add(id, desc)` of the
ServerSet (section 4.2), a sorted-by-id collection: the item is placed after
the items whose id is not larger. -/
def mongoc_set_add : List ServerDescription → ServerDescription → List ServerDescription
  | [], x => [x]
  | y :: ys, x => if x.id < y.id then x :: y :: ys else y :: mongoc_set_add ys x

/-- Modelled from the spec: `mongoc_set_for_each`, the iteration of the
ServerSet (section 4.2): the callback sees the items in order, threads its
context, and returning `false` stops the iteration. The items visited are
those of the set when the iteration starts, so a callback may remove the
current item. -/
def mongoc_set_for_each {σ : Type} (items : List ServerDescription)
    (cb : ServerDescription → σ → σ × Bool) (ctx : σ) : σ :=
  match items with
  | [] => ctx
  | x :: xs =>
    match cb x ctx with
    | (c, true) => mongoc_set_for_each xs cb c
    | (c, false) => c

/-- Modelled from the spec: `mongoc_server_description_init` (section 4.1):
a description built from an address has kind `Unknown`, empty rosters and
zero rtt. -/
def mongoc_server_description_init (address : String) (id : Nat) : ServerDescription :=
  { id := id, connection_address := address, type := ServerType.UNKNOWN,
    round_trip_time := 0, set_name := none, current_primary := none,
    hosts := [], passives := [], arbiters := [] }

/-- Modelled from the spec: `mongoc_server_description_set_state`, the
`set_kind(k)` of section 4.1: overrides the kind and nothing else. -/
def mongoc_server_description_set_state (server : ServerDescription) (type : ServerType) :
    ServerDescription :=
  { server with type := type }

/-- Modelled from the spec: `mongoc_server_description_has_rs_member`, the
`has_rs_member(address)` of section 4.1: the address appears in hosts,
passives or arbiters. -/
def mongoc_server_description_has_rs_member (server : ServerDescription) (address : String) :
    Bool :=
  decide (address ∈ server.hosts) || decide (address ∈ server.passives) ||
    decide (address ∈ server.arbiters)

/-- The fields of an ismaster response that the handshake parser extracts
(section 6). `msg_isdbgrid` is `msg == "isdbgrid"`. -/
structure IsMasterResponse where
  isreplicaset : Bool
  msg_isdbgrid : Bool
  setName : Option String
  ismaster : Bool
  secondary : Bool
  arbiterOnly : Bool
  hosts : List String
  passives : List String
  arbiters : List String
  primary : Option String
  deriving DecidableEq, Repr

/-- Modelled from the spec: the classification table of section 4.1, read top
to bottom. -/
def classify (r : IsMasterResponse) : ServerType :=
  if r.isreplicaset then ServerType.RS_GHOST
  else if r.msg_isdbgrid then ServerType.MONGOS
  else match r.setName with
    | none => ServerType.STANDALONE
    | some _ =>
      if r.ismaster then ServerType.RS_PRIMARY
      else if r.secondary then ServerType.RS_SECONDARY
      else if r.arbiterOnly then ServerType.RS_ARBITER
      else ServerType.RS_OTHER

/-- Modelled from the spec: `mongoc_server_description_handle_ismaster`, the
`apply_handshake(response, rtt, error_out)` of section 4.1. With an error or
without a response the kind becomes `Unknown`, the rtt is zeroed and the
rosters are cleared; otherwise the fields are populated from the response and
the kind is derived by `classify`. -/
def mongoc_server_description_handle_ismaster (sd : ServerDescription)
    (ismaster_response : Option IsMasterResponse) (rtt_msec : Int) (error : Bool) :
    ServerDescription :=
  match error, ismaster_response with
  | false, some r =>
    { sd with type := classify r, round_trip_time := rtt_msec, set_name := r.setName,
              current_primary := r.primary, hosts := r.hosts, passives := r.passives,
              arbiters := r.arbiters }
  | _, _ =>
    { sd with type := ServerType.UNKNOWN, round_trip_time := 0, hosts := [], passives := [],
              arbiters := [] }

/-- The read preference object (section 6): its mode and its eligibility
filter. `mongoc_server_description_filter_eligible` receives the candidate
array, sets the entries it rejects to `NULL` and returns how many it kept;
`eligible cands s` tells whether it keeps candidate `s` of the array `cands`. -/
structure ReadPrefs where
  mode : ReadMode
  eligible : List ServerDescription → ServerDescription → Bool

/-- Modelled from the spec: `mongoc_server_description_filter_eligible`
(sections 4.5 and 6): the filter of the read preference applied to the
candidate array; rejected entries become `NULL`, the result counts the kept
ones. -/
def mongoc_server_description_filter_eligible (candidates : List ServerDescription)
    (read_pref : ReadPrefs) : List (Option ServerDescription) × Nat :=
  let out := candidates.map (fun s => if read_pref.eligible candidates s then some s else none)
  (out, (out.filter Option.isSome).length)

/-- The comparison `strcmp (a, b) != 0` of two C strings; `none` when one of
them is `NULL`, where `strcmp` is undefined. -/
def strcmp_ne (a b : Option String) : Option Bool :=
  match a, b with
  | some x, some y => some (x != y)
  | _, _ => none

/-! ## The topology description -/

/-- The initialiser `mongoc_topology_description_init`; `bson_return_if_fail` on
the kind leaves the description untouched, which is `none` here. -/
def mongoc_topology_description_init (type : TopologyType) (cb_add cb_rm : Bool) :
    Option TopologyDescription :=
  if type = TopologyType.UNKNOWN ∨ type = TopologyType.SINGLE ∨
      type = TopologyType.RS_NO_PRIMARY then
    some { type := type, servers := [], set_name := none, compatible := true,
           compatibility_error := none, stale := true, max_server_id := 0,
           cb_add := cb_add, cb_rm := cb_rm, events := [] }
  else none

/-- Callback of `_mongoc_topology_description_has_primary`: find the primary,
then stop iterating. A standalone counts as one. -/
def _mongoc_topology_description_has_primary_cb (item : ServerDescription)
    (ctx : Option ServerDescription) : Option ServerDescription × Bool :=
  if item.type = ServerType.RS_PRIMARY ∨ item.type = ServerType.STANDALONE then
    (some item, false)
  else (ctx, true)

/-- If the topology has a primary, return it (`NULL` is `none`). -/
def _mongoc_topology_description_has_primary (description : TopologyDescription) :
    Option ServerDescription :=
  mongoc_set_for_each description.servers _mongoc_topology_description_has_primary_cb none

/-- Whether a server of kind `desc_type` is a candidate for `read_mode` in a
topology of kind `topology_type`. -/
def _mongoc_topology_description_server_is_candidate (desc_type : ServerType)
    (read_mode : ReadMode) (topology_type : TopologyType) : Bool :=
  match topology_type with
  | TopologyType.SINGLE =>
    match desc_type with
    | ServerType.STANDALONE => true
    | _ => false
  | TopologyType.RS_NO_PRIMARY | TopologyType.RS_WITH_PRIMARY =>
    match read_mode with
    | ReadMode.PRIMARY =>
      match desc_type with
      | ServerType.POSSIBLE_PRIMARY | ServerType.RS_PRIMARY => true
      | _ => false
    | ReadMode.SECONDARY =>
      match desc_type with
      | ServerType.RS_SECONDARY => true
      | _ => false
    | _ =>
      match desc_type with
      | ServerType.POSSIBLE_PRIMARY | ServerType.RS_PRIMARY | ServerType.RS_SECONDARY => true
      | _ => false
  | TopologyType.SHARDED =>
    match desc_type with
    | ServerType.MONGOS => true
    | _ => false
  | _ => false

/-- The struct `mongoc_suitable_data_t`; `candidates` holds the entries
`candidates[0 .. candidates_len)`. -/
structure mongoc_suitable_data_t where
  read_mode : ReadMode
  topology_type : TopologyType
  primary : Option ServerDescription
  candidates : List ServerDescription
  has_secondary : Bool

/-- Callback collecting the candidates of a replica set read. -/
def _mongoc_replica_set_read_suitable_cb (item : ServerDescription)
    (data : mongoc_suitable_data_t) : mongoc_suitable_data_t × Bool :=
  if _mongoc_topology_description_server_is_candidate item.type data.read_mode
      data.topology_type then
    let data1 :=
      if item.type = ServerType.RS_PRIMARY then { data with primary := some item } else data
    if item.type = ServerType.RS_PRIMARY ∧
        (data.read_mode = ReadMode.PRIMARY ∨ data.read_mode = ReadMode.PRIMARY_PREFERRED) then
      (data1, false)
    else
      let data2 :=
        if item.type = ServerType.RS_SECONDARY then { data1 with has_secondary := true }
        else data1
      ({ data2 with candidates := data2.candidates ++ [item] }, true)
  else (data, true)

/-- Callback adding the mongos candidates to the candidates array. -/
def _mongoc_find_suitable_mongos_cb (item : ServerDescription)
    (data : mongoc_suitable_data_t) : mongoc_suitable_data_t × Bool :=
  if _mongoc_topology_description_server_is_candidate item.type data.read_mode
      data.topology_type then
    ({ data with candidates := data.candidates ++ [item] }, true)
  else (data, true)

/-- Conversion of an `int64_t` to the 64-bit unsigned `size_t`. -/
def to_size_t (x : Int) : Nat := (x % (2 : Int) ^ 64).toNat

/-- First loop of the latency window: the smallest round trip time among the
non-`NULL` candidates, starting from `nearest = -1`. -/
def find_nearest (candidates : List (Option ServerDescription)) : Int :=
  candidates.foldl
    (fun nearest c =>
      match c with
      | some s =>
        if nearest = -1 ∨ nearest > s.round_trip_time then s.round_trip_time else nearest
      | none => nearest)
    (-1)

/-- Second loop of the latency window: the non-`NULL` candidates with
`round_trip_time <= nearest + local_threshold_ms`. The sum mixes `int64_t`
with `size_t`, so it and the comparison are unsigned 64-bit. -/
def within_window (candidates : List (Option ServerDescription)) (nearest : Int)
    (local_threshold_ms : Nat) : List ServerDescription :=
  candidates.filterMap
    (fun c =>
      match c with
      | some s =>
        if to_size_t s.round_trip_time ≤ (to_size_t nearest + local_threshold_ms) % 2 ^ 64
        then some s else none
      | none => none)

/-- The two loops that close `mongoc_topology_description_suitable_servers`. -/
def latency_window (candidates : List (Option ServerDescription)) (local_threshold_ms : Nat) :
    List ServerDescription :=
  within_window candidates (find_nearest candidates) local_threshold_ms

/-- The function `mongoc_topology_description_suitable_servers`: the array of
suitable servers for the operation and read preference. `none` is the read of
`items[0]` of an empty set in a `SINGLE` topology. -/
def mongoc_topology_description_suitable_servers (optype : OpType)
    (topology : TopologyDescription) (read_pref : ReadPrefs) (local_threshold_ms : Nat) :
    Option (List ServerDescription) :=
  let read_mode := read_pref.mode
  let data : mongoc_suitable_data_t :=
    { read_mode := read_mode, topology_type := topology.type, primary := none,
      candidates := [], has_secondary := false }
  if topology.type = TopologyType.SINGLE then
    match topology.servers with
    | [] => none
    | server :: _ =>
      if _mongoc_topology_description_server_is_candidate server.type read_mode topology.type
      then some [server] else some []
  else if topology.type = TopologyType.RS_NO_PRIMARY ∨
      topology.type = TopologyType.RS_WITH_PRIMARY then
    if optype = OpType.READ then
      let data := mongoc_set_for_each topology.servers _mongoc_replica_set_read_suitable_cb data
      match (if read_mode = ReadMode.PRIMARY ∨ read_mode = ReadMode.PRIMARY_PREFERRED
              then data.primary else none) with
      | some primary => some [primary]
      | none =>
        let filtered := mongoc_server_description_filter_eligible data.candidates read_pref
        let candidates := filtered.1
        if filtered.2 = 0 ∧ read_mode = ReadMode.NEAREST then some []
        else
          let has_secondary := if filtered.2 = 0 then false else data.has_secondary
          if has_secondary = true ∧
              (read_mode = ReadMode.SECONDARY ∨ read_mode = ReadMode.SECONDARY_PREFERRED) then
            some (latency_window
              (candidates.map (fun c =>
                match c with
                | some s => if s.type = ServerType.RS_PRIMARY then none else some s
                | none => none))
              local_threshold_ms)
          else
            match (if read_mode = ReadMode.SECONDARY_PREFERRED then data.primary else none) with
            | some primary => some [primary]
            | none => some (latency_window candidates local_threshold_ms)
    else if topology.type = TopologyType.RS_WITH_PRIMARY then
      match mongoc_set_for_each topology.servers _mongoc_topology_description_has_primary_cb
          data.primary with
      | some primary => some [primary]
      | none => some (latency_window [] local_threshold_ms)
    else some (latency_window [] local_threshold_ms)
  else if topology.type = TopologyType.SHARDED then
    let data := mongoc_set_for_each topology.servers _mongoc_find_suitable_mongos_cb data
    some (latency_window (data.candidates.map some) local_threshold_ms)
  else some (latency_window [] local_threshold_ms)

/-- The function `mongoc_topology_description_select`: one suitable server, or
`NULL` (the inner `none`). `rand_val` is the value `rand ()` returns;
`local_threshold_ms` is an `int64_t` here and a `size_t` in
`suitable_servers`. The outer `none` is an undefined run of
`suitable_servers`. -/
def mongoc_topology_description_select (topology : TopologyDescription) (optype : OpType)
    (read_pref : ReadPrefs) (local_threshold_ms : Int) (rand_val : Nat) :
    Option (Option ServerDescription) :=
  if !topology.compatible then some none
  else
    match mongoc_topology_description_suitable_servers optype topology read_pref
        (to_size_t local_threshold_ms) with
    | none => none
    | some suitable_servers =>
      if suitable_servers.length ≠ 0 then
        some (suitable_servers.get? (rand_val % suitable_servers.length))
      else some none

/-! ## Membership bookkeeping and the transitions -/

/-- The lookup `mongoc_topology_description_server_by_id`. -/
def mongoc_topology_description_server_by_id (description : TopologyDescription) (id : Nat) :
    Option ServerDescription :=
  mongoc_set_get description.servers id

/-- The function `_mongoc_topology_description_remove_server`: call `cb.rm`
when it is set, then remove the item stored under the id of `server`. -/
def _mongoc_topology_description_remove_server (description : TopologyDescription)
    (server : ServerDescription) : TopologyDescription :=
  { description with
    events :=
      if description.cb_rm then description.events ++ [CbEvent.rm server]
      else description.events
    servers := mongoc_set_rm description.servers server.id }

/-- Callback of `_mongoc_topology_description_has_server`: find the given
server and stop iterating. The context is the address looked for (IN) and,
once found, the id (OUT). -/
def _mongoc_topology_description_has_server_cb (item : ServerDescription)
    (data : String × Option Nat) : (String × Option Nat) × Bool :=
  if data.1 = item.connection_address then ((data.1, some item.id), false)
  else (data, true)

/-- The function `_mongoc_topology_description_has_server`: `some id` when a
server with this address is in the topology (the C function returns `true`
and writes `id`), `none` when it returns `false`. -/
def _mongoc_topology_description_has_server (description : TopologyDescription)
    (address : String) : Option Nat :=
  (mongoc_set_for_each description.servers _mongoc_topology_description_has_server_cb
    (address, none)).2

/-- Callback of `_mongoc_topology_description_label_unknown_member`; it
writes through `item`, so it returns the new contents of the item and whether
to go on. -/
def _mongoc_label_unknown_member_cb (item : ServerDescription)
    (data : String × ServerType) : ServerDescription × Bool :=
  if item.connection_address = data.1 ∧ item.type = ServerType.UNKNOWN then
    (mongoc_server_description_set_state item data.2, false)
  else (item, true)

/-- The iteration `mongoc_set_for_each` with a callback that writes through its
`item` pointer: the items after the iteration. -/
def mongoc_set_for_each_item {σ : Type} (items : List ServerDescription)
    (cb : ServerDescription → σ → ServerDescription × Bool) (ctx : σ) :
    List ServerDescription :=
  match items with
  | [] => []
  | x :: xs =>
    match cb x ctx with
    | (y, true) => y :: mongoc_set_for_each_item xs cb ctx
    | (y, false) => y :: xs

/-- The function `_mongoc_topology_description_label_unknown_member`: find the
server with the given address and, if its type is UNKNOWN, set it to `type`.
A `NULL` address returns at once. -/
def _mongoc_topology_description_label_unknown_member (description : TopologyDescription)
    (address : Option String) (type : ServerType) : TopologyDescription :=
  match address with
  | none => description
  | some a =>
    { description with
      servers := mongoc_set_for_each_item description.servers _mongoc_label_unknown_member_cb
        (a, type) }

/-- The function `_mongoc_topology_description_set_state`. -/
def _mongoc_topology_description_set_state (description : TopologyDescription)
    (type : TopologyType) : TopologyDescription :=
  { description with type := type }

/-- The function `_mongoc_topology_description_check_if_has_primary`: RS_WITH_PRIMARY
when `has_primary` finds a server, RS_NO_PRIMARY otherwise. -/
def _mongoc_topology_description_check_if_has_primary (topology : TopologyDescription)
    (_server : ServerDescription) : TopologyDescription :=
  if (_mongoc_topology_description_has_primary topology).isSome then
    _mongoc_topology_description_set_state topology TopologyType.RS_WITH_PRIMARY
  else
    _mongoc_topology_description_set_state topology TopologyType.RS_NO_PRIMARY

/-- The function `mongoc_topology_description_add_server`: the topology
afterwards and the id written to `*id`. The C function returns `true` on every
path. `++topology->max_server_id` is a `uint32_t` increment. -/
def mongoc_topology_description_add_server (topology : TopologyDescription) (server : String) :
    TopologyDescription × Nat :=
  match _mongoc_topology_description_has_server topology server with
  | some server_id => (topology, server_id)
  | none =>
    let server_id := (topology.max_server_id + 1) % 2 ^ 32
    let description := mongoc_server_description_init server server_id
    ({ topology with
       max_server_id := server_id
       servers := mongoc_set_add topology.servers description
       events :=
         if topology.cb_add then topology.events ++ [CbEvent.add description]
         else topology.events },
     server_id)

/-- The function `_mongoc_topology_description_monitor_new_servers`: add every
address of the rosters of `server`, hosts first, then arbiters, then
passives. -/
def _mongoc_topology_description_monitor_new_servers (topology : TopologyDescription)
    (server : ServerDescription) : TopologyDescription :=
  (server.hosts ++ server.arbiters ++ server.passives).foldl
    (fun t a => (mongoc_topology_description_add_server t a).1) topology

/-- Callback invalidating old primaries; it writes through `item`. -/
def _mongoc_topology_description_invalidate_primaries_cb (item : ServerDescription)
    (primary : ServerDescription) : ServerDescription × Bool :=
  if item.id ≠ primary.id ∧ item.type = ServerType.RS_PRIMARY then
    (mongoc_server_description_set_state item ServerType.UNKNOWN, true)
  else (item, true)

/-- Callback that stops monitoring the servers the primary does not know
about. The context is the topology being updated; the primary is fixed. -/
def _mongoc_topology_description_remove_missing_hosts_cb (primary : ServerDescription)
    (item : ServerDescription) (topology : TopologyDescription) : TopologyDescription × Bool :=
  if primary.connection_address ≠ item.connection_address ∧
      mongoc_server_description_has_rs_member primary item.connection_address = false then
    (_mongoc_topology_description_remove_server topology item, true)
  else (topology, true)

/-- The part of `_mongoc_topology_description_update_rs_from_primary` that
follows the set name check: invalidate the other primaries, monitor the new
servers, remove the missing hosts, set the type. -/
def update_rs_from_primary_accepted (topology : TopologyDescription)
    (server : ServerDescription) : TopologyDescription :=
  let topology :=
    { topology with
      servers := mongoc_set_for_each_item topology.servers
        _mongoc_topology_description_invalidate_primaries_cb server }
  let topology := _mongoc_topology_description_monitor_new_servers topology server
  let topology :=
    mongoc_set_for_each topology.servers
      (_mongoc_topology_description_remove_missing_hosts_cb server) topology
  { topology with type := TopologyType.RS_WITH_PRIMARY }

/-- The transition `_mongoc_topology_description_update_rs_from_primary`. `none`
is the `strcmp` of a `NULL` set name. -/
def _mongoc_topology_description_update_rs_from_primary (topology : TopologyDescription)
    (server : ServerDescription) : Option TopologyDescription :=
  if (_mongoc_topology_description_has_server topology server.connection_address).isNone then
    some topology
  else if topology.set_name.isNone ∧ server.set_name.isSome then
    some (update_rs_from_primary_accepted { topology with set_name := server.set_name } server)
  else
    match strcmp_ne topology.set_name server.set_name with
    | none => none
    | some true =>
      some (_mongoc_topology_description_check_if_has_primary
        (_mongoc_topology_description_remove_server topology server) server)
    | some false => some (update_rs_from_primary_accepted topology server)

/-- The part of `_mongoc_topology_description_update_rs_without_primary` that
follows the set name check: monitor the new servers and label the current
primary of `server` as POSSIBLE_PRIMARY. -/
def update_rs_without_primary_accepted (topology : TopologyDescription)
    (server : ServerDescription) : TopologyDescription :=
  let topology := _mongoc_topology_description_monitor_new_servers topology server
  match server.current_primary with
  | some a =>
    _mongoc_topology_description_label_unknown_member topology (some a)
      ServerType.POSSIBLE_PRIMARY
  | none => topology

/-- The transition `_mongoc_topology_description_update_rs_without_primary`. Both
arguments of its `strcmp` are checked before, so it never is undefined. -/
def _mongoc_topology_description_update_rs_without_primary (topology : TopologyDescription)
    (server : ServerDescription) : Option TopologyDescription :=
  if (_mongoc_topology_description_has_server topology server.connection_address).isNone then
    some topology
  else
    match server.set_name with
    | some _ =>
      match topology.set_name with
      | none =>
        some (update_rs_without_primary_accepted
          { topology with set_name := server.set_name } server)
      | some _ =>
        match strcmp_ne topology.set_name server.set_name with
        | none => none
        | some true => some (_mongoc_topology_description_remove_server topology server)
        | some false => some (update_rs_without_primary_accepted topology server)
    | none => some (update_rs_without_primary_accepted topology server)

/-- The transition `_mongoc_topology_description_update_rs_with_primary_from_member`.
`none` is an undefined run: the `strcmp` of a `NULL` set name, or the read of
`server->current_primary` after `remove_server` destroyed `server`. The set
destroys the item it removes, the item stored under the id of `server`; so
`server` is destroyed when the set names differ and that item is `server` (a
description equal to the item is taken for it). The read follows when
`has_primary` finds no primary, so that `&&` evaluates its second operand. -/
def _mongoc_topology_description_update_rs_with_primary_from_member
    (topology : TopologyDescription) (server : ServerDescription) :
    Option TopologyDescription :=
  if (_mongoc_topology_description_has_server topology server.connection_address).isNone then
    some topology
  else
    match strcmp_ne topology.set_name server.set_name with
    | none => none
    | some differ =>
      let destroyed : Bool :=
        differ && decide (mongoc_set_get topology.servers server.id = some server)
      let topology :=
        if differ then _mongoc_topology_description_remove_server topology server
        else topology
      if (_mongoc_topology_description_has_primary topology).isNone then
        if destroyed then none
        else if server.current_primary.isSome then
          let topology :=
            _mongoc_topology_description_set_state topology TopologyType.RS_NO_PRIMARY
          some (_mongoc_topology_description_label_unknown_member topology
            server.current_primary ServerType.POSSIBLE_PRIMARY)
        else some topology
      else some topology

/-- The transition `_mongoc_topology_description_set_topology_type_to_sharded`. -/
def _mongoc_topology_description_set_topology_type_to_sharded
    (topology : TopologyDescription) (_server : ServerDescription) : TopologyDescription :=
  _mongoc_topology_description_set_state topology TopologyType.SHARDED

/-- The transition
`_mongoc_topology_description_transition_unknown_to_rs_no_primary`. -/
def _mongoc_topology_description_transition_unknown_to_rs_no_primary
    (topology : TopologyDescription) (server : ServerDescription) :
    Option TopologyDescription :=
  _mongoc_topology_description_update_rs_without_primary
    (_mongoc_topology_description_set_state topology TopologyType.RS_NO_PRIMARY) server

/-- The transition `_mongoc_topology_description_remove_and_check_primary`. -/
def _mongoc_topology_description_remove_and_check_primary (topology : TopologyDescription)
    (server : ServerDescription) : TopologyDescription :=
  _mongoc_topology_description_check_if_has_primary
    (_mongoc_topology_description_remove_server topology server) server

/-- The transition `_mongoc_topology_description_update_unknown_with_standalone`. -/
def _mongoc_topology_description_update_unknown_with_standalone
    (topology : TopologyDescription) (server : ServerDescription) : TopologyDescription :=
  if (_mongoc_topology_description_has_server topology server.connection_address).isNone then
    topology
  else if topology.servers.length > 1 then
    _mongoc_topology_description_remove_server topology server
  else _mongoc_topology_description_set_state topology TopologyType.SINGLE

/-- The type `transition_t` of the entries of the transition table. -/
abbrev transition_t : Type :=
  TopologyDescription → ServerDescription → Option TopologyDescription

/-- The table `gSDAMTransitionTable`; `none` is a `NULL` entry. Each row of the
source lists the four columns UNKNOWN, SHARDED, RS_NO_PRIMARY and
RS_WITH_PRIMARY; the column SINGLE has no initialiser, so it is `NULL`. -/
def gSDAMTransitionTable : ServerType → TopologyType → Option transition_t
  | _, TopologyType.SINGLE => none
  | ServerType.UNKNOWN, TopologyType.RS_WITH_PRIMARY =>
    some (fun t s => some (_mongoc_topology_description_check_if_has_primary t s))
  | ServerType.UNKNOWN, _ => none
  | ServerType.STANDALONE, TopologyType.UNKNOWN =>
    some (fun t s => some (_mongoc_topology_description_update_unknown_with_standalone t s))
  | ServerType.STANDALONE, TopologyType.SHARDED =>
    some (fun t s => some (_mongoc_topology_description_remove_server t s))
  | ServerType.STANDALONE, TopologyType.RS_NO_PRIMARY =>
    some (fun t s => some (_mongoc_topology_description_remove_server t s))
  | ServerType.STANDALONE, TopologyType.RS_WITH_PRIMARY =>
    some (fun t s => some (_mongoc_topology_description_remove_and_check_primary t s))
  | ServerType.MONGOS, TopologyType.UNKNOWN =>
    some (fun t s => some (_mongoc_topology_description_set_topology_type_to_sharded t s))
  | ServerType.MONGOS, TopologyType.SHARDED => none
  | ServerType.MONGOS, TopologyType.RS_NO_PRIMARY =>
    some (fun t s => some (_mongoc_topology_description_remove_server t s))
  | ServerType.MONGOS, TopologyType.RS_WITH_PRIMARY =>
    some (fun t s => some (_mongoc_topology_description_remove_and_check_primary t s))
  | ServerType.POSSIBLE_PRIMARY, _ => none
  | ServerType.RS_PRIMARY, TopologyType.UNKNOWN =>
    some _mongoc_topology_description_update_rs_from_primary
  | ServerType.RS_PRIMARY, TopologyType.SHARDED =>
    some (fun t s => some (_mongoc_topology_description_remove_server t s))
  | ServerType.RS_PRIMARY, TopologyType.RS_NO_PRIMARY =>
    some _mongoc_topology_description_update_rs_from_primary
  | ServerType.RS_PRIMARY, TopologyType.RS_WITH_PRIMARY =>
    some _mongoc_topology_description_update_rs_from_primary
  | ServerType.RS_SECONDARY, TopologyType.UNKNOWN =>
    some _mongoc_topology_description_transition_unknown_to_rs_no_primary
  | ServerType.RS_SECONDARY, TopologyType.SHARDED =>
    some (fun t s => some (_mongoc_topology_description_remove_server t s))
  | ServerType.RS_SECONDARY, TopologyType.RS_NO_PRIMARY =>
    some _mongoc_topology_description_update_rs_without_primary
  | ServerType.RS_SECONDARY, TopologyType.RS_WITH_PRIMARY =>
    some _mongoc_topology_description_update_rs_with_primary_from_member
  | ServerType.RS_ARBITER, TopologyType.UNKNOWN =>
    some _mongoc_topology_description_transition_unknown_to_rs_no_primary
  | ServerType.RS_ARBITER, TopologyType.SHARDED =>
    some (fun t s => some (_mongoc_topology_description_remove_server t s))
  | ServerType.RS_ARBITER, TopologyType.RS_NO_PRIMARY =>
    some _mongoc_topology_description_update_rs_without_primary
  | ServerType.RS_ARBITER, TopologyType.RS_WITH_PRIMARY =>
    some _mongoc_topology_description_update_rs_with_primary_from_member
  | ServerType.RS_OTHER, TopologyType.UNKNOWN =>
    some _mongoc_topology_description_transition_unknown_to_rs_no_primary
  | ServerType.RS_OTHER, TopologyType.SHARDED =>
    some (fun t s => some (_mongoc_topology_description_remove_server t s))
  | ServerType.RS_OTHER, TopologyType.RS_NO_PRIMARY =>
    some _mongoc_topology_description_update_rs_without_primary
  | ServerType.RS_OTHER, TopologyType.RS_WITH_PRIMARY =>
    some _mongoc_topology_description_update_rs_with_primary_from_member
  | ServerType.RS_GHOST, TopologyType.UNKNOWN => none
  | ServerType.RS_GHOST, TopologyType.SHARDED =>
    some (fun t s => some (_mongoc_topology_description_remove_server t s))
  | ServerType.RS_GHOST, TopologyType.RS_NO_PRIMARY => none
  | ServerType.RS_GHOST, TopologyType.RS_WITH_PRIMARY =>
    some (fun t s => some (_mongoc_topology_description_check_if_has_primary t s))

/-- The `sd` argument of `mongoc_topology_description_handle_ismaster` is a
pointer. `item id` is the pointer `mongoc_topology_description_server_by_id`
returns for `id`: the item of the set stored under `id`, or `NULL` when there
is none. `detached sd` points to a description with contents `sd` that is not
an item of the set. -/
inductive SdPtr where
  | item (id : Nat)
  | detached (sd : ServerDescription)
  deriving DecidableEq, Repr

/-- The description a pointer points to (`none` for `NULL`). -/
def SdPtr.deref (topology : TopologyDescription) : SdPtr → Option ServerDescription
  | SdPtr.item id => mongoc_set_get topology.servers id
  | SdPtr.detached sd => some sd

/-- Overwrite the item of the set that `mongoc_set_get` returns for `id`. -/
def write_item : List ServerDescription → Nat → ServerDescription → List ServerDescription
  | [], _, _ => []
  | x :: xs, id, sd => if x.id == id then sd :: xs else x :: write_item xs id sd

/-- A write through the pointer: an item of the set changes in the set, a
detached description does not touch the topology. -/
def SdPtr.store (topology : TopologyDescription) (p : SdPtr) (sd : ServerDescription) :
    TopologyDescription :=
  match p with
  | SdPtr.item id => { topology with servers := write_item topology.servers id sd }
  | SdPtr.detached _ => topology

/-- What a call of `mongoc_topology_description_handle_ismaster` leaves: the
value it returns, the topology, and the contents of `*sd` (`none` for a `NULL`
pointer). -/
structure HandleResult where
  ret : Bool
  topology : TopologyDescription
  sd : Option ServerDescription
  deriving DecidableEq, Repr

/-- The function `mongoc_topology_description_handle_ismaster`. `error` tells
whether the caller passes a set error. The outer `none` is an undefined run of
the transition. -/
def mongoc_topology_description_handle_ismaster (topology : TopologyDescription) (sd : SdPtr)
    (ismaster_response : Option IsMasterResponse) (rtt_msec : Int) (error : Bool) :
    Option HandleResult :=
  match sd.deref topology with
  | none => some { ret := false, topology := topology, sd := none }
  | some d =>
    if (_mongoc_topology_description_has_server topology d.connection_address).isNone then
      some { ret := false, topology := topology, sd := some d }
    else
      let d := mongoc_server_description_handle_ismaster d ismaster_response rtt_msec error
      let topology := sd.store topology d
      match gSDAMTransitionTable d.type topology.type with
      | none => some { ret := true, topology := topology, sd := some d }
      | some transition =>
        match transition topology d with
        | none => none
        | some topology => some { ret := true, topology := topology, sd := some d }

/-- The function `mongoc_topology_description_invalidate_server`: look the
server up by id and handle an ismaster without response. -/
def mongoc_topology_description_invalidate_server (topology : TopologyDescription) (id : Nat) :
    Option TopologyDescription :=
  (mongoc_topology_description_handle_ismaster topology (SdPtr.item id) none 0 true).map
    (fun r => r.topology)

/-! ## Properties of a topology used in the statements -/

/-- Invariant 3 of the data model: a topology of kind RS_WITH_PRIMARY holds a
server of kind RS_PRIMARY. -/
def invariant3 (t : TopologyDescription) : Prop :=
  t.type = TopologyType.RS_WITH_PRIMARY → ∃ s ∈ t.servers, s.type = ServerType.RS_PRIMARY

instance (t : TopologyDescription) : Decidable (invariant3 t) := by
  unfold invariant3; infer_instance

/-- No two servers of the set share an id. -/
def ids_unique (t : TopologyDescription) : Prop :=
  (t.servers.map (fun s => s.id)).Nodup

instance (t : TopologyDescription) : Decidable (ids_unique t) := by
  unfold ids_unique; infer_instance

/-- No two servers of the set share an address. -/
def addresses_unique (t : TopologyDescription) : Prop :=
  (t.servers.map (fun s => s.connection_address)).Nodup

instance (t : TopologyDescription) : Decidable (addresses_unique t) := by
  unfold addresses_unique; infer_instance

/-- Every id of the set was handed out by the counter `max_server_id`. -/
def ids_bounded (t : TopologyDescription) : Prop :=
  ∀ s ∈ t.servers, s.id ≤ t.max_server_id

instance (t : TopologyDescription) : Decidable (ids_bounded t) := by
  unfold ids_bounded; infer_instance

/-- The number of servers of kind RS_PRIMARY in a list. -/
def primary_count (l : List ServerDescription) : Nat :=
  l.countP (fun s => decide (s.type = ServerType.RS_PRIMARY))

/-- A topology of kind RS_WITH_PRIMARY has a set name, so that both arguments
of the `strcmp` of `update_rs_with_primary_from_member` are there. -/
def set_name_known (t : TopologyDescription) : Prop :=
  t.type = TopologyType.RS_WITH_PRIMARY → t.set_name.isSome = true

instance (t : TopologyDescription) : Decidable (set_name_known t) := by
  unfold set_name_known; infer_instance

/-- A description of kind RS_PRIMARY, RS_SECONDARY, RS_ARBITER or RS_OTHER
carries a set name, as the classification of section 4.1 makes sure. -/
def rs_member_named (d : ServerDescription) : Prop :=
  (d.type = ServerType.RS_PRIMARY ∨ d.type = ServerType.RS_SECONDARY ∨
    d.type = ServerType.RS_ARBITER ∨ d.type = ServerType.RS_OTHER) → d.set_name.isSome = true

/-- Every server of `t2` keeps the id and address it had in `t`: a server of
`t2` and a server of `t` have the same id exactly when they have the same
address. -/
def keeps_ids_and_addresses (t t2 : TopologyDescription) : Prop :=
  ∀ x ∈ t2.servers, ∀ x0 ∈ t.servers,
    (x.id = x0.id ↔ x.connection_address = x0.connection_address)

instance (t t2 : TopologyDescription) : Decidable (keeps_ids_and_addresses t t2) := by
  unfold keeps_ids_and_addresses; infer_instance

/-! ## Auxiliary notions for the proofs -/

/-- The addresses of the rosters of a server, in the order in which
`monitor_new_servers` walks them. -/
def roster (server : ServerDescription) : List String :=
  server.hosts ++ server.arbiters ++ server.passives

/-- Adding the addresses `as` one after the other with `add_server`. -/
def add_all (t : TopologyDescription) (as : List String) : TopologyDescription :=
  as.foldl (fun t a => (mongoc_topology_description_add_server t a).1) t

/-- The effect of adding the addresses `as` to `t`, giving `t2`: the set grows
by the new servers `news`, everything but the set, the counter and the
callback log stays. -/
structure Monitored (t t2 : TopologyDescription) (as : List String)
    (news : List ServerDescription) : Prop where
  perm : t2.servers.Perm (t.servers ++ news)
  fresh : ∀ n ∈ news, n = mongoc_server_description_init n.connection_address n.id
  listed : ∀ n ∈ news, n.connection_address ∈ as
  absent : ∀ n ∈ news, ∀ s ∈ t.servers, s.connection_address ≠ n.connection_address
  distinct : (news.map (fun s => s.connection_address)).Nodup
  covered : ∀ a ∈ as, ∃ s ∈ t2.servers, s.connection_address = a
  type_eq : t2.type = t.type
  set_name_eq : t2.set_name = t.set_name
  cb_rm_eq : t2.cb_rm = t.cb_rm
  counter : t.max_server_id + as.length < 2 ^ 32 →
    t2.max_server_id = t.max_server_id + news.length
  new_ids : t.max_server_id + as.length < 2 ^ 32 →
    ∀ n ∈ news, t.max_server_id < n.id ∧ n.id ≤ t.max_server_id + news.length
  new_ids_distinct : t.max_server_id + as.length < 2 ^ 32 →
    (news.map (fun s => s.id)).Nodup

/-- What `invalidate_primaries_cb` leaves of an item when `primary` is the new
primary. -/
def demote (primary : ServerDescription) (item : ServerDescription) : ServerDescription :=
  (_mongoc_topology_description_invalidate_primaries_cb item primary).1

/-- The test of `remove_missing_hosts_cb`: the item is not the primary and the
primary does not list its address. -/
def missing_host (primary : ServerDescription) (item : ServerDescription) : Bool :=
  decide (primary.connection_address ≠ item.connection_address) &&
    !mongoc_server_description_has_rs_member primary item.connection_address

/-- The items after `label_unknown_member` with POSSIBLE_PRIMARY, for the
address `o` (`NULL` leaves them as they are). -/
def label_list (l : List ServerDescription) (o : Option String) : List ServerDescription :=
  match o with
  | none => l
  | some a =>
    mongoc_set_for_each_item l _mongoc_label_unknown_member_cb
      (a, ServerType.POSSIBLE_PRIMARY)

/-- The item `s2` is the item `s`, or `s` was UNKNOWN and `s2` is `s` labelled
POSSIBLE_PRIMARY. -/
def relabelled (s s2 : ServerDescription) : Prop :=
  s2 = s ∨
    (s.type = ServerType.UNKNOWN ∧
      s2 = mongoc_server_description_set_state s ServerType.POSSIBLE_PRIMARY)

/-- The two shapes of the server set that a transition for a server `d` leaves
when `d` is not accepted as primary: the set as it was, possibly without the
items stored under the id of `d`, or the set grown by the roster of `d`; in
both a possible primary may have been labelled. -/
inductive TransitionShape (t : TopologyDescription) (d : ServerDescription)
    (t2 : TopologyDescription) : Prop where
  | kept (o : Option String) (base : List ServerDescription)
      (hbase : base = t.servers ∨ base = mongoc_set_rm t.servers d.id)
      (hs : t2.servers = label_list base o)
      (hmax : t2.max_server_id = t.max_server_id) : TransitionShape t d t2
  | grown (o : Option String) (t0 : TopologyDescription)
      (h0 : t0.servers = t.servers) (hm0 : t0.max_server_id = t.max_server_id)
      (hs : t2.servers = label_list (add_all t0 (roster d)).servers o)
      (hmax : t2.max_server_id = (add_all t0 (roster d)).max_server_id) :
      TransitionShape t d t2

/-- The id and the address of each server of a list, in order. -/
def keys (l : List ServerDescription) : List (Nat × String) :=
  l.map (fun s => (s.id, s.connection_address))

/-- The servers of `t2` come from those of `t` (same id, same address) or from
the new servers `news`, whose ids the counter handed out after `t` and whose
addresses `t` did not hold. -/
structure Derived (t t2 : TopologyDescription) (news : List ServerDescription) : Prop where
  sub : ∃ mid, (keys t2.servers).Sublist mid ∧ mid.Perm (keys t.servers ++ keys news)
  counter : t.max_server_id ≤ t2.max_server_id
  new_ids : ∀ n ∈ news, t.max_server_id < n.id ∧ n.id ≤ t2.max_server_id
  new_ids_distinct : (news.map (fun s => s.id)).Nodup
  new_addresses_distinct : (news.map (fun s => s.connection_address)).Nodup
  absent : ∀ n ∈ news, ∀ s ∈ t.servers, s.connection_address ≠ n.connection_address

/-! ## Concrete inputs -/

/-- A server description with the given id, address, kind and set name, the
other fields as initialised. -/
def example_server (id : Nat) (address : String) (type : ServerType)
    (set_name : Option String) : ServerDescription :=
  { mongoc_server_description_init address id with type := type, set_name := set_name }

/-- A compatible topology without callbacks. -/
def example_topology (type : TopologyType) (servers : List ServerDescription)
    (set_name : Option String) (max_server_id : Nat) : TopologyDescription :=
  { type := type, servers := servers, set_name := set_name, compatible := true,
    compatibility_error := none, stale := true, max_server_id := max_server_id,
    cb_add := false, cb_rm := false, events := [] }

/-- A response of a replica set member: its set name, whether it is master or
secondary, its hosts and the primary it names. -/
def example_response (setName : Option String) (ismaster secondary : Bool)
    (hosts : List String) (primary : Option String) : IsMasterResponse :=
  { isreplicaset := false, msg_isdbgrid := false, setName := setName, ismaster := ismaster,
    secondary := secondary, arbiterOnly := false, hosts := hosts, passives := [],
    arbiters := [], primary := primary }

/-- A read preference with mode NEAREST whose filter keeps every candidate. -/
def example_prefs : ReadPrefs :=
  { mode := ReadMode.NEAREST, eligible := fun _ _ => true }

/-- Replica set "rs0" with primary A and secondary B. -/
def topology_rs0 : TopologyDescription :=
  example_topology TopologyType.RS_WITH_PRIMARY
    [example_server 1 "A" ServerType.RS_PRIMARY (some "rs0"),
     example_server 2 "B" ServerType.RS_SECONDARY (some "rs0")]
    (some "rs0") 2

/-- The member answers as a secondary of "rs0" and names no primary. -/
def response_secondary_rs0 : IsMasterResponse :=
  example_response (some "rs0") false true ["A", "B"] none

/-- An incompatible sharded topology with one mongos. -/
def topology_incompatible : TopologyDescription :=
  { example_topology TopologyType.SHARDED [example_server 1 "M1" ServerType.MONGOS none] none 1
    with compatible := false }

/-- A sharded topology with three mongos at 15, 30 and 90 ms. -/
def topology_sharded : TopologyDescription :=
  example_topology TopologyType.SHARDED
    [{ example_server 1 "M1" ServerType.MONGOS none with round_trip_time := 15 },
     { example_server 2 "M2" ServerType.MONGOS none with round_trip_time := 30 },
     { example_server 3 "M3" ServerType.MONGOS none with round_trip_time := 90 }]
    none 3

/-- Two seeds A and B of a topology that is not discovered yet. -/
def topology_two_seeds : TopologyDescription :=
  example_topology TopologyType.UNKNOWN
    [example_server 1 "A" ServerType.UNKNOWN none, example_server 2 "B" ServerType.UNKNOWN none]
    none 2

/-- The answer of a standalone: no set name, not a replica set, not a mongos. -/
def response_standalone : IsMasterResponse :=
  example_response none true false [] none

/-- A primary of the replica set "other" that lists the hosts "D" and "X". -/
def response_primary_other : IsMasterResponse :=
  example_response (some "other") true false ["D", "X"] none

/-- Replica set "rs0" with primary B and a freshly added D. -/
def topology_rs0_with_D : TopologyDescription :=
  example_topology TopologyType.RS_WITH_PRIMARY
    [example_server 2 "B" ServerType.RS_PRIMARY (some "rs0"),
     example_server 4 "D" ServerType.UNKNOWN none]
    (some "rs0") 4

/-- A topology of kind SINGLE that carries the set name "rs0"; its server is D. -/
def topology_single_named : TopologyDescription :=
  example_topology TopologyType.SINGLE [example_server 1 "D" ServerType.UNKNOWN none]
    (some "rs0") 1

/-- Replica set "rs0" in which the servers D and E are stored under the same
id. -/
def topology_shared_id : TopologyDescription :=
  example_topology TopologyType.RS_NO_PRIMARY
    [example_server 1 "D" ServerType.UNKNOWN none,
     example_server 1 "E" ServerType.RS_SECONDARY (some "rs0")]
    (some "rs0") 1

/-- The primary P of "rs0" whose hosts roster lists only "X". -/
def primary_P (id : Nat) : ServerDescription :=
  { example_server id "P" ServerType.RS_PRIMARY (some "rs0") with hosts := ["X"] }

/-- P, the listed X and the unlisted Q, the last two stored under one id. -/
def topology_roster_shared_id : TopologyDescription :=
  example_topology TopologyType.RS_NO_PRIMARY
    [primary_P 1, example_server 2 "X" ServerType.UNKNOWN none,
     example_server 2 "Q" ServerType.UNKNOWN none]
    (some "rs0") 2

/-- The unlisted Q under id 0 and P under id 1, the counter at its last value. -/
def topology_roster_wrap : TopologyDescription :=
  example_topology TopologyType.RS_NO_PRIMARY
    [example_server 0 "Q" ServerType.UNKNOWN none, primary_P 1] (some "rs0") 4294967295

/-- P under id 1 and the unlisted Q under id 2, the counter still at 1. -/
def topology_roster_ahead : TopologyDescription :=
  example_topology TopologyType.RS_NO_PRIMARY
    [primary_P 1, example_server 2 "Q" ServerType.UNKNOWN none] (some "rs0") 1

/-- P under id 1 and the unlisted Q under id 2, the counter at 2. -/
def topology_roster : TopologyDescription :=
  example_topology TopologyType.RS_NO_PRIMARY
    [primary_P 1, example_server 2 "Q" ServerType.UNKNOWN none] (some "rs0") 2

/-- The answer of the primary of "rs0" with the hosts A and B. -/
def response_primary_rs0 : IsMasterResponse :=
  example_response (some "rs0") true false ["A", "B"] none

/-- Replica set "rs0" in which B (UNKNOWN) and the primary A are stored under
the same id. -/
def topology_primary_shared_id : TopologyDescription :=
  example_topology TopologyType.RS_WITH_PRIMARY
    [example_server 1 "B" ServerType.UNKNOWN none,
     example_server 1 "A" ServerType.RS_PRIMARY (some "rs0")]
    (some "rs0") 1

/-- Replica set "rs0" with primary A and the server B not yet contacted. -/
def topology_dual_primary : TopologyDescription :=
  example_topology TopologyType.RS_WITH_PRIMARY
    [example_server 1 "A" ServerType.RS_PRIMARY (some "rs0"),
     example_server 2 "B" ServerType.UNKNOWN none]
    (some "rs0") 2

/-- A server A under id 0 and the counter at its last value. -/
def topology_counter_wrap : TopologyDescription :=
  example_topology TopologyType.UNKNOWN [example_server 0 "A" ServerType.UNKNOWN none] none
    4294967295

/-- A topology of kind SINGLE with the standalone S. -/
def topology_single : TopologyDescription :=
  example_topology TopologyType.SINGLE
    [{ example_server 1 "S" ServerType.STANDALONE none with round_trip_time := 40 }] none 1

/-- A topology of kind RS_WITH_PRIMARY that holds a standalone S before the
primary P of "rs0". -/
def topology_standalone_first : TopologyDescription :=
  example_topology TopologyType.RS_WITH_PRIMARY
    [example_server 1 "S" ServerType.STANDALONE none,
     example_server 2 "P" ServerType.RS_PRIMARY (some "rs0")]
    (some "rs0") 2

/-- A topology of kind UNKNOWN whose only server is the standalone S. -/
def topology_only_standalone : TopologyDescription :=
  example_topology TopologyType.UNKNOWN [example_server 1 "S" ServerType.STANDALONE none] none 1

/-- A read preference with mode SECONDARY_PREFERRED whose filter keeps the
candidates of kind RS_PRIMARY only, as a tag set that only the primary
carries does. -/
def prefs_secondary_preferred_primary_tag : ReadPrefs :=
  { mode := ReadMode.SECONDARY_PREFERRED,
    eligible := fun _ s => decide (s.type = ServerType.RS_PRIMARY) }

/-- The context `data` of `suitable_servers` after the iteration of
`_mongoc_replica_set_read_suitable_cb` over the servers of a replica set. -/
def read_suitable_data (t : TopologyDescription) (rp : ReadPrefs) : mongoc_suitable_data_t :=
  mongoc_set_for_each t.servers _mongoc_replica_set_read_suitable_cb
    { read_mode := rp.mode, topology_type := t.type, primary := none, candidates := [],
      has_secondary := false }

/-- The loop that strikes the primaries from the candidates. -/
def strike_primaries (candidates : List (Option ServerDescription)) :
    List (Option ServerDescription) :=
  candidates.map (fun c =>
    match c with
    | some s => if s.type = ServerType.RS_PRIMARY then none else some s
    | none => none)

/-- A read preference with the given mode whose filter keeps every candidate. -/
def prefs_with_mode (mode : ReadMode) : ReadPrefs :=
  { mode := mode, eligible := fun _ _ => true }

/-- The kinds of a replica set member that carries a set name: RS_PRIMARY,
RS_SECONDARY, RS_ARBITER and RS_OTHER. -/
def rs_kind (s : ServerDescription) : Prop :=
  s.type = ServerType.RS_PRIMARY ∨ s.type = ServerType.RS_SECONDARY ∨
    s.type = ServerType.RS_ARBITER ∨ s.type = ServerType.RS_OTHER

instance (s : ServerDescription) : Decidable (rs_kind s) := by
  unfold rs_kind; infer_instance

/-- Set-name agreement: when the topology has a set name, every server of the
set of kind RS_PRIMARY, RS_SECONDARY, RS_ARBITER or RS_OTHER has that set
name. -/
def set_name_agreement (t : TopologyDescription) : Prop :=
  t.set_name.isSome = true → ∀ s ∈ t.servers, rs_kind s → s.set_name = t.set_name

instance (t : TopologyDescription) : Decidable (set_name_agreement t) := by
  unfold set_name_agreement; infer_instance

/-- The states reachable from `mongoc_topology_description_init` with kind
UNKNOWN or RS_NO_PRIMARY by calls of `mongoc_topology_description_add_server`
and of `mongoc_topology_description_handle_ismaster` (with any pointer, response,
round-trip time and error) that return. -/
inductive Reachable : TopologyDescription → Prop where
  | init (type : TopologyType) (cb_add cb_rm : Bool) (t : TopologyDescription)
      (hk : type = TopologyType.UNKNOWN ∨ type = TopologyType.RS_NO_PRIMARY)
      (h : mongoc_topology_description_init type cb_add cb_rm = some t) : Reachable t
  | add_server (t : TopologyDescription) (address : String) (h : Reachable t) :
      Reachable (mongoc_topology_description_add_server t address).1
  | handle_ismaster (t : TopologyDescription) (sd : SdPtr)
      (ismaster_response : Option IsMasterResponse) (rtt_msec : Int) (error : Bool)
      (r : HandleResult) (h : Reachable t)
      (hr : mongoc_topology_description_handle_ismaster t sd ismaster_response rtt_msec
        error = some r) : Reachable r.topology

/-- What a transition for the server `d` does to the set name, the kind and the
replica set members of `t`, giving `t2`: no server becomes a member; the set
name stays or, if there was none, becomes that of `d`; `d` stays in the set as
a member only under its own set name; the kind leaves the replica set kinds
only with the set name untouched; and the kind RS_WITH_PRIMARY comes with a set
name. -/
structure Outcome (t : TopologyDescription) (d : ServerDescription)
    (t2 : TopologyDescription) : Prop where
  rs_from : ∀ s ∈ t2.servers, rs_kind s → s ∈ t.servers
  name : t2.set_name = t.set_name ∨
    (t.set_name = none ∧ t2.set_name = d.set_name ∧ d.set_name.isSome = true)
  agree : d ∈ t2.servers → rs_kind d → t2.set_name = d.set_name
  kind : (t2.type = TopologyType.RS_NO_PRIMARY ∨ t2.type = TopologyType.RS_WITH_PRIMARY) ∨
    (t2.set_name = t.set_name ∧ (t2.type = t.type ∨ t.type = TopologyType.UNKNOWN))
  known : t2.type = TopologyType.RS_WITH_PRIMARY →
    t2.set_name.isSome = true ∨
      (t.type = TopologyType.RS_WITH_PRIMARY ∧ t2.set_name = t.set_name)

/-- The invariant of the reachable states behind set-name agreement: the
agreement itself; without a set name no server is a replica set member, unless
the kind is SINGLE; a set name comes with a replica set kind; and the kind
RS_WITH_PRIMARY comes with a set name. -/
structure Agreement (t : TopologyDescription) : Prop where
  agree : set_name_agreement t
  unnamed : t.set_name = none → t.type ≠ TopologyType.SINGLE →
    ∀ s ∈ t.servers, ¬rs_kind s
  kinds : t.set_name.isSome = true →
    t.type = TopologyType.RS_NO_PRIMARY ∨ t.type = TopologyType.RS_WITH_PRIMARY
  known : set_name_known t

/-- The member answers as a secondary of "rs0" and names B as primary. -/
def response_secondary_names_B : IsMasterResponse :=
  example_response (some "rs0") false true ["A", "B"] (some "B")

/-- The description of A after the response `response_secondary_names_B` with
a round-trip time of 5. -/
def member_A_after_handshake : ServerDescription :=
  { id := 1, connection_address := "A", type := ServerType.RS_SECONDARY, round_trip_time := 5,
    set_name := some "rs0", current_primary := some "B", hosts := ["A", "B"], passives := [],
    arbiters := [] }

/-- The topology after `init` with kind UNKNOWN, `add_server` of the seeds A and
B, and the handshake of A with `response_secondary_names_B`. -/
def topology_after_first_handshake : TopologyDescription :=
  example_topology TopologyType.RS_NO_PRIMARY
    [member_A_after_handshake, example_server 2 "B" ServerType.POSSIBLE_PRIMARY none]
    (some "rs0") 2

/-- A topology still of kind UNKNOWN whose servers already have the kinds
RS_PRIMARY, STANDALONE and MONGOS. -/
def topology_unknown_mixed : TopologyDescription :=
  example_topology TopologyType.UNKNOWN
    [example_server 1 "A" ServerType.RS_PRIMARY (some "rs0"),
     example_server 2 "S" ServerType.STANDALONE none,
     example_server 3 "M" ServerType.MONGOS none]
    none 3

/-- The candidate array a read in a replica set collects in a mode that does
not stop at the primary: the servers
`_mongoc_topology_description_server_is_candidate` admits, in set order. -/
def read_candidates (t : TopologyDescription) (mode : ReadMode) : List ServerDescription :=
  t.servers.filter (fun s =>
    _mongoc_topology_description_server_is_candidate s.type mode t.type)

/-- The entries of the candidate array that the filter of the read preference
does not set to `NULL`. -/
def kept_candidates (candidates : List ServerDescription) (rp : ReadPrefs) :
    List ServerDescription :=
  candidates.filter (rp.eligible candidates)

/-- Replica set "rs0" with the primary P at 10 ms, the secondaries S1 at 20 ms
and S2 at 50 ms, and the arbiter R at 1 ms. -/
def topology_rs0_latencies : TopologyDescription :=
  example_topology TopologyType.RS_WITH_PRIMARY
    [{ example_server 1 "P" ServerType.RS_PRIMARY (some "rs0") with round_trip_time := 10 },
     { example_server 2 "S1" ServerType.RS_SECONDARY (some "rs0") with round_trip_time := 20 },
     { example_server 3 "S2" ServerType.RS_SECONDARY (some "rs0") with round_trip_time := 50 },
     { example_server 4 "R" ServerType.RS_ARBITER (some "rs0") with round_trip_time := 1 }]
    (some "rs0") 4

/-- Replica set "rs0" whose only primary P is stored after a standalone S. -/
def topology_standalone_and_primary : TopologyDescription :=
  example_topology TopologyType.RS_WITH_PRIMARY
    [example_server 1 "S" ServerType.STANDALONE none,
     example_server 2 "P" ServerType.RS_PRIMARY (some "rs0")]
    (some "rs0") 2

/-- The kinds a handshake may leave for a topology of kind `k`: SINGLE and
SHARDED stay, the two replica set kinds stay replica set kinds, and UNKNOWN may
become any kind. -/
def kind_step (k k2 : TopologyType) : Prop :=
  match k with
  | TopologyType.UNKNOWN => True
  | TopologyType.SINGLE => k2 = TopologyType.SINGLE
  | TopologyType.SHARDED => k2 = TopologyType.SHARDED
  | TopologyType.RS_NO_PRIMARY | TopologyType.RS_WITH_PRIMARY =>
    k2 = TopologyType.RS_NO_PRIMARY ∨ k2 = TopologyType.RS_WITH_PRIMARY

/-- The states reachable from `mongoc_topology_description_init` with any kind
it permits (UNKNOWN, SINGLE or RS_NO_PRIMARY) by calls of
`mongoc_topology_description_add_server` and of
`mongoc_topology_description_handle_ismaster` that return. -/
inductive Reached : TopologyDescription → Prop where
  | init (type : TopologyType) (cb_add cb_rm : Bool) (t : TopologyDescription)
      (h : mongoc_topology_description_init type cb_add cb_rm = some t) : Reached t
  | add_server (t : TopologyDescription) (address : String) (h : Reached t) :
      Reached (mongoc_topology_description_add_server t address).1
  | handle_ismaster (t : TopologyDescription) (sd : SdPtr)
      (ismaster_response : Option IsMasterResponse) (rtt_msec : Int) (error : Bool)
      (r : HandleResult) (h : Reached t)
      (hr : mongoc_topology_description_handle_ismaster t sd ismaster_response rtt_msec
        error = some r) : Reached r.topology

/-- The member answers as primary of "rs0" with the hosts A and B. -/
def response_primary_rs0_AB : IsMasterResponse :=
  example_response (some "rs0") true false ["A", "B"] none

/-- The description of B after the response `response_primary_rs0_AB` with a
round-trip time of 7. -/
def member_B_after_handshake : ServerDescription :=
  { id := 2, connection_address := "B", type := ServerType.RS_PRIMARY, round_trip_time := 7,
    set_name := some "rs0", current_primary := none, hosts := ["A", "B"], passives := [],
    arbiters := [] }

/-- The topology `topology_after_first_handshake` after the handshake of B with
`response_primary_rs0_AB`. -/
def topology_after_second_handshake : TopologyDescription :=
  example_topology TopologyType.RS_WITH_PRIMARY
    [member_A_after_handshake, member_B_after_handshake] (some "rs0") 2

/-- The states a sequence of `mongoc_topology_description_handle_ismaster`
calls that return leads to from `t`. -/
inductive Handshakes (t : TopologyDescription) : TopologyDescription → Prop where
  | refl : Handshakes t t
  | step (t2 : TopologyDescription) (sd : SdPtr)
      (ismaster_response : Option IsMasterResponse) (rtt_msec : Int) (error : Bool)
      (r : HandleResult) (h : Handshakes t t2)
      (hr : mongoc_topology_description_handle_ismaster t2 sd ismaster_response rtt_msec
        error = some r) : Handshakes t r.topology

/-- The description of the seed A after the response `response_standalone` with
a round-trip time of 5. -/
def standalone_A_after_handshake : ServerDescription :=
  { id := 1, connection_address := "A", type := ServerType.STANDALONE, round_trip_time := 5,
    set_name := none, current_primary := none, hosts := [], passives := [], arbiters := [] }

/-- The topology after `init` with kind UNKNOWN, the seed A, and the handshake
of A with `response_standalone`. -/
def topology_single_after_handshake : TopologyDescription :=
  example_topology TopologyType.SINGLE [standalone_A_after_handshake] none 1

/-- The states a sequence of `add_server` and `handle_ismaster` calls (so also
`invalidate_server` calls) leads to from `t` while the counter `max_server_id`
does not wrap: each `add_server` starts below 2^32 - 1, and each handshake
leaves room for the roster of the description. -/
inductive Steps (t : TopologyDescription) : TopologyDescription → Prop where
  | refl : Steps t t
  | add_server (t2 : TopologyDescription) (address : String) (h : Steps t t2)
      (hw : t2.max_server_id + 1 < 2 ^ 32) :
      Steps t (mongoc_topology_description_add_server t2 address).1
  | handle_ismaster (t2 : TopologyDescription) (sd : SdPtr)
      (ismaster_response : Option IsMasterResponse) (rtt_msec : Int) (error : Bool)
      (r : HandleResult) (h : Steps t t2)
      (hw : ∀ d0, sd.deref t2 = some d0 →
        t2.max_server_id +
          (roster (mongoc_server_description_handle_ismaster d0 ismaster_response rtt_msec
            error)).length < 2 ^ 32)
      (hr : mongoc_topology_description_handle_ismaster t2 sd ismaster_response rtt_msec
        error = some r) : Steps t r.topology

/-- Replica set "rs0" of kind RS_WITH_PRIMARY with the primary A and the server
B that was not contacted yet. -/
def topology_rs0_primary_and_unknown : TopologyDescription :=
  example_topology TopologyType.RS_WITH_PRIMARY
    [example_server 1 "A" ServerType.RS_PRIMARY (some "rs0"),
     example_server 2 "B" ServerType.UNKNOWN none]
    (some "rs0") 2

/-- The member answers as a secondary of the set "other" and names B as
primary. -/
def response_rogue_secondary : IsMasterResponse :=
  example_response (some "other") false true ["A", "B"] (some "B")

/-- A topology of kind RS_NO_PRIMARY with the seed A. -/
def topology_seed_A : TopologyDescription :=
  example_topology TopologyType.RS_NO_PRIMARY [example_server 1 "A" ServerType.UNKNOWN none]
    none 1

/-- The member answers as a secondary of "rs0" with the hosts A, B and C and
names B as primary. -/
def response_secondary_ABC : IsMasterResponse :=
  example_response (some "rs0") false true ["A", "B", "C"] (some "B")

/-- Replica set "rs0" of kind RS_NO_PRIMARY that holds the secondary A, the
possible primary B and even a server P of kind RS_PRIMARY. -/
def topology_no_primary_kind : TopologyDescription :=
  example_topology TopologyType.RS_NO_PRIMARY
    [example_server 1 "A" ServerType.RS_SECONDARY (some "rs0"),
     example_server 2 "B" ServerType.POSSIBLE_PRIMARY none,
     example_server 3 "P" ServerType.RS_PRIMARY (some "rs0")]
    (some "rs0") 3

/-- The description of A after its answer `response_rogue_secondary`: a
secondary of the set "other" that names B as primary. -/
def rogue_member_after_handshake : ServerDescription :=
  mongoc_server_description_handle_ismaster
    (example_server 1 "A" ServerType.RS_PRIMARY (some "rs0")) (some response_rogue_secondary)
    5 false

/-- The topology `topology_rs0_primary_and_unknown` after the answer of A was
stored and `remove_server` took A out of the set. -/
def topology_rogue_member_removed : TopologyDescription :=
  _mongoc_topology_description_remove_server
    (SdPtr.store topology_rs0_primary_and_unknown (SdPtr.item 1) rogue_member_after_handshake)
    rogue_member_after_handshake

/-- A topology of kind UNKNOWN in which the seeds A and B are stored under the
same id. -/
def topology_unknown_shared_id : TopologyDescription :=
  example_topology TopologyType.UNKNOWN
    [example_server 1 "A" ServerType.UNKNOWN none,
     example_server 1 "B" ServerType.UNKNOWN none]
    none 1

/-! ## Lemmas about the embedding -/

theorem for_each_has_server (l : List ServerDescription) (a : String) (o : Option Nat) :
    (mongoc_set_for_each l _mongoc_topology_description_has_server_cb (a, o)).2 =
      match l.find? (fun s => decide (a = s.connection_address)) with
      | some s => some s.id
      | none => o := by
  induction l with
  | nil => simp [mongoc_set_for_each]
  | cons x xs ih =>
    by_cases h : a = x.connection_address
    · simp [mongoc_set_for_each, _mongoc_topology_description_has_server_cb, h]
    · simp [mongoc_set_for_each, _mongoc_topology_description_has_server_cb, h, ih]

theorem has_server_eq (t : TopologyDescription) (a : String) :
    _mongoc_topology_description_has_server t a =
      (t.servers.find? (fun s => decide (a = s.connection_address))).map (fun s => s.id) := by
  unfold _mongoc_topology_description_has_server
  rw [for_each_has_server]
  cases t.servers.find? (fun s => decide (a = s.connection_address)) <;> rfl

theorem has_server_isNone_iff (t : TopologyDescription) (a : String) :
    (_mongoc_topology_description_has_server t a).isNone = true ↔
      ∀ s ∈ t.servers, s.connection_address ≠ a := by
  rw [has_server_eq]
  simp [List.find?_eq_none]
  constructor
  · intro h s hs e; exact h s hs e.symm
  · intro h s hs e; exact h s hs e.symm

theorem for_each_has_primary (l : List ServerDescription) (o : Option ServerDescription) :
    mongoc_set_for_each l _mongoc_topology_description_has_primary_cb o =
      match l.find? (fun s => decide (s.type = ServerType.RS_PRIMARY ∨
          s.type = ServerType.STANDALONE)) with
      | some s => some s
      | none => o := by
  induction l generalizing o with
  | nil => simp [mongoc_set_for_each]
  | cons x xs ih =>
    by_cases h : x.type = ServerType.RS_PRIMARY ∨ x.type = ServerType.STANDALONE
    · simp [mongoc_set_for_each, _mongoc_topology_description_has_primary_cb, h]
    · simp [mongoc_set_for_each, _mongoc_topology_description_has_primary_cb, h, ih]

/-! ## C1: invariant 3 under a handshake -/

/-- C1 (evaluation at the failing input): in the replica set "rs0" with primary
A and secondary B, invariant 3 holds; A then answers as a secondary of "rs0"
that names no primary. The handshake returns, the kind is still
RS_WITH_PRIMARY and no server is RS_PRIMARY: invariant 3 is lost. -/
theorem C1_invariant3_lost_when_primary_steps_down :
    invariant3 topology_rs0 ∧
    ∃ r, mongoc_topology_description_handle_ismaster topology_rs0 (SdPtr.item 1)
        (some response_secondary_rs0) 5 false = some r ∧
      r.ret = true ∧ r.topology.type = TopologyType.RS_WITH_PRIMARY ∧
      (∀ s ∈ r.topology.servers, s.type ≠ ServerType.RS_PRIMARY) ∧
      ¬ invariant3 r.topology :=
  ⟨by decide, _, rfl, by decide, by decide, by decide, by decide⟩

theorem latency_window_nil (thr : Nat) : latency_window [] thr = [] := rfl

theorem suitable_servers_unknown (optype : OpType) (t : TopologyDescription) (rp : ReadPrefs)
    (thr : Nat) (h : t.type = TopologyType.UNKNOWN) :
    mongoc_topology_description_suitable_servers optype t rp thr = some [] := by
  simp [mongoc_topology_description_suitable_servers, h, latency_window_nil]

theorem select_unknown (t : TopologyDescription) (optype : OpType) (rp : ReadPrefs)
    (thr : Int) (rv : Nat) (h : t.type = TopologyType.UNKNOWN) :
    mongoc_topology_description_select t optype rp thr rv = some none := by
  unfold mongoc_topology_description_select
  rw [suitable_servers_unknown optype t rp _ h]
  cases t.compatible <;> simp

theorem find_mongoc_set_add (l : List ServerDescription) (x : ServerDescription)
    (p : ServerDescription → Bool) (hl : l.find? p = none) (hx : p x = true) :
    (mongoc_set_add l x).find? p = some x := by
  induction l with
  | nil => simp [mongoc_set_add, hx]
  | cons y ys ih =>
    have hy : p y = false := by
      cases hpy : p y
      · rfl
      · simp [List.find?, hpy] at hl
    have hys : ys.find? p = none := by simpa [List.find?, hy] using hl
    unfold mongoc_set_add
    split
    · simp [List.find?, hx]
    · simp [List.find?, hy, ih hys]

/-! ## C4: a standalone among two seeds -/

/-- C4 (counterexample): with the two seeds A and B in a topology of kind
UNKNOWN, the handshake of A as a standalone removes A and keeps B, leaves the
kind UNKNOWN, and a selection then returns `NULL`; the claim expects B
removed, A kept, kind SINGLE and A selected. -/
theorem C4_counterexample_standalone_among_two_seeds :
    ∃ r, mongoc_topology_description_handle_ismaster topology_two_seeds (SdPtr.item 1)
        (some response_standalone) 5 false = some r ∧
      r.topology.servers = [example_server 2 "B" ServerType.UNKNOWN none] ∧
      r.topology.type = TopologyType.UNKNOWN ∧
      mongoc_topology_description_select r.topology OpType.WRITE example_prefs 15 0 =
        some none :=
  ⟨_, rfl, by decide, by decide, by decide⟩

theorem mongoc_set_get_some {l : List ServerDescription} {id : Nat} {s : ServerDescription}
    (h : mongoc_set_get l id = some s) : s ∈ l ∧ s.id = id := by
  unfold mongoc_set_get at h
  exact ⟨List.mem_of_find?_eq_some h, by simpa using List.find?_some h⟩

theorem has_server_isSome_of_mem {t : TopologyDescription} {s : ServerDescription}
    (h : s ∈ t.servers) :
    (_mongoc_topology_description_has_server t s.connection_address).isNone = false := by
  cases hn : (_mongoc_topology_description_has_server t s.connection_address).isNone
  · rfl
  · exact absurd rfl ((has_server_isNone_iff t s.connection_address).1 hn s h)

theorem store_type (t : TopologyDescription) (p : SdPtr) (d : ServerDescription) :
    (SdPtr.store t p d).type = t.type := by
  cases p <;> rfl

/-- The handshake of an item of the set: the description is updated in the
set, then the transition of the table runs. -/
theorem handle_ismaster_item (t : TopologyDescription) (id : Nat) (s : ServerDescription)
    (resp : Option IsMasterResponse) (rtt : Int) (err : Bool)
    (h : mongoc_set_get t.servers id = some s) :
    mongoc_topology_description_handle_ismaster t (SdPtr.item id) resp rtt err =
      match gSDAMTransitionTable
          (mongoc_server_description_handle_ismaster s resp rtt err).type t.type with
      | none =>
        some { ret := true,
               topology := SdPtr.store t (SdPtr.item id)
                 (mongoc_server_description_handle_ismaster s resp rtt err),
               sd := some (mongoc_server_description_handle_ismaster s resp rtt err) }
      | some transition =>
        (transition
          (SdPtr.store t (SdPtr.item id)
            (mongoc_server_description_handle_ismaster s resp rtt err))
          (mongoc_server_description_handle_ismaster s resp rtt err)).map
          (fun t2 => { ret := true, topology := t2,
                       sd := some (mongoc_server_description_handle_ismaster s resp rtt err) }) := by
  have hs := has_server_isSome_of_mem (mongoc_set_get_some h).1
  simp only [mongoc_topology_description_handle_ismaster, SdPtr.deref, h, hs, store_type]
  simp only [Bool.false_eq_true, if_false]
  cases gSDAMTransitionTable
      (mongoc_server_description_handle_ismaster s resp rtt err).type t.type with
  | none => rfl
  | some f =>
    simp only
    cases f (SdPtr.store t (SdPtr.item id)
      (mongoc_server_description_handle_ismaster s resp rtt err))
      (mongoc_server_description_handle_ismaster s resp rtt err) <;> rfl

theorem handle_ismaster_type_of_response (s : ServerDescription) (resp : IsMasterResponse)
    (rtt : Int) :
    (mongoc_server_description_handle_ismaster s (some resp) rtt false).type = classify resp :=
  rfl

/-- C4 (amended): in a topology of kind UNKNOWN whose set holds exactly the two
seeds A and B, with different ids, the handshake of A classified as
STANDALONE returns `true`, removes A and keeps B as it was, leaves the kind
UNKNOWN, and afterwards `suitable_servers` is empty and `select` returns
`NULL` for every operation, read preference, threshold and draw. -/
theorem C4_standalone_among_two_seeds_is_removed (t : TopologyDescription)
    (A B : ServerDescription) (resp : IsMasterResponse) (rtt : Int)
    (hkind : t.type = TopologyType.UNKNOWN)
    (hset : t.servers = [A, B] ∨ t.servers = [B, A]) (hid : A.id ≠ B.id)
    (hresp : classify resp = ServerType.STANDALONE) :
    ∃ r, mongoc_topology_description_handle_ismaster t (SdPtr.item A.id) (some resp) rtt
        false = some r ∧
      r.ret = true ∧ r.topology.servers = [B] ∧ r.topology.type = TopologyType.UNKNOWN ∧
      ∀ (optype : OpType) (rp : ReadPrefs) (thr : Int) (rv : Nat),
        mongoc_topology_description_suitable_servers optype r.topology rp (to_size_t thr) =
          some [] ∧
        mongoc_topology_description_select r.topology optype rp thr rv = some none := by
  have hid' : B.id ≠ A.id := fun h => hid h.symm
  have hget : mongoc_set_get t.servers A.id = some A := by
    rcases hset with hs | hs <;> simp [mongoc_set_get, hs, List.find?, hid']
  have hcall := handle_ismaster_item t A.id A (some resp) rtt false hget
  rw [handle_ismaster_type_of_response, hresp, hkind] at hcall
  simp only [gSDAMTransitionTable, Option.map] at hcall
  refine ⟨_, hcall, rfl, ?_, ?_, ?_⟩
  · rcases hset with hs | hs <;>
      simp [_mongoc_topology_description_update_unknown_with_standalone, has_server_eq, SdPtr.store,
        _mongoc_topology_description_remove_server, mongoc_set_rm, hs, write_item, hid, hid',
        mongoc_server_description_handle_ismaster]
  · rcases hset with hs | hs <;>
      simp [_mongoc_topology_description_update_unknown_with_standalone, has_server_eq, SdPtr.store,
        _mongoc_topology_description_remove_server, hs, write_item, hid, hid',
        mongoc_server_description_handle_ismaster, hkind]
  · intro optype rp thr rv
    have hk : (_mongoc_topology_description_update_unknown_with_standalone
        (SdPtr.store t (SdPtr.item A.id)
          (mongoc_server_description_handle_ismaster A (some resp) rtt false))
        (mongoc_server_description_handle_ismaster A (some resp) rtt false)).type =
        TopologyType.UNKNOWN := by
      rcases hset with hs | hs <;>
        simp [_mongoc_topology_description_update_unknown_with_standalone, has_server_eq, SdPtr.store,
          _mongoc_topology_description_remove_server, hs, write_item, hid, hid',
          mongoc_server_description_handle_ismaster, hkind]
    exact ⟨suitable_servers_unknown _ _ _ _ hk, select_unknown _ _ _ _ _ hk⟩

/-- C4 (witness): the amended statement at the seeds A and B of
`topology_two_seeds`. -/
theorem C4_witness :
    ∃ r, mongoc_topology_description_handle_ismaster topology_two_seeds (SdPtr.item 1)
        (some response_standalone) 5 false = some r ∧
      r.ret = true ∧
      r.topology.servers = [example_server 2 "B" ServerType.UNKNOWN none] ∧
      r.topology.type = TopologyType.UNKNOWN ∧
      ∀ (optype : OpType) (rp : ReadPrefs) (thr : Int) (rv : Nat),
        mongoc_topology_description_suitable_servers optype r.topology rp (to_size_t thr) =
          some [] ∧
        mongoc_topology_description_select r.topology optype rp thr rv = some none :=
  C4_standalone_among_two_seeds_is_removed topology_two_seeds
    (example_server 1 "A" ServerType.UNKNOWN none) (example_server 2 "B" ServerType.UNKNOWN none)
    response_standalone 5 (by decide) (Or.inl (by decide)) (by decide) (by decide)

/-! ## C9 and C10: `select` -/

/-- C9: when `topology.compatible` is false, `select` returns `NULL` for every
operation, read preference, threshold and draw, whatever the server set
holds; it does so before looking at the servers. -/
theorem C9_select_disabled_when_incompatible (t : TopologyDescription)
    (h : t.compatible = false) (optype : OpType) (rp : ReadPrefs) (thr : Int) (rv : Nat) :
    mongoc_topology_description_select t optype rp thr rv = some none := by
  simp [mongoc_topology_description_select, h]

/-- C9 (witness): an incompatible sharded topology with a mongos in it. -/
theorem C9_witness :
    topology_incompatible.compatible = false ∧
    topology_incompatible.servers ≠ [] ∧
    mongoc_topology_description_select topology_incompatible OpType.READ example_prefs 15 7 =
      some none :=
  ⟨by decide, by decide,
    C9_select_disabled_when_incompatible topology_incompatible (by decide) _ _ _ _⟩

/-- The function `suitable_servers` returns a list, unless the kind is SINGLE
and the set is empty. -/
theorem suitable_servers_returns (optype : OpType) (t : TopologyDescription) (rp : ReadPrefs)
    (thr : Nat) (h : t.type = TopologyType.SINGLE → t.servers ≠ []) :
    ∃ l, mongoc_topology_description_suitable_servers optype t rp thr = some l := by
  rw [← Option.isSome_iff_exists]
  unfold mongoc_topology_description_suitable_servers
  simp only
  split
  · rename_i hk
    cases hs : t.servers with
    | nil => exact absurd hs (h hk)
    | cons server rest => simp only; split <;> rfl
  · repeat' split
    all_goals rfl

/-- C10 (counterexample): the topology that `init` makes for the kind SINGLE
is compatible and holds no server; `suitable_servers` reads `items[0]` of the
empty set, and `select` returns neither `NULL` nor a server. -/
theorem C10_counterexample_single_without_server :
    mongoc_topology_description_init TopologyType.SINGLE false false =
      some (example_topology TopologyType.SINGLE [] none 0) ∧
    (example_topology TopologyType.SINGLE [] none 0).compatible = true ∧
    mongoc_topology_description_suitable_servers OpType.READ
      (example_topology TopologyType.SINGLE [] none 0) example_prefs (to_size_t 15) = none ∧
    mongoc_topology_description_select (example_topology TopologyType.SINGLE [] none 0)
      OpType.READ example_prefs 15 0 = none :=
  ⟨by decide, by decide, by decide, by decide⟩

/-- C10 (amended): in a compatible topology that holds a server when its kind
is SINGLE, `suitable_servers` returns a list `l` and `select` is decided by it
for the same arguments: it returns `NULL` exactly when `l` is empty, and
otherwise the element of `l` at index `rand_val mod length`, which is a member
of `l`. -/
theorem C10_select_picks_from_suitable (t : TopologyDescription) (h : t.compatible = true)
    (h1 : t.type = TopologyType.SINGLE → t.servers ≠ [])
    (optype : OpType) (rp : ReadPrefs) (thr : Int) (rv : Nat) :
    ∃ l, mongoc_topology_description_suitable_servers optype t rp (to_size_t thr) = some l ∧
      (mongoc_topology_description_select t optype rp thr rv = some none ↔ l = []) ∧
      (l ≠ [] → ∃ s, l.get? (rv % l.length) = some s ∧ s ∈ l ∧
        mongoc_topology_description_select t optype rp thr rv = some (some s)) := by
  obtain ⟨l, hs⟩ := suitable_servers_returns optype t rp (to_size_t thr) h1
  refine ⟨l, hs, ?_⟩
  unfold mongoc_topology_description_select
  simp only [hs, h, Bool.not_true, Bool.false_eq_true, if_false]
  by_cases hl : l = []
  · subst hl; simp
  · have hpos : 0 < l.length := List.length_pos.2 hl
    have hlt : rv % l.length < l.length := Nat.mod_lt _ hpos
    have hget : l.get? (rv % l.length) = some (l.get ⟨rv % l.length, hlt⟩) :=
      List.get?_eq_get hlt
    have hne : l.length ≠ 0 := Nat.pos_iff_ne_zero.1 hpos
    refine ⟨?_, fun _ => ⟨l.get ⟨rv % l.length, hlt⟩, hget, List.get_mem _ _ _, ?_⟩⟩
    · simp [hne, hl, hlt]
    · simp [hne, hget]

/-- C10 (witness): three mongos at 15, 30 and 90 ms with a threshold of 20 ms;
the suitable servers are the first two and the draw 7 picks the second. -/
theorem C10_witness :
    topology_sharded.compatible = true ∧
    (mongoc_topology_description_suitable_servers OpType.READ topology_sharded example_prefs
        (to_size_t 20)).map (fun l => l.map (fun s => s.connection_address)) =
      some ["M1", "M2"] ∧
    (mongoc_topology_description_select topology_sharded OpType.READ example_prefs 20 7).map
        (fun o => o.map (fun s => s.connection_address)) = some (some "M2") ∧
    ∃ l, mongoc_topology_description_suitable_servers OpType.READ topology_sharded
        example_prefs (to_size_t 20) = some l ∧
      (mongoc_topology_description_select topology_sharded OpType.READ example_prefs 20 7 =
        some none ↔ l = []) ∧
      (l ≠ [] → ∃ s, l.get? (7 % l.length) = some s ∧ s ∈ l ∧
        mongoc_topology_description_select topology_sharded OpType.READ example_prefs 20 7 =
          some (some s)) :=
  ⟨by decide, by decide, by decide,
    C10_select_picks_from_suitable topology_sharded (by decide) (by decide) OpType.READ
      example_prefs 20 7⟩

/-! ## C7: `add_server` twice -/

theorem add_server_present (t : TopologyDescription) (a : String) (id : Nat)
    (h : _mongoc_topology_description_has_server t a = some id) :
    mongoc_topology_description_add_server t a = (t, id) := by
  simp [mongoc_topology_description_add_server, h]

theorem add_server_absent (t : TopologyDescription) (a : String)
    (h : _mongoc_topology_description_has_server t a = none) :
    mongoc_topology_description_add_server t a =
      ({ t with
         max_server_id := (t.max_server_id + 1) % 2 ^ 32
         servers := mongoc_set_add t.servers
           (mongoc_server_description_init a ((t.max_server_id + 1) % 2 ^ 32))
         events :=
           if t.cb_add then
             t.events ++
               [CbEvent.add (mongoc_server_description_init a ((t.max_server_id + 1) % 2 ^ 32))]
           else t.events },
       (t.max_server_id + 1) % 2 ^ 32) := by
  simp [mongoc_topology_description_add_server, h]

theorem has_server_after_add (t : TopologyDescription) (a : String)
    (h : _mongoc_topology_description_has_server t a = none) :
    _mongoc_topology_description_has_server (mongoc_topology_description_add_server t a).1 a =
      some ((t.max_server_id + 1) % 2 ^ 32) := by
  have hf : t.servers.find? (fun s => decide (a = s.connection_address)) = none := by
    rw [has_server_eq] at h
    cases hx : t.servers.find? (fun s => decide (a = s.connection_address)) with
    | none => rfl
    | some x => rw [hx] at h; cases h
  rw [add_server_absent t a h, has_server_eq]
  simp only
  rw [find_mongoc_set_add _ _ _ hf (by simp [mongoc_server_description_init])]
  rfl

/-- C7: `add_server` is idempotent. For every topology and address, a second
call with the same address returns the id the first call returned and leaves
the whole topology (server set, `max_server_id`, callback log) as the first
call left it; over both calls `cb.add` is called at most once, by the first
call, and only when the address was absent (and the callback is set). -/
theorem C7_add_server_idempotent (t : TopologyDescription) (a : String) :
    (mongoc_topology_description_add_server
        (mongoc_topology_description_add_server t a).1 a).2 =
      (mongoc_topology_description_add_server t a).2 ∧
    (mongoc_topology_description_add_server
        (mongoc_topology_description_add_server t a).1 a).1 =
      (mongoc_topology_description_add_server t a).1 ∧
    (mongoc_topology_description_add_server t a).1.events =
      t.events ++
        (if (_mongoc_topology_description_has_server t a).isNone = true ∧ t.cb_add = true then
          [CbEvent.add
            (mongoc_server_description_init a (mongoc_topology_description_add_server t a).2)]
         else []) := by
  cases h : _mongoc_topology_description_has_server t a with
  | some id =>
    rw [add_server_present t a id h]
    simp only [add_server_present t a id h]
    simp
  | none =>
    have h2 := has_server_after_add t a h
    rw [add_server_present _ a _ h2]
    rw [add_server_absent t a h]
    refine ⟨rfl, rfl, ?_⟩
    cases hc : t.cb_add <;> simp

/-! ## The server set as a list -/

theorem mongoc_set_add_perm (l : List ServerDescription) (x : ServerDescription) :
    (mongoc_set_add l x).Perm (x :: l) := by
  induction l with
  | nil => simp [mongoc_set_add]
  | cons y ys ih =>
    unfold mongoc_set_add
    split
    · exact List.Perm.refl _
    · exact (List.Perm.cons y ih).trans (List.Perm.swap x y ys)

theorem mem_mongoc_set_add {l : List ServerDescription} {x s : ServerDescription} :
    s ∈ mongoc_set_add l x ↔ s = x ∨ s ∈ l := by
  rw [(mongoc_set_add_perm l x).mem_iff]; simp

/-- The item that `mongoc_set_get` finds splits the list: nothing before it is
stored under the id, and `write_item` replaces exactly it. -/
theorem write_item_split {l : List ServerDescription} {id : Nat} {s : ServerDescription}
    (h : mongoc_set_get l id = some s) (d : ServerDescription) :
    ∃ l1 l2, l = l1 ++ s :: l2 ∧ (∀ x ∈ l1, x.id ≠ id) ∧ s.id = id ∧
      write_item l id d = l1 ++ d :: l2 := by
  induction l with
  | nil => simp [mongoc_set_get] at h
  | cons y ys ih =>
    by_cases hy : y.id = id
    · have : s = y := by
        simp [mongoc_set_get, List.find?, hy] at h; exact h.symm
      subst this
      exact ⟨[], ys, rfl, by simp, hy, by simp [write_item, hy]⟩
    · have h' : mongoc_set_get ys id = some s := by
        have hb : (y.id == id) = false := by simp [hy]
        simpa [mongoc_set_get, List.find?, hb] using h
      obtain ⟨l1, l2, e, hl1, hs, hw⟩ := ih h'
      refine ⟨y :: l1, l2, by simp [e], ?_, hs, by simp [write_item, hy, hw]⟩
      intro x hx
      rcases List.mem_cons.1 hx with rfl | hx
      · exact hy
      · exact hl1 x hx

theorem mongoc_set_rm_write_item {l : List ServerDescription} {id : Nat}
    {s : ServerDescription} (h : mongoc_set_get l id = some s) (d : ServerDescription)
    (hd : d.id = id) :
    mongoc_set_rm (write_item l id d) id = mongoc_set_rm l id := by
  obtain ⟨l1, l2, e, _, hs, hw⟩ := write_item_split h d
  rw [hw, e]
  simp [mongoc_set_rm, List.filter_append, List.filter_cons, hd, hs]

theorem id_injective_of_nodup {l : List ServerDescription}
    (h : (l.map (fun s => s.id)).Nodup) {x y : ServerDescription} (hx : x ∈ l) (hy : y ∈ l)
    (e : x.id = y.id) : x = y :=
  List.inj_on_of_nodup_map h hx hy e

theorem mongoc_set_rm_eq_erase {l : List ServerDescription} {s : ServerDescription}
    (hn : (l.map (fun s => s.id)).Nodup) (hs : s ∈ l) :
    mongoc_set_rm l s.id = l.erase s := by
  have hnd : l.Nodup := List.Nodup.of_map _ hn
  rw [List.Nodup.erase_eq_filter hnd]
  unfold mongoc_set_rm
  apply List.filter_congr
  intro x hx
  by_cases e : x = s
  · subst e
    rw [bne_self_eq_false, bne_self_eq_false]
  · have hne : x.id ≠ s.id := fun h => e (id_injective_of_nodup hn hx hs h)
    have h1 : (x.id != s.id) = true := bne_iff_ne.2 hne
    have h2 : (x != s) = true := bne_iff_ne.2 e
    rw [h1, h2]

/-! ## Where the transitions are defined -/

theorem classify_named (r : IsMasterResponse)
    (h : classify r = ServerType.RS_PRIMARY ∨ classify r = ServerType.RS_SECONDARY ∨
      classify r = ServerType.RS_ARBITER ∨ classify r = ServerType.RS_OTHER) :
    r.setName.isSome = true := by
  unfold classify at h
  cases hs : r.setName with
  | some n => rfl
  | none =>
    rw [hs] at h
    by_cases h1 : r.isreplicaset = true <;> by_cases h2 : r.msg_isdbgrid = true <;>
      simp [h1, h2] at h

theorem handshake_rs_member_named (s : ServerDescription) (resp : Option IsMasterResponse)
    (rtt : Int) (err : Bool) :
    rs_member_named (mongoc_server_description_handle_ismaster s resp rtt err) := by
  intro h
  cases err <;> cases resp <;>
    simp [mongoc_server_description_handle_ismaster] at h ⊢
  exact classify_named _ h

/-- A defined run of `update_rs_with_primary_from_member` read no destroyed
description: its result is that of the statements of the function in their
order. -/
theorem update_rs_with_primary_from_member_defined (t : TopologyDescription)
    (d : ServerDescription) (t2 : TopologyDescription)
    (h : _mongoc_topology_description_update_rs_with_primary_from_member t d = some t2) :
    (if (_mongoc_topology_description_has_server t d.connection_address).isNone then
      some t
    else
      match strcmp_ne t.set_name d.set_name with
      | none => none
      | some differ =>
        let topology :=
          if differ then _mongoc_topology_description_remove_server t d
          else t
        if (_mongoc_topology_description_has_primary topology).isNone ∧
            d.current_primary.isSome then
          let topology :=
            _mongoc_topology_description_set_state topology TopologyType.RS_NO_PRIMARY
          some (_mongoc_topology_description_label_unknown_member topology
            d.current_primary ServerType.POSSIBLE_PRIMARY)
        else some topology) = some t2 := by
  unfold _mongoc_topology_description_update_rs_with_primary_from_member at h
  split at h
  · rename_i hn
    rw [if_pos hn]; exact h
  · rename_i hn
    rw [if_neg hn]
    cases hcmp : strcmp_ne t.set_name d.set_name with
    | none => simp only [hcmp] at h; cases h
    | some differ =>
      simp only [hcmp] at h ⊢
      cases differ
      · simp only [Bool.false_and, Bool.false_eq_true, if_false] at h ⊢
        by_cases hp : (_mongoc_topology_description_has_primary t).isNone = true
        · rw [if_pos hp] at h
          by_cases hc : d.current_primary.isSome = true
          · rw [if_pos hc] at h; rw [if_pos ⟨hp, hc⟩]; exact h
          · rw [if_neg hc] at h; rw [if_neg (fun hh => hc hh.2)]; exact h
        · rw [if_neg hp] at h; rw [if_neg (fun hh => hp hh.1)]; exact h
      · simp only [Bool.true_and, if_true] at h ⊢
        by_cases hp : (_mongoc_topology_description_has_primary
            (_mongoc_topology_description_remove_server t d)).isNone = true
        · rw [if_pos hp] at h
          split at h
          · cases h
          · by_cases hc : d.current_primary.isSome = true
            · rw [if_pos hc] at h; rw [if_pos ⟨hp, hc⟩]; exact h
            · rw [if_neg hc] at h; rw [if_neg (fun hh => hc hh.2)]; exact h
        · rw [if_neg hp] at h; rw [if_neg (fun hh => hp hh.1)]; exact h

theorem store_set_name (t : TopologyDescription) (p : SdPtr) (d : ServerDescription) :
    (SdPtr.store t p d).set_name = t.set_name := by
  cases p <;> rfl

theorem store_set_name_known (t : TopologyDescription) (p : SdPtr) (d : ServerDescription)
    (h : set_name_known t) : set_name_known (SdPtr.store t p d) := by
  unfold set_name_known at *
  rw [store_type, store_set_name]; exact h

/-- The ways a handshake that returns ends. -/
theorem handle_ismaster_inv (t : TopologyDescription) (p : SdPtr)
    (resp : Option IsMasterResponse) (rtt : Int) (err : Bool) (r : HandleResult)
    (h : mongoc_topology_description_handle_ismaster t p resp rtt err = some r) :
    r.topology = t ∨
      ∃ d0, p.deref t = some d0 ∧
        ((gSDAMTransitionTable
              (mongoc_server_description_handle_ismaster d0 resp rtt err).type t.type = none ∧
            r.topology =
              SdPtr.store t p (mongoc_server_description_handle_ismaster d0 resp rtt err)) ∨
          ∃ f, gSDAMTransitionTable
              (mongoc_server_description_handle_ismaster d0 resp rtt err).type t.type =
                some f ∧
            f (SdPtr.store t p (mongoc_server_description_handle_ismaster d0 resp rtt err))
              (mongoc_server_description_handle_ismaster d0 resp rtt err) =
                some r.topology) := by
  unfold mongoc_topology_description_handle_ismaster at h
  cases hp : p.deref t with
  | none =>
    simp only [hp, Option.some.injEq] at h
    subst h
    exact Or.inl rfl
  | some d0 =>
    simp only [hp] at h
    split at h
    · simp only [Option.some.injEq] at h
      subst h
      exact Or.inl rfl
    · simp only [store_type] at h
      refine Or.inr ⟨d0, rfl, ?_⟩
      cases hf : gSDAMTransitionTable
          (mongoc_server_description_handle_ismaster d0 resp rtt err).type t.type with
      | none =>
        simp only [hf, Option.some.injEq] at h
        subst h
        exact Or.inl ⟨rfl, rfl⟩
      | some f =>
        simp only [hf] at h
        cases hft : f (SdPtr.store t p
            (mongoc_server_description_handle_ismaster d0 resp rtt err))
            (mongoc_server_description_handle_ismaster d0 resp rtt err) with
        | none => simp only [hft] at h; cases h
        | some t2 =>
          simp only [hft, Option.some.injEq] at h
          subst h
          exact Or.inr ⟨f, rfl, hft⟩

/-- A handshake that returns, for a pointer whose address is in the set,
returns `true` and the updated description. -/
theorem handle_ismaster_present (t : TopologyDescription) (p : SdPtr) (d0 : ServerDescription)
    (resp : Option IsMasterResponse) (rtt : Int) (err : Bool) (r : HandleResult)
    (hp : p.deref t = some d0)
    (hs : (_mongoc_topology_description_has_server t d0.connection_address).isNone = false)
    (h : mongoc_topology_description_handle_ismaster t p resp rtt err = some r) :
    r.ret = true ∧
      r.sd = some (mongoc_server_description_handle_ismaster d0 resp rtt err) ∧
      ((gSDAMTransitionTable (mongoc_server_description_handle_ismaster d0 resp rtt err).type
            t.type = none ∧
          r.topology =
            SdPtr.store t p (mongoc_server_description_handle_ismaster d0 resp rtt err)) ∨
        ∃ f, gSDAMTransitionTable
            (mongoc_server_description_handle_ismaster d0 resp rtt err).type t.type = some f ∧
          f (SdPtr.store t p (mongoc_server_description_handle_ismaster d0 resp rtt err))
            (mongoc_server_description_handle_ismaster d0 resp rtt err) = some r.topology) := by
  simp only [mongoc_topology_description_handle_ismaster, hp, hs, store_type] at h
  simp only [Bool.false_eq_true, if_false] at h
  cases hf : gSDAMTransitionTable
      (mongoc_server_description_handle_ismaster d0 resp rtt err).type t.type with
  | none =>
    simp only [hf, Option.some.injEq] at h
    subst h
    exact ⟨rfl, rfl, Or.inl ⟨rfl, rfl⟩⟩
  | some f =>
    simp only [hf] at h
    cases hft : f (SdPtr.store t p
        (mongoc_server_description_handle_ismaster d0 resp rtt err))
        (mongoc_server_description_handle_ismaster d0 resp rtt err) with
    | none => simp only [hft] at h; cases h
    | some t2 =>
      simp only [hft, Option.some.injEq] at h
      subst h
      exact ⟨rfl, rfl, Or.inr ⟨f, rfl, hft⟩⟩

/-! ## Late handshakes -/

/-- A handshake for a description whose address no server of the set has
returns `false` and changes nothing; and a handshake that returns gives `false`
only then. -/
theorem late_handshake_ignored (t : TopologyDescription) (p : SdPtr)
    (d0 : ServerDescription) (resp : Option IsMasterResponse) (rtt : Int) (err : Bool)
    (hp : p.deref t = some d0) :
    ((∀ s ∈ t.servers, s.connection_address ≠ d0.connection_address) →
      mongoc_topology_description_handle_ismaster t p resp rtt err =
        some { ret := false, topology := t, sd := some d0 }) ∧
    (∀ r, mongoc_topology_description_handle_ismaster t p resp rtt err = some r →
      (r.ret = false ↔ ∀ s ∈ t.servers, s.connection_address ≠ d0.connection_address)) := by
  have habs := has_server_isNone_iff t d0.connection_address
  refine ⟨?_, ?_⟩
  · intro h
    have hs := habs.2 h
    simp [mongoc_topology_description_handle_ismaster, hp, hs]
  · intro r hr
    cases hs : (_mongoc_topology_description_has_server t d0.connection_address).isNone with
    | true =>
      have h := habs.1 hs
      simp [mongoc_topology_description_handle_ismaster, hp, hs] at hr
      subst hr
      simp only [true_iff]
      exact h
    | false =>
      have hne : ¬ ∀ s ∈ t.servers, s.connection_address ≠ d0.connection_address := by
        intro h; rw [habs.2 h] at hs; cases hs
      have hret : r.ret = true := (handle_ismaster_present t p d0 resp rtt err r hp hs hr).1
      simp [hret, hne]

/-! ## The primary check -/

theorem has_primary_eq (t : TopologyDescription) :
    _mongoc_topology_description_has_primary t =
      t.servers.find? (fun s => decide (s.type = ServerType.RS_PRIMARY ∨
        s.type = ServerType.STANDALONE)) := by
  unfold _mongoc_topology_description_has_primary
  rw [for_each_has_primary]
  cases t.servers.find? (fun s => decide (s.type = ServerType.RS_PRIMARY ∨
    s.type = ServerType.STANDALONE)) <;> rfl

theorem has_primary_isSome_of_rs_primary (t : TopologyDescription)
    (h : ∃ p ∈ t.servers, p.type = ServerType.RS_PRIMARY) :
    (_mongoc_topology_description_has_primary t).isSome = true := by
  obtain ⟨p, hp, hpt⟩ := h
  rw [has_primary_eq, List.find?_isSome]
  exact ⟨p, hp, by simp [hpt]⟩

theorem check_if_has_primary_servers (t : TopologyDescription) (d : ServerDescription) :
    (_mongoc_topology_description_check_if_has_primary t d).servers = t.servers := by
  unfold _mongoc_topology_description_check_if_has_primary
  split <;> rfl

theorem check_if_has_primary_set_name (t : TopologyDescription) (d : ServerDescription) :
    (_mongoc_topology_description_check_if_has_primary t d).set_name = t.set_name := by
  unfold _mongoc_topology_description_check_if_has_primary
  split <;> rfl

theorem check_if_has_primary_max_server_id (t : TopologyDescription) (d : ServerDescription) :
    (_mongoc_topology_description_check_if_has_primary t d).max_server_id =
      t.max_server_id := by
  unfold _mongoc_topology_description_check_if_has_primary
  split <;> rfl

theorem check_if_has_primary_type (t : TopologyDescription) (d : ServerDescription) :
    (_mongoc_topology_description_check_if_has_primary t d).type =
      if (_mongoc_topology_description_has_primary t).isSome = true then
        TopologyType.RS_WITH_PRIMARY
      else TopologyType.RS_NO_PRIMARY := by
  unfold _mongoc_topology_description_check_if_has_primary
  split <;> rfl

theorem mem_write_item_self {l : List ServerDescription} {id : Nat} {s : ServerDescription}
    (h : mongoc_set_get l id = some s) (d : ServerDescription) : d ∈ write_item l id d := by
  obtain ⟨l1, l2, _, _, _, hw⟩ := write_item_split h d
  rw [hw]; simp

theorem handshake_id (s : ServerDescription) (resp : Option IsMasterResponse) (rtt : Int)
    (err : Bool) : (mongoc_server_description_handle_ismaster s resp rtt err).id = s.id := by
  cases err <;> cases resp <;> rfl

theorem handshake_address (s : ServerDescription) (resp : Option IsMasterResponse) (rtt : Int)
    (err : Bool) :
    (mongoc_server_description_handle_ismaster s resp rtt err).connection_address =
      s.connection_address := by
  cases err <;> cases resp <;> rfl

/-- The rogue branch of `update_rs_from_primary`: the topology has a set name
and the server another one. -/
theorem update_rs_from_primary_rogue (t : TopologyDescription) (d : ServerDescription)
    (n m : String) (hd : d ∈ t.servers) (hn : t.set_name = some n) (hm : d.set_name = some m)
    (hne : n ≠ m) :
    _mongoc_topology_description_update_rs_from_primary t d =
      some (_mongoc_topology_description_check_if_has_primary
        (_mongoc_topology_description_remove_server t d) d) := by
  unfold _mongoc_topology_description_update_rs_from_primary
  rw [has_server_isSome_of_mem hd, hn, hm]
  have hb : (n != m) = true := bne_iff_ne.2 hne
  simp [strcmp_ne, hb]

/-! ## C5: a rogue primary -/

/-- C5 (counterexample): two inputs at which the claim fails. In a topology of
kind SINGLE that has the set name "rs0", the server D answers as primary of
"other" and stays in the set. In a replica set where D and E are stored under
one id, the rogue answer of D removes E as well. -/
theorem C5_counterexample_rogue_primary :
    (topology_single_named.set_name = some "rs0" ∧
      classify response_primary_other = ServerType.RS_PRIMARY ∧
      (mongoc_topology_description_handle_ismaster topology_single_named (SdPtr.item 1)
          (some response_primary_other) 5 false).map
        (fun r => r.topology.servers.map (fun s => s.connection_address)) = some ["D"]) ∧
    (topology_shared_id.set_name = some "rs0" ∧
      (mongoc_topology_description_handle_ismaster topology_shared_id (SdPtr.item 1)
          (some response_primary_other) 5 false).map
        (fun r => r.topology.servers) = some []) :=
  ⟨⟨by decide, by decide, by decide⟩, by decide, by decide⟩

/-- C5 (amended): for every topology of kind UNKNOWN, RS_NO_PRIMARY or
RS_WITH_PRIMARY whose servers have pairwise distinct ids and whose set name
is present, and every member `sd` whose handshake classifies it as RS_PRIMARY
with a different set name: the call returns `true`; the server set afterwards
is the set before with `sd` erased (so `sd` is removed, no roster address is
added, no other server is removed or changed); the set name and
`max_server_id` are unchanged; and the kind is RS_WITH_PRIMARY if a server of
kind RS_PRIMARY remains, and RS_WITH_PRIMARY or RS_NO_PRIMARY in any case. -/
theorem C5_rogue_primary_rejected (t : TopologyDescription) (id : Nat) (s : ServerDescription)
    (resp : IsMasterResponse) (rtt : Int) (n : String)
    (hu : ids_unique t)
    (hk : t.type = TopologyType.UNKNOWN ∨ t.type = TopologyType.RS_NO_PRIMARY ∨
      t.type = TopologyType.RS_WITH_PRIMARY)
    (hn : t.set_name = some n)
    (hget : mongoc_set_get t.servers id = some s)
    (hc : classify resp = ServerType.RS_PRIMARY)
    (hne : resp.setName ≠ some n) :
    ∃ r, mongoc_topology_description_handle_ismaster t (SdPtr.item id) (some resp) rtt false =
        some r ∧
      r.ret = true ∧
      r.topology.servers = t.servers.erase s ∧
      r.topology.set_name = t.set_name ∧
      r.topology.max_server_id = t.max_server_id ∧
      ((∃ p ∈ r.topology.servers, p.type = ServerType.RS_PRIMARY) →
        r.topology.type = TopologyType.RS_WITH_PRIMARY) ∧
      (r.topology.type = TopologyType.RS_WITH_PRIMARY ∨
        r.topology.type = TopologyType.RS_NO_PRIMARY) := by
  have hcall := handle_ismaster_item t id s (some resp) rtt false hget
  rw [handle_ismaster_type_of_response, hc] at hcall
  obtain ⟨m, hm⟩ := Option.isSome_iff_exists.1 (classify_named resp (Or.inl hc))
  have hnm : n ≠ m := by
    intro e; apply hne; rw [hm, e]
  have hrogue := update_rs_from_primary_rogue
    (SdPtr.store t (SdPtr.item id)
      (mongoc_server_description_handle_ismaster s (some resp) rtt false))
    (mongoc_server_description_handle_ismaster s (some resp) rtt false) n m
    (mem_write_item_self hget _) hn hm hnm
  have htab : gSDAMTransitionTable ServerType.RS_PRIMARY t.type =
      some _mongoc_topology_description_update_rs_from_primary := by
    rcases hk with h | h | h <;> rw [h] <;> rfl
  rw [htab] at hcall
  simp only [hrogue, Option.map] at hcall
  have hsid := (mongoc_set_get_some hget).2
  have hservers : (_mongoc_topology_description_remove_server
      (SdPtr.store t (SdPtr.item id)
        (mongoc_server_description_handle_ismaster s (some resp) rtt false))
      (mongoc_server_description_handle_ismaster s (some resp) rtt false)).servers =
      t.servers.erase s := by
    simp only [_mongoc_topology_description_remove_server, SdPtr.store, handshake_id]
    rw [hsid, mongoc_set_rm_write_item hget _ (by rw [handshake_id, hsid]), ← hsid]
    exact mongoc_set_rm_eq_erase hu (mongoc_set_get_some hget).1
  refine ⟨_, hcall, rfl, ?_, ?_, ?_, ?_, ?_⟩
  · simp only [check_if_has_primary_servers]; exact hservers
  · simp only [check_if_has_primary_set_name]; rfl
  · simp only [check_if_has_primary_max_server_id]; rfl
  · intro hp
    simp only [check_if_has_primary_servers] at hp
    simp only [check_if_has_primary_type]
    rw [if_pos (has_primary_isSome_of_rs_primary _ hp)]
  · simp only [check_if_has_primary_type]
    split
    · exact Or.inl rfl
    · exact Or.inr rfl

/-- C5 (witness): the freshly added D answers as primary of "other" in the
replica set "rs0" whose primary is B. -/
theorem C5_witness :
    ∃ r, mongoc_topology_description_handle_ismaster topology_rs0_with_D (SdPtr.item 4)
        (some response_primary_other) 5 false = some r ∧
      r.ret = true ∧
      r.topology.servers =
        topology_rs0_with_D.servers.erase (example_server 4 "D" ServerType.UNKNOWN none) ∧
      r.topology.set_name = topology_rs0_with_D.set_name ∧
      r.topology.max_server_id = topology_rs0_with_D.max_server_id ∧
      ((∃ p ∈ r.topology.servers, p.type = ServerType.RS_PRIMARY) →
        r.topology.type = TopologyType.RS_WITH_PRIMARY) ∧
      (r.topology.type = TopologyType.RS_WITH_PRIMARY ∨
        r.topology.type = TopologyType.RS_NO_PRIMARY) :=
  C5_rogue_primary_rejected topology_rs0_with_D 4
    (example_server 4 "D" ServerType.UNKNOWN none) response_primary_other 5 "rs0"
    (by decide) (by decide) (by decide) (by decide) (by decide) (by decide)

/-! ## Monitoring the servers of a roster -/

theorem monitor_new_servers_eq (t : TopologyDescription) (server : ServerDescription) :
    _mongoc_topology_description_monitor_new_servers t server = add_all t (roster server) :=
  rfl

theorem add_all_cons (t : TopologyDescription) (a : String) (as : List String) :
    add_all t (a :: as) = add_all (mongoc_topology_description_add_server t a).1 as := rfl

theorem has_server_some_mem {t : TopologyDescription} {a : String} {id : Nat}
    (h : _mongoc_topology_description_has_server t a = some id) :
    ∃ s ∈ t.servers, s.connection_address = a := by
  by_contra hne
  have : (_mongoc_topology_description_has_server t a).isNone = true :=
    (has_server_isNone_iff t a).2 (fun s hs e => hne ⟨s, hs, e⟩)
  rw [h] at this; cases this

theorem add_all_monitored (as : List String) :
    ∀ t : TopologyDescription, ∃ news, Monitored t (add_all t as) as news := by
  induction as with
  | nil =>
    intro t
    exact ⟨[], by simp [add_all], by simp, by simp, by simp, by simp, by simp, rfl, rfl, rfl,
      by simp [add_all], by simp, by simp⟩
  | cons a as ih =>
    intro t
    rw [add_all_cons]
    cases h : _mongoc_topology_description_has_server t a with
    | some id =>
      rw [add_server_present t a id h]
      obtain ⟨news, m⟩ := ih t
      have hlen : t.max_server_id + (a :: as).length < 2 ^ 32 →
          t.max_server_id + as.length < 2 ^ 32 := by
        intro h; simp only [List.length_cons] at h; omega
      refine ⟨news, m.perm, m.fresh, fun n hn => List.mem_cons_of_mem _ (m.listed n hn),
        m.absent, m.distinct, ?_, m.type_eq, m.set_name_eq, m.cb_rm_eq,
        fun h => m.counter (hlen h), fun h => m.new_ids (hlen h),
        fun h => m.new_ids_distinct (hlen h)⟩
      intro b hb
      rcases List.mem_cons.1 hb with rfl | hb
      · obtain ⟨s, hs, e⟩ := has_server_some_mem h
        exact ⟨s, m.perm.mem_iff.2 (List.mem_append_left _ hs), e⟩
      · exact m.covered b hb
    | none =>
      have habs : ∀ s ∈ t.servers, s.connection_address ≠ a :=
        (has_server_isNone_iff t a).1 (by rw [h]; rfl)
      rw [add_server_absent t a h]
      simp only
      obtain ⟨news, m⟩ := ih
        { t with
          max_server_id := (t.max_server_id + 1) % 2 ^ 32
          servers := mongoc_set_add t.servers
            (mongoc_server_description_init a ((t.max_server_id + 1) % 2 ^ 32))
          events :=
            if t.cb_add then
              t.events ++
                [CbEvent.add
                  (mongoc_server_description_init a ((t.max_server_id + 1) % 2 ^ 32))]
            else t.events }
      have hx1 : ∀ s, s ∈ mongoc_set_add t.servers
          (mongoc_server_description_init a ((t.max_server_id + 1) % 2 ^ 32)) ↔
          s = mongoc_server_description_init a ((t.max_server_id + 1) % 2 ^ 32) ∨
            s ∈ t.servers := fun s => mem_mongoc_set_add
      have hwrap : t.max_server_id + (a :: as).length < 2 ^ 32 →
          (t.max_server_id + 1) % 2 ^ 32 = t.max_server_id + 1 ∧
          (t.max_server_id + 1) % 2 ^ 32 + as.length < 2 ^ 32 := by
        intro h
        simp only [List.length_cons] at h
        have e : (t.max_server_id + 1) % 2 ^ 32 = t.max_server_id + 1 :=
          Nat.mod_eq_of_lt (by omega)
        exact ⟨e, by rw [e]; omega⟩
      refine ⟨mongoc_server_description_init a ((t.max_server_id + 1) % 2 ^ 32) :: news,
        ?_, ?_, ?_, ?_, ?_, ?_, m.type_eq, m.set_name_eq, m.cb_rm_eq, ?_, ?_, ?_⟩
      · refine m.perm.trans ?_
        simp only
        refine (List.Perm.append_right news (mongoc_set_add_perm _ _)).trans ?_
        simp only [List.cons_append]
        exact List.perm_middle.symm
      · intro n hn
        rcases List.mem_cons.1 hn with rfl | hn
        · rfl
        · exact m.fresh n hn
      · intro n hn
        rcases List.mem_cons.1 hn with rfl | hn
        · exact List.mem_cons_self _ _
        · exact List.mem_cons_of_mem _ (m.listed n hn)
      · intro n hn s hs
        rcases List.mem_cons.1 hn with rfl | hn
        · exact habs s hs
        · exact m.absent n hn s ((hx1 s).2 (Or.inr hs))
      · simp only [List.map_cons, List.nodup_cons]
        refine ⟨?_, m.distinct⟩
        intro hmem
        obtain ⟨n, hn, e⟩ := List.mem_map.1 hmem
        exact m.absent n hn _ ((hx1 _).2 (Or.inl rfl)) e.symm
      · intro b hb
        rcases List.mem_cons.1 hb with rfl | hb
        · exact ⟨_, m.perm.mem_iff.2 (List.mem_append_left _ ((hx1 _).2 (Or.inl rfl))), rfl⟩
        · exact m.covered b hb
      · intro h
        obtain ⟨e, h2⟩ := hwrap h
        have := m.counter h2
        simp only at this
        rw [this, e]; simp only [List.length_cons]; omega
      · intro h n hn
        obtain ⟨e, h2⟩ := hwrap h
        rcases List.mem_cons.1 hn with rfl | hn
        · simp only [mongoc_server_description_init, e, List.length_cons]; omega
        · have := m.new_ids h2 n hn
          simp only [e] at this
          simp only [List.length_cons]; omega
      · intro h
        obtain ⟨e, h2⟩ := hwrap h
        simp only [List.map_cons, List.nodup_cons]
        refine ⟨?_, m.new_ids_distinct h2⟩
        intro hmem
        obtain ⟨n, hn, e2⟩ := List.mem_map.1 hmem
        have := (m.new_ids h2 n hn).1
        simp only [mongoc_server_description_init, e] at this e2
        omega

/-! ## The steps of an accepted primary -/

theorem for_each_item_invalidate (l : List ServerDescription) (primary : ServerDescription) :
    mongoc_set_for_each_item l _mongoc_topology_description_invalidate_primaries_cb primary =
      l.map (demote primary) := by
  induction l with
  | nil => rfl
  | cons x xs ih =>
    unfold mongoc_set_for_each_item
    have h2 : (_mongoc_topology_description_invalidate_primaries_cb x primary).2 = true := by
      unfold _mongoc_topology_description_invalidate_primaries_cb; split <;> rfl
    have h1 : _mongoc_topology_description_invalidate_primaries_cb x primary =
        (demote primary x, true) := by
      rw [← h2]; rfl
    rw [h1]
    simp only [List.map_cons, ih]

theorem demote_id (p s : ServerDescription) : (demote p s).id = s.id := by
  unfold demote _mongoc_topology_description_invalidate_primaries_cb
  split <;> rfl

theorem demote_address (p s : ServerDescription) :
    (demote p s).connection_address = s.connection_address := by
  unfold demote _mongoc_topology_description_invalidate_primaries_cb
  split <;> rfl

theorem demote_self (p s : ServerDescription) (h : s.id = p.id) : demote p s = s := by
  unfold demote _mongoc_topology_description_invalidate_primaries_cb
  simp [h]

theorem demote_other_type (p s : ServerDescription) (h : s.id ≠ p.id) :
    (demote p s).type ≠ ServerType.RS_PRIMARY ∧
      (s.type = ServerType.RS_PRIMARY → (demote p s).type = ServerType.UNKNOWN) := by
  unfold demote _mongoc_topology_description_invalidate_primaries_cb
  by_cases ht : s.type = ServerType.RS_PRIMARY
  · simp [h, ht, mongoc_server_description_set_state]
  · simp [h, ht]

theorem remove_missing_hosts_cb_eq (p x : ServerDescription) (t : TopologyDescription) :
    _mongoc_topology_description_remove_missing_hosts_cb p x t =
      (if missing_host p x = true then _mongoc_topology_description_remove_server t x else t,
        true) := by
  unfold _mongoc_topology_description_remove_missing_hosts_cb missing_host
  by_cases h1 : p.connection_address = x.connection_address <;>
    cases h2 : mongoc_server_description_has_rs_member p x.connection_address <;>
    simp [h1, h2]

/-- The iteration of `remove_missing_hosts_cb` over the items `L`: every id of
a missing host of `L` is removed from the set, nothing else changes but the
callback log. -/
theorem for_each_remove_missing (p : ServerDescription) (L : List ServerDescription) :
    ∀ t : TopologyDescription,
      (mongoc_set_for_each L (_mongoc_topology_description_remove_missing_hosts_cb p)
          t).servers =
        t.servers.filter
          (fun s => !(L.any (fun x => missing_host p x && (x.id == s.id)))) ∧
      (mongoc_set_for_each L (_mongoc_topology_description_remove_missing_hosts_cb p)
          t).set_name = t.set_name ∧
      (mongoc_set_for_each L (_mongoc_topology_description_remove_missing_hosts_cb p)
          t).max_server_id = t.max_server_id ∧
      (mongoc_set_for_each L (_mongoc_topology_description_remove_missing_hosts_cb p)
          t).type = t.type := by
  induction L with
  | nil => intro t; simp [mongoc_set_for_each]
  | cons x xs ih =>
    intro t
    unfold mongoc_set_for_each
    rw [remove_missing_hosts_cb_eq]
    cases hm : missing_host p x
    · simp only [Bool.false_eq_true, if_false]
      obtain ⟨h1, h2, h3, h4⟩ := ih t
      rw [h1, h2, h3, h4]
      simp [hm]
    · simp only [if_true]
      obtain ⟨h1, h2, h3, h4⟩ := ih (_mongoc_topology_description_remove_server t x)
      rw [h1, h2, h3, h4]
      refine ⟨?_, rfl, rfl, rfl⟩
      simp only [_mongoc_topology_description_remove_server, mongoc_set_rm,
        List.filter_filter, List.any_cons, hm, Bool.true_and]
      apply List.filter_congr
      intro s _
      cases h : x.id == s.id
      · have : (s.id != x.id) = true := by
          rw [bne_iff_ne]; intro e; rw [e] at h; simp at h
        simp [this]
      · have e : x.id = s.id := by simpa using h
        simp [e]

theorem has_rs_member_iff (d : ServerDescription) (a : String) :
    mongoc_server_description_has_rs_member d a = true ↔ a ∈ roster d := by
  unfold mongoc_server_description_has_rs_member roster
  simp only [Bool.or_eq_true, decide_eq_true_eq, List.mem_append]
  tauto

theorem missing_host_iff (p x : ServerDescription) :
    missing_host p x = true ↔
      p.connection_address ≠ x.connection_address ∧ x.connection_address ∉ roster p := by
  unfold missing_host
  rw [Bool.and_eq_true, decide_eq_true_eq, Bool.not_eq_true', ← has_rs_member_iff]
  cases mongoc_server_description_has_rs_member p x.connection_address <;> simp

/-- The three branches of `update_rs_from_primary` for a server of the set
that has a set name: adopt the name, accept the primary, or reject it. -/
theorem update_rs_from_primary_cases (t : TopologyDescription) (d : ServerDescription)
    (m : String) (hd : d ∈ t.servers) (hm : d.set_name = some m) :
    _mongoc_topology_description_update_rs_from_primary t d =
      some (match t.set_name with
        | none => update_rs_from_primary_accepted { t with set_name := some m } d
        | some n =>
          if n = m then update_rs_from_primary_accepted t d
          else _mongoc_topology_description_check_if_has_primary
            (_mongoc_topology_description_remove_server t d) d) := by
  unfold _mongoc_topology_description_update_rs_from_primary
  rw [has_server_isSome_of_mem hd, hm]
  cases hn : t.set_name with
  | none => simp
  | some n =>
    by_cases e : n = m
    · simp [strcmp_ne, e]
    · have hb : (n != m) = true := bne_iff_ne.2 e
      simp [strcmp_ne, e, hb]

/-- The accepted branch, step by step: the other primaries are demoted, the
roster is monitored (giving `grown`), the ids of the missing hosts of `grown`
are removed. -/
theorem accepted_spec (t : TopologyDescription) (d : ServerDescription) :
    ∃ news,
      Monitored { t with servers := t.servers.map (demote d) }
        (add_all { t with servers := t.servers.map (demote d) } (roster d)) (roster d) news ∧
      (update_rs_from_primary_accepted t d).servers =
        (add_all { t with servers := t.servers.map (demote d) } (roster d)).servers.filter
          (fun s => !((add_all { t with servers := t.servers.map (demote d) }
            (roster d)).servers.any (fun x => missing_host d x && (x.id == s.id)))) ∧
      (update_rs_from_primary_accepted t d).type = TopologyType.RS_WITH_PRIMARY ∧
      (update_rs_from_primary_accepted t d).set_name = t.set_name ∧
      (update_rs_from_primary_accepted t d).max_server_id =
        (add_all { t with servers := t.servers.map (demote d) } (roster d)).max_server_id := by
  obtain ⟨news, m⟩ := add_all_monitored (roster d) { t with servers := t.servers.map (demote d) }
  obtain ⟨h1, h2, h3, _⟩ := for_each_remove_missing d
    (add_all { t with servers := t.servers.map (demote d) } (roster d)).servers
    (add_all { t with servers := t.servers.map (demote d) } (roster d))
  refine ⟨news, m, ?_, rfl, ?_, ?_⟩
  · simp only [update_rs_from_primary_accepted, for_each_item_invalidate,
      monitor_new_servers_eq]
    exact h1
  · simp only [update_rs_from_primary_accepted, for_each_item_invalidate,
      monitor_new_servers_eq]
    rw [h2]; exact m.set_name_eq
  · simp only [update_rs_from_primary_accepted, for_each_item_invalidate,
      monitor_new_servers_eq]
    exact h3

/-- Membership in the set an accepted primary leaves. -/
theorem mem_accepted (t : TopologyDescription) (d x : ServerDescription) :
    x ∈ (update_rs_from_primary_accepted t d).servers ↔
      x ∈ (add_all { t with servers := t.servers.map (demote d) } (roster d)).servers ∧
      ∀ y ∈ (add_all { t with servers := t.servers.map (demote d) } (roster d)).servers,
        missing_host d y = true → y.id ≠ x.id := by
  obtain ⟨_, _, h, _⟩ := accepted_spec t d
  rw [h, List.mem_filter]
  simp only [Bool.not_eq_true', List.any_eq_false, Bool.and_eq_true, beq_iff_eq, not_and]

/-! ## C3: the roster of an accepted primary -/

theorem grown_ids_nodup {t t2 : TopologyDescription} {as : List String}
    {news : List ServerDescription} (m : Monitored t t2 as news)
    (hu : ids_unique t) (hb : ids_bounded t) (hw : t.max_server_id + as.length < 2 ^ 32) :
    (t2.servers.map (fun s => s.id)).Nodup := by
  have hperm := m.perm.map (fun s => s.id)
  rw [hperm.nodup_iff, List.map_append, List.nodup_append]
  refine ⟨hu, m.new_ids_distinct hw, ?_⟩
  intro k hk1 hk2
  obtain ⟨s, hs, rfl⟩ := List.mem_map.1 hk1
  obtain ⟨n, hn, e⟩ := List.mem_map.1 hk2
  have h1 := hb s hs
  have h2 := (m.new_ids hw n hn).1
  omega

/-- The roster an accepted primary leaves, for a topology whose ids are
distinct and were handed out by a counter that does not wrap. -/
theorem accepted_roster (t : TopologyDescription) (p : ServerDescription)
    (hp : p ∈ t.servers) (hu : ids_unique t) (hb : ids_bounded t)
    (hw : t.max_server_id + (roster p).length < 2 ^ 32) :
    (∀ a, (∃ s ∈ (update_rs_from_primary_accepted t p).servers, s.connection_address = a) ↔
      (a = p.connection_address ∨ a ∈ p.hosts ∨ a ∈ p.passives ∨ a ∈ p.arbiters)) ∧
    (∀ s ∈ (update_rs_from_primary_accepted t p).servers,
      (∀ s0 ∈ t.servers, s0.connection_address ≠ s.connection_address) →
        s = mongoc_server_description_init s.connection_address s.id ∧
          s.type = ServerType.UNKNOWN) ∧
    (update_rs_from_primary_accepted t p).type = TopologyType.RS_WITH_PRIMARY := by
  obtain ⟨news, m, _, htype, _, _⟩ := accepted_spec t p
  have hu' : ids_unique { t with servers := t.servers.map (demote p) } := by
    unfold ids_unique
    simp only [List.map_map]
    have : ((fun s => s.id) ∘ demote p) = (fun s : ServerDescription => s.id) := by
      funext s; exact demote_id p s
    rw [this]; exact hu
  have hb' : ids_bounded { t with servers := t.servers.map (demote p) } := by
    intro s hs
    obtain ⟨s0, hs0, rfl⟩ := List.mem_map.1 hs
    rw [demote_id]; exact hb s0 hs0
  have hnodup := grown_ids_nodup m hu' hb' hw
  have hmem : ∀ x, x ∈ (update_rs_from_primary_accepted t p).servers ↔
      x ∈ (add_all { t with servers := t.servers.map (demote p) } (roster p)).servers ∧
        missing_host p x = false := by
    intro x
    rw [mem_accepted]
    constructor
    · rintro ⟨hx, h⟩
      refine ⟨hx, ?_⟩
      cases hm : missing_host p x
      · rfl
      · exact absurd rfl (h x hx hm)
    · rintro ⟨hx, h⟩
      refine ⟨hx, fun y hy hm e => ?_⟩
      have := id_injective_of_nodup hnodup hy hx e
      subst this
      rw [h] at hm; cases hm
  have hnot : ∀ x : ServerDescription, missing_host p x = false ↔
      (x.connection_address = p.connection_address ∨ x.connection_address ∈ roster p) := by
    intro x
    have := missing_host_iff p x
    cases hm : missing_host p x
    · simp only [true_iff]
      rw [hm] at this
      by_contra hc
      push_neg at hc
      exact absurd (this.2 ⟨fun e => hc.1 e.symm, hc.2⟩) (by simp)
    · simp only [Bool.true_eq_false, false_iff]
      rw [hm] at this
      have h := this.1 rfl
      rintro (e | e)
      · exact h.1 e.symm
      · exact h.2 e
  have hros : ∀ a, a ∈ roster p ↔ (a ∈ p.hosts ∨ a ∈ p.passives ∨ a ∈ p.arbiters) := by
    intro a; unfold roster; simp only [List.mem_append]; tauto
  refine ⟨?_, ?_, htype⟩
  · intro a
    constructor
    · rintro ⟨s, hs, rfl⟩
      rcases (hnot s).1 ((hmem s).1 hs).2 with e | e
      · exact Or.inl e
      · exact Or.inr ((hros _).1 e)
    · rintro (rfl | h)
      · refine ⟨p, (hmem p).2 ⟨?_, (hnot p).2 (Or.inl rfl)⟩, rfl⟩
        apply m.perm.mem_iff.2
        apply List.mem_append_left
        simp only
        exact List.mem_map.2 ⟨p, hp, demote_self p p rfl⟩
      · obtain ⟨s, hs, e⟩ := m.covered a ((hros a).2 h)
        exact ⟨s, (hmem s).2 ⟨hs, (hnot s).2 (Or.inr (by rw [e]; exact (hros a).2 h))⟩, e⟩
    
  · intro s hs hnew
    have hsG := ((hmem s).1 hs).1
    rcases List.mem_append.1 (m.perm.mem_iff.1 hsG) with h | h
    · simp only at h
      obtain ⟨s0, hs0, rfl⟩ := List.mem_map.1 h
      exact absurd (demote_address p s0).symm (hnew s0 hs0)
    · have := m.fresh s h
      exact ⟨this, by rw [this]; rfl⟩

/-- C3 (counterexample): three inputs of `update_rs_from_primary` for the
primary P of "rs0", whose roster lists only X; the set afterwards should hold P
and X, and it holds P alone. In the first the listed X shares its id with the
unlisted Q; in the second the ids are distinct but the counter wraps and gives
X the id of Q; in the third Q has an id the counter has not reached, which X
gets as well. Removing Q by id removes X. -/
theorem C3_counterexample_roster_reconciliation :
    (primary_P 1 ∈ topology_roster_shared_id.servers ∧
      (_mongoc_topology_description_update_rs_from_primary topology_roster_shared_id
          (primary_P 1)).map (fun t => t.servers.map (fun s => s.connection_address)) =
        some ["P"]) ∧
    (primary_P 1 ∈ topology_roster_wrap.servers ∧ ids_unique topology_roster_wrap ∧
      ids_bounded topology_roster_wrap ∧
      (_mongoc_topology_description_update_rs_from_primary topology_roster_wrap
          (primary_P 1)).map (fun t => t.servers.map (fun s => s.connection_address)) =
        some ["P"]) ∧
    (primary_P 1 ∈ topology_roster_ahead.servers ∧ ids_unique topology_roster_ahead ∧
      (_mongoc_topology_description_update_rs_from_primary topology_roster_ahead
          (primary_P 1)).map (fun t => t.servers.map (fun s => s.connection_address)) =
        some ["P"]) :=
  ⟨⟨by decide, by decide⟩, ⟨by decide, by decide, by decide, by decide⟩,
    ⟨by decide, by decide, by decide⟩⟩

/-- C3 (amended): for every topology whose servers have pairwise distinct ids,
none above `max_server_id`, and every server `p` of it whose roster does not
make the counter wrap: if `update_rs_from_primary` runs for `p` and does not
take the rogue return (`p` has a set name, and the topology has none or the
same), then it returns, the addresses of the server set are exactly the
address of `p` and those of its hosts, passives and arbiters, every server
whose address was not present before is a new server of kind UNKNOWN, and the
kind is RS_WITH_PRIMARY. -/
theorem C3_roster_reconciliation (t : TopologyDescription) (p : ServerDescription)
    (m : String) (hp : p ∈ t.servers) (hu : ids_unique t) (hb : ids_bounded t)
    (hw : t.max_server_id + (roster p).length < 2 ^ 32)
    (hm : p.set_name = some m) (hn : t.set_name = none ∨ t.set_name = some m) :
    ∃ t2, _mongoc_topology_description_update_rs_from_primary t p = some t2 ∧
      (∀ a, (∃ s ∈ t2.servers, s.connection_address = a) ↔
        (a = p.connection_address ∨ a ∈ p.hosts ∨ a ∈ p.passives ∨ a ∈ p.arbiters)) ∧
      (∀ s ∈ t2.servers, (∀ s0 ∈ t.servers, s0.connection_address ≠ s.connection_address) →
        s = mongoc_server_description_init s.connection_address s.id ∧
          s.type = ServerType.UNKNOWN) ∧
      t2.type = TopologyType.RS_WITH_PRIMARY := by
  rw [update_rs_from_primary_cases t p m hp hm]
  rcases hn with hn | hn
  · rw [hn]
    exact ⟨_, rfl, accepted_roster { t with set_name := some m } p hp hu hb hw⟩
  · rw [hn]
    simp only [if_true]
    exact ⟨_, rfl, accepted_roster t p hp hu hb hw⟩

/-- C3 (witness): P under id 1 and the unlisted Q under id 2, counter at 2. -/
theorem C3_witness :
    ∃ t2, _mongoc_topology_description_update_rs_from_primary topology_roster (primary_P 1) =
        some t2 ∧
      (∀ a, (∃ s ∈ t2.servers, s.connection_address = a) ↔
        (a = (primary_P 1).connection_address ∨ a ∈ (primary_P 1).hosts ∨
          a ∈ (primary_P 1).passives ∨ a ∈ (primary_P 1).arbiters)) ∧
      (∀ s ∈ t2.servers,
        (∀ s0 ∈ topology_roster.servers, s0.connection_address ≠ s.connection_address) →
        s = mongoc_server_description_init s.connection_address s.id ∧
          s.type = ServerType.UNKNOWN) ∧
      t2.type = TopologyType.RS_WITH_PRIMARY :=
  C3_roster_reconciliation topology_roster (primary_P 1) "rs0" (by decide) (by decide)
    (by decide) (by decide) (by decide) (by decide)

/-! ## Labelling the possible primary -/

theorem label_unknown_member_servers (t : TopologyDescription) (o : Option String) :
    (_mongoc_topology_description_label_unknown_member t o
      ServerType.POSSIBLE_PRIMARY).servers = label_list t.servers o := by
  cases o <;> rfl

theorem label_unknown_member_max (t : TopologyDescription) (o : Option String)
    (ty : ServerType) :
    (_mongoc_topology_description_label_unknown_member t o ty).max_server_id =
      t.max_server_id := by
  cases o <;> rfl

theorem label_unknown_member_type (t : TopologyDescription) (o : Option String)
    (ty : ServerType) :
    (_mongoc_topology_description_label_unknown_member t o ty).type = t.type := by
  cases o <;> rfl

theorem label_unknown_member_set_name (t : TopologyDescription) (o : Option String)
    (ty : ServerType) :
    (_mongoc_topology_description_label_unknown_member t o ty).set_name = t.set_name := by
  cases o <;> rfl

/-- Labelling changes the kind of at most one item, from UNKNOWN to
POSSIBLE_PRIMARY: item by item the lists agree up to that. -/
theorem label_list_relabelled (l : List ServerDescription) (o : Option String) :
    List.Forall₂ relabelled l (label_list l o) := by
  cases o with
  | none => exact List.forall₂_same.2 (fun _ _ => Or.inl rfl)
  | some a =>
    unfold label_list
    simp only
    induction l with
    | nil => exact List.Forall₂.nil
    | cons x xs ih =>
      unfold mongoc_set_for_each_item
      by_cases h : x.connection_address = a ∧ x.type = ServerType.UNKNOWN
      · simp only [_mongoc_label_unknown_member_cb, h, and_self, if_true]
        exact List.Forall₂.cons (Or.inr ⟨h.2, rfl⟩)
          (List.forall₂_same.2 (fun _ _ => Or.inl rfl))
      · simp only [_mongoc_label_unknown_member_cb, h, if_false]
        exact List.Forall₂.cons (Or.inl rfl) ih

theorem relabelled_map_id {l l2 : List ServerDescription}
    (h : List.Forall₂ relabelled l l2) :
    l2.map (fun s => s.id) = l.map (fun s => s.id) := by
  induction h with
  | nil => rfl
  | cons hab _ ih =>
    simp only [List.map_cons, ih]
    rcases hab with rfl | ⟨_, rfl⟩ <;> rfl

theorem relabelled_map_address {l l2 : List ServerDescription}
    (h : List.Forall₂ relabelled l l2) :
    l2.map (fun s => s.connection_address) = l.map (fun s => s.connection_address) := by
  induction h with
  | nil => rfl
  | cons hab _ ih =>
    simp only [List.map_cons, ih]
    rcases hab with rfl | ⟨_, rfl⟩ <;> rfl

theorem relabelled_primary_count {l l2 : List ServerDescription}
    (h : List.Forall₂ relabelled l l2) : primary_count l2 = primary_count l := by
  unfold primary_count
  induction h with
  | nil => rfl
  | cons hab _ ih =>
    rw [List.countP_cons, List.countP_cons, ih]
    rcases hab with rfl | ⟨hu, rfl⟩
    · rfl
    · simp [mongoc_server_description_set_state, hu]

theorem label_list_map_id (l : List ServerDescription) (o : Option String) :
    (label_list l o).map (fun s => s.id) = l.map (fun s => s.id) :=
  relabelled_map_id (label_list_relabelled l o)

theorem label_list_map_address (l : List ServerDescription) (o : Option String) :
    (label_list l o).map (fun s => s.connection_address) =
      l.map (fun s => s.connection_address) :=
  relabelled_map_address (label_list_relabelled l o)

theorem primary_count_label_list (l : List ServerDescription) (o : Option String) :
    primary_count (label_list l o) = primary_count l :=
  relabelled_primary_count (label_list_relabelled l o)

theorem label_list_length (l : List ServerDescription) (o : Option String) :
    (label_list l o).length = l.length := by
  have := congrArg List.length (label_list_map_id l o)
  simpa using this

/-! ## The shape of the set after a transition -/

theorem shape_same (t : TopologyDescription) (d : ServerDescription)
    (t2 : TopologyDescription) (hs : t2.servers = t.servers)
    (hm : t2.max_server_id = t.max_server_id) : TransitionShape t d t2 :=
  TransitionShape.kept none t.servers (Or.inl rfl) hs hm

theorem shape_removed (t : TopologyDescription) (d : ServerDescription)
    (t2 : TopologyDescription) (hs : t2.servers = mongoc_set_rm t.servers d.id)
    (hm : t2.max_server_id = t.max_server_id) : TransitionShape t d t2 :=
  TransitionShape.kept none _ (Or.inr rfl) hs hm

theorem shape_of_set_state (t : TopologyDescription) (ty : TopologyType)
    (d : ServerDescription) (t2 : TopologyDescription)
    (h : TransitionShape (_mongoc_topology_description_set_state t ty) d t2) :
    TransitionShape t d t2 := by
  cases h with
  | kept o base hbase hs hmax => exact TransitionShape.kept o base hbase hs hmax
  | grown o t0 h0 hm0 hs hmax => exact TransitionShape.grown o t0 h0 hm0 hs hmax

theorem shape_check_if_has_primary (t : TopologyDescription) (d : ServerDescription) :
    TransitionShape t d (_mongoc_topology_description_check_if_has_primary t d) :=
  shape_same t d _ (check_if_has_primary_servers t d) (check_if_has_primary_max_server_id t d)

theorem shape_remove_server (t : TopologyDescription) (d : ServerDescription) :
    TransitionShape t d (_mongoc_topology_description_remove_server t d) :=
  shape_removed t d _ rfl rfl

theorem shape_remove_and_check_primary (t : TopologyDescription) (d : ServerDescription) :
    TransitionShape t d (_mongoc_topology_description_remove_and_check_primary t d) :=
  shape_removed t d _
    (by unfold _mongoc_topology_description_remove_and_check_primary
        rw [check_if_has_primary_servers]; rfl)
    (by unfold _mongoc_topology_description_remove_and_check_primary
        rw [check_if_has_primary_max_server_id]; rfl)

theorem shape_update_unknown_with_standalone (t : TopologyDescription)
    (d : ServerDescription) :
    TransitionShape t d
      (_mongoc_topology_description_update_unknown_with_standalone t d) := by
  unfold _mongoc_topology_description_update_unknown_with_standalone
  split
  · exact shape_same t d _ rfl rfl
  · split
    · exact shape_remove_server t d
    · exact shape_same t d _ rfl rfl

theorem shape_update_rs_without_primary (t : TopologyDescription) (d : ServerDescription)
    (t2 : TopologyDescription)
    (h : _mongoc_topology_description_update_rs_without_primary t d = some t2) :
    TransitionShape t d t2 := by
  have hacc : ∀ t0 : TopologyDescription, t0.servers = t.servers →
      t0.max_server_id = t.max_server_id →
      TransitionShape t d (update_rs_without_primary_accepted t0 d) := by
    intro t0 h0 hm0
    unfold update_rs_without_primary_accepted
    rw [monitor_new_servers_eq]
    cases hc : d.current_primary with
    | none => exact TransitionShape.grown none t0 h0 hm0 rfl rfl
    | some a =>
      exact TransitionShape.grown (some a) t0 h0 hm0
        (label_unknown_member_servers _ _) (label_unknown_member_max _ _ _)
  unfold _mongoc_topology_description_update_rs_without_primary at h
  split at h
  · cases h; exact shape_same t d _ rfl rfl
  · split at h
    · split at h
      · cases h; exact hacc _ rfl rfl
      · split at h
        · cases h
        · cases h; exact shape_remove_server t d
        · cases h; exact hacc _ rfl rfl
    · cases h; exact hacc _ rfl rfl

theorem shape_update_rs_with_primary_from_member (t : TopologyDescription)
    (d : ServerDescription) (t2 : TopologyDescription)
    (h : _mongoc_topology_description_update_rs_with_primary_from_member t d = some t2) :
    TransitionShape t d t2 := by
  have h := update_rs_with_primary_from_member_defined t d t2 h
  split at h
  · cases h; exact shape_same t d _ rfl rfl
  · split at h
    · cases h
    · rename_i differ _
      cases differ
      · simp only [Bool.false_eq_true, if_false] at h
        split at h
        · cases h
          exact TransitionShape.kept d.current_primary t.servers (Or.inl rfl)
            (label_unknown_member_servers _ _) (label_unknown_member_max _ _ _)
        · cases h; exact shape_same t d _ rfl rfl
      · simp only [if_true] at h
        split at h
        · cases h
          exact TransitionShape.kept d.current_primary (mongoc_set_rm t.servers d.id)
            (Or.inr rfl) (label_unknown_member_servers _ _)
            (label_unknown_member_max _ _ _)
        · cases h; exact shape_remove_server t d

/-- Every entry of the table for a description that is not RS_PRIMARY leaves the
set in one of the two shapes. -/
theorem transition_shape (t : TopologyDescription) (d : ServerDescription)
    (f : transition_t) (t2 : TopologyDescription) (hd : d.type ≠ ServerType.RS_PRIMARY)
    (hf : gSDAMTransitionTable d.type t.type = some f) (h : f t d = some t2) :
    TransitionShape t d t2 := by
  cases hdt : d.type <;> cases htt : t.type <;>
    simp only [hdt, htt, gSDAMTransitionTable, Option.some.injEq, reduceCtorEq] at hf hd <;>
    subst hf <;>
    first
      | exact absurd rfl hd
      | exact shape_update_rs_without_primary t d t2 h
      | exact shape_update_rs_with_primary_from_member t d t2 h
      | exact shape_of_set_state t _ d t2 (shape_update_rs_without_primary _ d t2 h)
      | (simp only [Option.some.injEq] at h; subst h
         first
           | exact shape_check_if_has_primary t d
           | exact shape_remove_server t d
           | exact shape_remove_and_check_primary t d
           | exact shape_update_unknown_with_standalone t d
           | exact shape_same t d _ rfl rfl)

/-! ## Counting the primaries -/

theorem primary_count_rm_le (l : List ServerDescription) (k : Nat) :
    primary_count (mongoc_set_rm l k) ≤ primary_count l :=
  List.Sublist.countP_le _ (List.filter_sublist l)

theorem primary_count_fresh (news : List ServerDescription)
    (h : ∀ n ∈ news, n = mongoc_server_description_init n.connection_address n.id) :
    primary_count news = 0 := by
  unfold primary_count
  rw [List.countP_eq_zero]
  intro n hn
  rw [h n hn]
  simp [mongoc_server_description_init]

theorem primary_count_add_all (t : TopologyDescription) (as : List String) :
    primary_count (add_all t as).servers = primary_count t.servers := by
  obtain ⟨news, m⟩ := add_all_monitored as t
  have h1 : primary_count (add_all t as).servers = primary_count (t.servers ++ news) :=
    List.Perm.countP_eq _ m.perm
  rw [h1]
  unfold primary_count
  rw [List.countP_append]
  have := primary_count_fresh news m.fresh
  unfold primary_count at this
  omega

theorem primary_count_shape {t t2 : TopologyDescription} {d : ServerDescription}
    (h : TransitionShape t d t2) : primary_count t2.servers ≤ primary_count t.servers := by
  cases h with
  | kept o base hbase hs hmax =>
    rw [hs, primary_count_label_list]
    rcases hbase with rfl | rfl
    · exact Nat.le_refl _
    · exact primary_count_rm_le _ _
  | grown o t0 h0 hm0 hs hmax =>
    rw [hs, primary_count_label_list, primary_count_add_all, h0]

theorem write_item_map_id {l : List ServerDescription} {id : Nat} {s : ServerDescription}
    (h : mongoc_set_get l id = some s) (d : ServerDescription) (hd : d.id = id) :
    (write_item l id d).map (fun s => s.id) = l.map (fun s => s.id) := by
  obtain ⟨l1, l2, e, _, hs, hw⟩ := write_item_split h d
  rw [hw, e]
  simp [hd, hs]

theorem write_item_map_address {l : List ServerDescription} {id : Nat}
    {s : ServerDescription} (h : mongoc_set_get l id = some s) (d : ServerDescription)
    (hd : d.connection_address = s.connection_address) :
    (write_item l id d).map (fun s => s.connection_address) =
      l.map (fun s => s.connection_address) := by
  obtain ⟨l1, l2, e, _, _, hw⟩ := write_item_split h d
  rw [hw, e]
  simp [hd]

theorem mem_write_item_of_ne {l : List ServerDescription} {id : Nat} {s : ServerDescription}
    (h : mongoc_set_get l id = some s) (d : ServerDescription) {x : ServerDescription}
    (hx : x ∈ l) (hne : x.id ≠ id) : x ∈ write_item l id d := by
  obtain ⟨l1, l2, e, _, hs, hw⟩ := write_item_split h d
  rw [hw]
  rw [e] at hx
  simp only [List.mem_append, List.mem_cons] at hx ⊢
  rcases hx with hx | rfl | hx
  · exact Or.inl hx
  · exact absurd hs hne
  · exact Or.inr (Or.inr hx)

theorem primary_count_write_item {l : List ServerDescription} {id : Nat}
    {s : ServerDescription} (h : mongoc_set_get l id = some s) (d : ServerDescription)
    (hd : d.type ≠ ServerType.RS_PRIMARY) :
    primary_count (write_item l id d) ≤ primary_count l := by
  obtain ⟨l1, l2, e, _, _, hw⟩ := write_item_split h d
  rw [hw, e]
  unfold primary_count
  simp only [List.countP_append, List.countP_cons, hd, decide_False, Bool.false_eq_true,
    if_false]
  omega

theorem primary_count_le_length (l : List ServerDescription) :
    primary_count l ≤ l.length := List.countP_le_length _

theorem primary_count_demote (l : List ServerDescription) (d : ServerDescription)
    (hu : (l.map (fun s => s.id)).Nodup) : primary_count (l.map (demote d)) ≤ 1 := by
  have h1 : primary_count (l.map (demote d)) ≤
      List.countP (fun s => s.id == d.id) (l.map (demote d)) := by
    unfold primary_count
    apply List.countP_mono_left
    intro x hx hp
    obtain ⟨x0, _, rfl⟩ := List.mem_map.1 hx
    by_contra hne
    have hid : x0.id ≠ d.id := by
      intro e; apply hne; rw [demote_id]; simp [e]
    exact (demote_other_type d x0 hid).1 (by simpa using hp)
  have h2 : List.countP (fun s => s.id == d.id) (l.map (demote d)) =
      List.count d.id (l.map (fun s => s.id)) := by
    rw [List.count, List.countP_map, List.countP_map]
    apply List.countP_congr
    intro x _
    simp [demote_id]
  have h3 := List.nodup_iff_count_le_one.1 hu d.id
  omega

/-- What an accepted primary `d` of the set leaves: `d` itself, and no other
primary; an old primary that is still there is UNKNOWN. -/
theorem accepted_primary (t : TopologyDescription) (d : ServerDescription)
    (hd : d ∈ t.servers) (hu : ids_unique t) :
    d ∈ (update_rs_from_primary_accepted t d).servers ∧
    primary_count (update_rs_from_primary_accepted t d).servers ≤ 1 ∧
    ∀ x ∈ (update_rs_from_primary_accepted t d).servers, x.id ≠ d.id →
      x.type ≠ ServerType.RS_PRIMARY ∧
      ∀ x0 ∈ t.servers, x0.id = x.id → x0.type = ServerType.RS_PRIMARY →
        x.type = ServerType.UNKNOWN := by
  obtain ⟨news, m, hfil, _, _, _⟩ := accepted_spec t d
  have hsplit : ∀ y ∈ (add_all { t with servers := t.servers.map (demote d) }
      (roster d)).servers, (∃ y0 ∈ t.servers, y = demote d y0) ∨ y ∈ news := by
    intro y hy
    rcases List.mem_append.1 (m.perm.mem_iff.1 hy) with h | h
    · obtain ⟨y0, hy0, e⟩ := List.mem_map.1 h
      exact Or.inl ⟨y0, hy0, e.symm⟩
    · exact Or.inr h
  refine ⟨?_, ?_, ?_⟩
  · rw [mem_accepted]
    refine ⟨m.perm.mem_iff.2 (List.mem_append_left _
      (List.mem_map.2 ⟨d, hd, demote_self d d rfl⟩)), ?_⟩
    intro y hy hmiss e
    have hm := (missing_host_iff d y).1 hmiss
    rcases hsplit y hy with ⟨y0, hy0, rfl⟩ | hn
    · rw [demote_id] at e
      have := id_injective_of_nodup hu hy0 hd e
      subst this
      exact hm.1 (demote_address _ _).symm
    · exact hm.2 (m.listed y hn)
  · rw [hfil]
    refine Nat.le_trans (List.Sublist.countP_le _ (List.filter_sublist _)) ?_
    have h1 : primary_count (add_all { t with servers := t.servers.map (demote d) }
        (roster d)).servers = primary_count (t.servers.map (demote d)) :=
      primary_count_add_all _ _
    unfold primary_count at h1
    rw [h1]
    exact primary_count_demote t.servers d hu
  · intro x hx hne
    have hxG := ((mem_accepted t d x).1 hx).1
    rcases hsplit x hxG with ⟨x1, hx1, rfl⟩ | hn
    · rw [demote_id] at hne
      refine ⟨(demote_other_type d x1 hne).1, ?_⟩
      intro x0 hx0 e hp
      rw [demote_id] at e
      have := id_injective_of_nodup hu hx0 hx1 e
      subst this
      exact (demote_other_type d x0 hne).2 hp
    · have hf := m.fresh x hn
      have hu' : x.type = ServerType.UNKNOWN := by rw [hf]; rfl
      exact ⟨by rw [hu']; simp, fun _ _ _ _ => hu'⟩

/-! ## C2: at most one primary -/

/-- C2 (counterexample): in the replica set "rs0" where B and the primary A are
stored under one id, the topology has one primary and a kind other than
SINGLE; B answers as primary of "rs0": A is not demoted and the set holds two
primaries. -/
theorem C2_counterexample_at_most_one_primary :
    primary_count topology_primary_shared_id.servers ≤ 1 ∧
    topology_primary_shared_id.type ≠ TopologyType.SINGLE ∧
    (mongoc_topology_description_handle_ismaster topology_primary_shared_id
        (SdPtr.item 1) (some response_primary_rs0) 5 false).map
      (fun r => primary_count r.topology.servers) = some 2 :=
  ⟨by decide, by decide, by decide⟩

/-- C2 (amended): for every topology whose servers have pairwise distinct ids
and that has at most one server of kind RS_PRIMARY (and exactly one server if
its kind is SINGLE), every member `sd` and every handshake outcome: after the
handshake (a call that returns, and then returns `true`) at most one server
of the set has kind RS_PRIMARY. When `sd` is accepted as primary by
`update_rs_from_primary` (classified RS_PRIMARY in a topology of kind UNKNOWN,
RS_NO_PRIMARY or RS_WITH_PRIMARY whose set name is absent or the same), the
call returns `true`, `sd` is in the set with kind RS_PRIMARY, no other server
of the set is RS_PRIMARY, and every other server that was RS_PRIMARY and is
still in the set is UNKNOWN. -/
theorem C2_at_most_one_primary (t : TopologyDescription) (id : Nat) (s : ServerDescription)
    (resp : Option IsMasterResponse) (rtt : Int) (err : Bool)
    (hu : ids_unique t)
    (h1 : primary_count t.servers ≤ 1)
    (hsingle : t.type = TopologyType.SINGLE → t.servers.length = 1)
    (hget : mongoc_set_get t.servers id = some s) :
    (∀ r, mongoc_topology_description_handle_ismaster t (SdPtr.item id) resp rtt err =
        some r →
      r.ret = true ∧ primary_count r.topology.servers ≤ 1) ∧
    (∀ rsp, resp = some rsp → err = false → classify rsp = ServerType.RS_PRIMARY →
      (t.type = TopologyType.UNKNOWN ∨ t.type = TopologyType.RS_NO_PRIMARY ∨
        t.type = TopologyType.RS_WITH_PRIMARY) →
      (t.set_name = none ∨ t.set_name = rsp.setName) →
      ∃ r, mongoc_topology_description_handle_ismaster t (SdPtr.item id) resp rtt err =
          some r ∧
        r.ret = true ∧
        primary_count r.topology.servers ≤ 1 ∧
        mongoc_server_description_handle_ismaster s resp rtt err ∈ r.topology.servers ∧
        (mongoc_server_description_handle_ismaster s resp rtt err).type =
          ServerType.RS_PRIMARY ∧
        ∀ x ∈ r.topology.servers, x.id ≠ id →
          x.type ≠ ServerType.RS_PRIMARY ∧
          ∀ x0 ∈ t.servers, x0.id = x.id → x0.type = ServerType.RS_PRIMARY →
            x.type = ServerType.UNKNOWN) := by
  have hsid := (mongoc_set_get_some hget).2
  have hsmem := (mongoc_set_get_some hget).1
  -- abbreviations: d is the description after the handshake, the set holds it
  have hdid : (mongoc_server_description_handle_ismaster s resp rtt err).id = id := by
    rw [handshake_id, hsid]
  have hdmem : mongoc_server_description_handle_ismaster s resp rtt err ∈
      (SdPtr.store t (SdPtr.item id)
        (mongoc_server_description_handle_ismaster s resp rtt err)).servers :=
    mem_write_item_self hget _
  have hu1 : ids_unique (SdPtr.store t (SdPtr.item id)
      (mongoc_server_description_handle_ismaster s resp rtt err)) := by
    unfold ids_unique
    simp only [SdPtr.store]
    rw [write_item_map_id hget _ hdid]; exact hu
  have hrm : primary_count (mongoc_set_rm (SdPtr.store t (SdPtr.item id)
      (mongoc_server_description_handle_ismaster s resp rtt err)).servers
      (mongoc_server_description_handle_ismaster s resp rtt err).id) ≤ 1 := by
    simp only [SdPtr.store]
    rw [hdid, mongoc_set_rm_write_item hget _ hdid]
    exact Nat.le_trans (primary_count_rm_le _ _) h1
  refine ⟨?_, ?_⟩
  · -- at most one primary
    intro r hcall
    obtain ⟨ret, t2, sd⟩ := r
    obtain ⟨hret, _, hres⟩ := handle_ismaster_present t (SdPtr.item id) s resp rtt err _ hget
      (has_server_isSome_of_mem hsmem) hcall
    simp only at hret hres
    refine ⟨hret, ?_⟩
    by_cases hprim : (mongoc_server_description_handle_ismaster s resp rtt err).type =
        ServerType.RS_PRIMARY
    · obtain ⟨m, hm⟩ := Option.isSome_iff_exists.1
        (handshake_rs_member_named s resp rtt err (Or.inl hprim))
      rw [hprim] at hres
      have hp_case : ∀ t3, _mongoc_topology_description_update_rs_from_primary
          (SdPtr.store t (SdPtr.item id)
            (mongoc_server_description_handle_ismaster s resp rtt err))
          (mongoc_server_description_handle_ismaster s resp rtt err) = some t3 →
          primary_count t3.servers ≤ 1 := by
        intro t3 h3
        rw [update_rs_from_primary_cases _ _ m hdmem hm, store_set_name] at h3
        simp only [Option.some.injEq] at h3
        subst h3
        split
        · exact (accepted_primary _ _ (by exact hdmem) (by exact hu1)).2.1
        · split
          · exact (accepted_primary _ _ hdmem hu1).2.1
          · rw [check_if_has_primary_servers]; exact hrm
      cases htt : t.type with
      | SINGLE =>
        rw [htt] at hres
        simp only [gSDAMTransitionTable, reduceCtorEq, false_and, exists_false, or_false,
          true_and] at hres
        subst hres
        have hlen : (write_item t.servers id
            (mongoc_server_description_handle_ismaster s resp rtt err)).length = 1 := by
          have := congrArg List.length (write_item_map_id hget
            (mongoc_server_description_handle_ismaster s resp rtt err) hdid)
          simp only [List.length_map] at this
          rw [this]; exact hsingle htt
        exact Nat.le_trans (primary_count_le_length _) (Nat.le_of_eq hlen)
      | SHARDED =>
        rw [htt] at hres
        simp only [gSDAMTransitionTable, reduceCtorEq, false_and, Option.some.injEq,
          exists_eq_left', false_or] at hres
        subst hres; exact hrm
      | UNKNOWN =>
        rw [htt] at hres
        simp only [gSDAMTransitionTable, reduceCtorEq, false_and, Option.some.injEq,
          exists_eq_left', false_or] at hres
        exact hp_case t2 hres
      | RS_NO_PRIMARY =>
        rw [htt] at hres
        simp only [gSDAMTransitionTable, reduceCtorEq, false_and, Option.some.injEq,
          exists_eq_left', false_or] at hres
        exact hp_case t2 hres
      | RS_WITH_PRIMARY =>
        rw [htt] at hres
        simp only [gSDAMTransitionTable, reduceCtorEq, false_and, Option.some.injEq,
          exists_eq_left', false_or] at hres
        exact hp_case t2 hres
    · have hw : primary_count (SdPtr.store t (SdPtr.item id)
          (mongoc_server_description_handle_ismaster s resp rtt err)).servers ≤ 1 :=
        Nat.le_trans (primary_count_write_item hget _ hprim) h1
      rcases hres with ⟨_, rfl⟩ | ⟨f, hf, hft⟩
      · exact hw
      · exact Nat.le_trans
          (primary_count_shape (transition_shape _ _ f t2 hprim
            (by rw [store_type]; exact hf) hft)) hw
  · -- an accepted primary
    intro rsp hresp herr hc hkind hname
    subst hresp; subst herr
    have hprim : (mongoc_server_description_handle_ismaster s (some rsp) rtt false).type =
        ServerType.RS_PRIMARY := hc
    have hm : (mongoc_server_description_handle_ismaster s (some rsp) rtt false).set_name =
        rsp.setName := rfl
    obtain ⟨m, hm2⟩ := Option.isSome_iff_exists.1 (classify_named rsp (Or.inl hc))
    have htab : gSDAMTransitionTable ServerType.RS_PRIMARY t.type =
        some _mongoc_topology_description_update_rs_from_primary := by
      rcases hkind with h | h | h <;> rw [h] <;> rfl
    obtain ⟨t2, hres⟩ : ∃ t2, _mongoc_topology_description_update_rs_from_primary
        (SdPtr.store t (SdPtr.item id)
          (mongoc_server_description_handle_ismaster s (some rsp) rtt false))
        (mongoc_server_description_handle_ismaster s (some rsp) rtt false) = some t2 :=
      ⟨_, update_rs_from_primary_cases _ _ m hdmem (hm.trans hm2)⟩
    have hcall : mongoc_topology_description_handle_ismaster t (SdPtr.item id) (some rsp)
        rtt false =
          some { ret := true, topology := t2,
                 sd := some (mongoc_server_description_handle_ismaster s (some rsp) rtt
                   false) } := by
      rw [handle_ismaster_item t id s (some rsp) rtt false hget, hprim, htab]
      simp only [hres, Option.map_some']
    rw [update_rs_from_primary_cases _ _ m hdmem (hm.trans hm2), store_set_name] at hres
    simp only [Option.some.injEq] at hres
    have hacc : ∃ t0 : TopologyDescription,
        t0.servers = (SdPtr.store t (SdPtr.item id)
          (mongoc_server_description_handle_ismaster s (some rsp) rtt false)).servers ∧
        t2 = update_rs_from_primary_accepted t0
          (mongoc_server_description_handle_ismaster s (some rsp) rtt false) := by
      rcases hname with hn | hn
      · rw [hn] at hres
        simp only at hres
        exact ⟨_, by rfl, hres.symm⟩
      · rw [hn, hm2] at hres
        simp only [if_true] at hres
        exact ⟨_, by rfl, hres.symm⟩
    obtain ⟨t0, h0, rfl⟩ := hacc
    have hu0 : ids_unique t0 := by unfold ids_unique; rw [h0]; exact hu1
    obtain ⟨a1, a2, a3⟩ := accepted_primary t0 _ (by rw [h0]; exact hdmem) hu0
    refine ⟨_, hcall, rfl, a2, a1, hprim, ?_⟩
    intro x hx hne
    obtain ⟨b1, b2⟩ := a3 x hx (by rw [hdid]; exact hne)
    refine ⟨b1, fun x0 hx0 e hp => b2 x0 ?_ e hp⟩
    rw [h0]
    exact mem_write_item_of_ne hget _ hx0 (by rw [e]; exact hne)

/-- C2 (witness): the dual primary scenario. A is the primary of "rs0" and B
answers as primary of "rs0": B is RS_PRIMARY and A is UNKNOWN. -/
theorem C2_witness :
    ∃ r, mongoc_topology_description_handle_ismaster topology_dual_primary (SdPtr.item 2)
        (some response_primary_rs0) 5 false = some r ∧
      r.ret = true ∧
      primary_count r.topology.servers ≤ 1 ∧
      mongoc_server_description_handle_ismaster
          (example_server 2 "B" ServerType.UNKNOWN none) (some response_primary_rs0) 5
          false ∈ r.topology.servers ∧
      (mongoc_server_description_handle_ismaster
          (example_server 2 "B" ServerType.UNKNOWN none) (some response_primary_rs0) 5
          false).type = ServerType.RS_PRIMARY ∧
      ∀ x ∈ r.topology.servers, x.id ≠ 2 →
        x.type ≠ ServerType.RS_PRIMARY ∧
        ∀ x0 ∈ topology_dual_primary.servers, x0.id = x.id →
          x0.type = ServerType.RS_PRIMARY → x.type = ServerType.UNKNOWN :=
  (C2_at_most_one_primary topology_dual_primary 2
    (example_server 2 "B" ServerType.UNKNOWN none) (some response_primary_rs0) 5 false
    (by decide) (by decide) (by decide) (by decide)).2
    response_primary_rs0 rfl rfl (by decide) (by decide) (by decide)

/-! ## Ids and addresses across a transition -/

theorem keys_map_fst (l : List ServerDescription) :
    (keys l).map Prod.fst = l.map (fun s => s.id) := by
  unfold keys; rw [List.map_map]; rfl

theorem keys_map_snd (l : List ServerDescription) :
    (keys l).map Prod.snd = l.map (fun s => s.connection_address) := by
  unfold keys; rw [List.map_map]; rfl

theorem keys_eq_of_maps {l l2 : List ServerDescription}
    (h1 : l2.map (fun s => s.id) = l.map (fun s => s.id))
    (h2 : l2.map (fun s => s.connection_address) = l.map (fun s => s.connection_address)) :
    keys l2 = keys l := by
  induction l generalizing l2 with
  | nil =>
    cases l2 with
    | nil => rfl
    | cons _ _ => simp at h1
  | cons x xs ih =>
    cases l2 with
    | nil => simp at h1
    | cons y ys =>
      simp only [List.map_cons, List.cons.injEq] at h1 h2
      simp only [keys, List.map_cons, List.cons.injEq, Prod.mk.injEq]
      exact ⟨⟨h1.1, h2.1⟩, ih h1.2 h2.2⟩

theorem keys_label_list (l : List ServerDescription) (o : Option String) :
    keys (label_list l o) = keys l :=
  keys_eq_of_maps (label_list_map_id l o) (label_list_map_address l o)

theorem keys_demote (l : List ServerDescription) (d : ServerDescription) :
    keys (l.map (demote d)) = keys l := by
  apply keys_eq_of_maps
  · rw [List.map_map]; congr 1; funext s; exact demote_id d s
  · rw [List.map_map]; congr 1; funext s; exact demote_address d s

theorem keys_write_item {l : List ServerDescription} {id : Nat} {s : ServerDescription}
    (h : mongoc_set_get l id = some s) (d : ServerDescription) (h1 : d.id = id)
    (h2 : d.connection_address = s.connection_address) : keys (write_item l id d) = keys l :=
  keys_eq_of_maps (write_item_map_id h d h1) (write_item_map_address h d h2)

theorem keys_filter_sublist (l : List ServerDescription) (p : ServerDescription → Bool) :
    (keys (l.filter p)).Sublist (keys l) :=
  List.Sublist.map _ (List.filter_sublist l)

theorem mem_keys {l : List ServerDescription} {k : Nat × String} :
    k ∈ keys l ↔ ∃ s ∈ l, s.id = k.1 ∧ s.connection_address = k.2 := by
  unfold keys
  rw [List.mem_map]
  constructor
  · rintro ⟨s, hs, rfl⟩; exact ⟨s, hs, rfl, rfl⟩
  · rintro ⟨s, hs, h1, h2⟩; exact ⟨s, hs, Prod.ext h1 h2⟩

/-- A topology with the ids and addresses of `t` is derived from `t`. -/
theorem derived_of_sublist (t t2 : TopologyDescription)
    (hs : (keys t2.servers).Sublist (keys t.servers))
    (hm : t2.max_server_id = t.max_server_id) : Derived t t2 [] :=
  { sub := ⟨keys t.servers, hs, by simp [keys]⟩
    counter := Nat.le_of_eq hm.symm
    new_ids := by simp
    new_ids_distinct := by simp
    new_addresses_distinct := by simp
    absent := by simp }

/-- Monitoring a roster that does not make the counter wrap derives the grown
topology, and so does anything that keeps a part of its ids and addresses. -/
theorem derived_of_monitored {t0 g : TopologyDescription} {as : List String}
    {news : List ServerDescription} (m : Monitored t0 g as news)
    (hw : t0.max_server_id + as.length < 2 ^ 32)
    (t t2 : TopologyDescription) (hk : keys t0.servers = keys t.servers)
    (hm0 : t0.max_server_id = t.max_server_id)
    (hs : (keys t2.servers).Sublist (keys g.servers))
    (hm2 : t2.max_server_id = g.max_server_id) : Derived t t2 news := by
  have hc := m.counter hw
  refine
    { sub := ⟨keys g.servers, hs, ?_⟩
      counter := by rw [hm2, hc, hm0]; omega
      new_ids := ?_
      new_ids_distinct := m.new_ids_distinct hw
      new_addresses_distinct := m.distinct
      absent := ?_ }
  · have := m.perm.map (fun s : ServerDescription => (s.id, s.connection_address))
    unfold keys at hk ⊢
    rw [List.map_append, hk] at this
    exact this
  · intro n hn
    have := m.new_ids hw n hn
    rw [hm2, hc, ← hm0]; exact this
  · intro n hn s hs0 e
    have h1 : (s.id, s.connection_address) ∈ keys t0.servers := by
      rw [hk]; exact mem_keys.2 ⟨s, hs0, rfl, rfl⟩
    obtain ⟨s1, hs1, _, h3⟩ := mem_keys.1 h1
    exact m.absent n hn s1 hs1 (h3.trans e)

theorem nodup_of_sublist_perm {α : Type} {l mid l2 : List α} (hs : l.Sublist mid)
    (hp : mid.Perm l2) (hn : l2.Nodup) : l.Nodup :=
  List.Nodup.sublist hs (hp.nodup_iff.2 hn)

/-- A derived topology has distinct ids and addresses, ids below the counter,
and its servers keep the id and address they had. -/
theorem derived_wellformed {t t2 : TopologyDescription} {news : List ServerDescription}
    (h : Derived t t2 news) (hu : ids_unique t) (ha : addresses_unique t)
    (hb : ids_bounded t) :
    ids_unique t2 ∧ addresses_unique t2 ∧ ids_bounded t2 ∧ keeps_ids_and_addresses t t2 ∧
      t.max_server_id ≤ t2.max_server_id := by
  obtain ⟨mid, hsub, hperm⟩ := h.sub
  have hmem : ∀ x ∈ t2.servers,
      (∃ y ∈ t.servers, y.id = x.id ∧ y.connection_address = x.connection_address) ∨
      (∃ n ∈ news, n.id = x.id ∧ n.connection_address = x.connection_address) := by
    intro x hx
    have h1 : (x.id, x.connection_address) ∈ keys t2.servers := mem_keys.2 ⟨x, hx, rfl, rfl⟩
    have h2 := hperm.mem_iff.1 (hsub.subset h1)
    rcases List.mem_append.1 h2 with h3 | h3
    · exact Or.inl (mem_keys.1 h3)
    · exact Or.inr (mem_keys.1 h3)
  refine ⟨?_, ?_, ?_, ?_, h.counter⟩
  · unfold ids_unique
    rw [← keys_map_fst]
    refine nodup_of_sublist_perm (hsub.map Prod.fst) (hperm.map Prod.fst) ?_
    rw [List.map_append, keys_map_fst, keys_map_fst, List.nodup_append]
    refine ⟨hu, h.new_ids_distinct, ?_⟩
    intro k hk1 hk2
    obtain ⟨s, hs, rfl⟩ := List.mem_map.1 hk1
    obtain ⟨n, hn, e⟩ := List.mem_map.1 hk2
    have h1 := hb s hs
    have h2 := (h.new_ids n hn).1
    omega
  · unfold addresses_unique
    rw [← keys_map_snd]
    refine nodup_of_sublist_perm (hsub.map Prod.snd) (hperm.map Prod.snd) ?_
    rw [List.map_append, keys_map_snd, keys_map_snd, List.nodup_append]
    refine ⟨ha, h.new_addresses_distinct, ?_⟩
    intro k hk1 hk2
    obtain ⟨s, hs, rfl⟩ := List.mem_map.1 hk1
    obtain ⟨n, hn, e⟩ := List.mem_map.1 hk2
    exact h.absent n hn s hs e.symm
  · intro x hx
    rcases hmem x hx with ⟨y, hy, e, _⟩ | ⟨n, hn, e, _⟩
    · rw [← e]; exact Nat.le_trans (hb y hy) h.counter
    · rw [← e]; exact (h.new_ids n hn).2
  · intro x hx x0 hx0
    rcases hmem x hx with ⟨y, hy, e1, e2⟩ | ⟨n, hn, e1, e2⟩
    · constructor
      · intro e
        have : y = x0 := id_injective_of_nodup hu hy hx0 (e1.trans e)
        rw [← e2, this]
      · intro e
        have : y = x0 := List.inj_on_of_nodup_map ha hy hx0 (e2.trans e)
        rw [← e1, this]
    · constructor
      · intro e
        have h1 := hb x0 hx0
        have h2 := (h.new_ids n hn).1
        omega
      · intro e
        exact absurd (e2.trans e).symm (h.absent n hn x0 hx0)

theorem derived_of_keys_eq {t t1 t2 : TopologyDescription} {news : List ServerDescription}
    (hk : keys t1.servers = keys t.servers) (hm : t1.max_server_id = t.max_server_id)
    (h : Derived t1 t2 news) : Derived t t2 news :=
  { sub := by rw [← hk]; exact h.sub
    counter := by rw [← hm]; exact h.counter
    new_ids := by rw [← hm]; exact h.new_ids
    new_ids_distinct := h.new_ids_distinct
    new_addresses_distinct := h.new_addresses_distinct
    absent := by
      intro n hn s hs e
      have h1 : (s.id, s.connection_address) ∈ keys t1.servers := by
        rw [hk]; exact mem_keys.2 ⟨s, hs, rfl, rfl⟩
      obtain ⟨s1, hs1, _, h3⟩ := mem_keys.1 h1
      exact h.absent n hn s1 hs1 (h3.trans e) }

theorem derived_of_shape {t t2 : TopologyDescription} {d : ServerDescription}
    (h : TransitionShape t d t2) (hw : t.max_server_id + (roster d).length < 2 ^ 32) :
    ∃ news, Derived t t2 news := by
  cases h with
  | kept o base hbase hs hmax =>
    refine ⟨[], derived_of_sublist t t2 ?_ hmax⟩
    rw [hs, keys_label_list]
    rcases hbase with rfl | rfl
    · exact List.Sublist.refl _
    · exact keys_filter_sublist _ _
  | grown o t0 h0 hm0 hs hmax =>
    obtain ⟨news, m⟩ := add_all_monitored (roster d) t0
    refine ⟨news, derived_of_monitored m (by rw [hm0]; exact hw) t t2 (by rw [h0]) hm0 ?_ hmax⟩
    rw [hs, keys_label_list]

theorem derived_of_accepted (t : TopologyDescription) (d : ServerDescription)
    (hw : t.max_server_id + (roster d).length < 2 ^ 32) :
    ∃ news, Derived t (update_rs_from_primary_accepted t d) news := by
  obtain ⟨news, m, hfil, _, _, hmax⟩ := accepted_spec t d
  refine ⟨news, derived_of_monitored m hw t _ (keys_demote _ _) rfl ?_ hmax⟩
  rw [hfil]
  exact keys_filter_sublist _ _

theorem derived_of_update_rs_from_primary (t : TopologyDescription) (d : ServerDescription)
    (t2 : TopologyDescription) (m : String) (hd : d ∈ t.servers) (hm : d.set_name = some m)
    (h : _mongoc_topology_description_update_rs_from_primary t d = some t2)
    (hw : t.max_server_id + (roster d).length < 2 ^ 32) : ∃ news, Derived t t2 news := by
  rw [update_rs_from_primary_cases t d m hd hm] at h
  simp only [Option.some.injEq] at h
  subst h
  split
  · obtain ⟨news, h⟩ := derived_of_accepted { t with set_name := some m } d hw
    exact ⟨news, derived_of_keys_eq (by rfl) (by rfl) h⟩
  · split
    · exact derived_of_accepted t d hw
    · exact derived_of_shape
        (shape_removed t d _ (by rw [check_if_has_primary_servers]; rfl)
          (by rw [check_if_has_primary_max_server_id]; rfl)) hw

/-- Every entry of the table derives its result from the topology it is given. -/
theorem derived_of_transition (t : TopologyDescription) (d : ServerDescription)
    (f : transition_t) (t2 : TopologyDescription) (hd : d ∈ t.servers)
    (hnamed : rs_member_named d) (hf : gSDAMTransitionTable d.type t.type = some f)
    (h : f t d = some t2) (hw : t.max_server_id + (roster d).length < 2 ^ 32) :
    ∃ news, Derived t t2 news := by
  by_cases hprim : d.type = ServerType.RS_PRIMARY
  · obtain ⟨m, hm⟩ := Option.isSome_iff_exists.1 (hnamed (Or.inl hprim))
    rw [hprim] at hf
    cases htt : t.type with
    | SINGLE => rw [htt] at hf; simp [gSDAMTransitionTable] at hf
    | SHARDED =>
      rw [htt] at hf
      simp only [gSDAMTransitionTable, Option.some.injEq] at hf
      subst hf
      simp only [Option.some.injEq] at h
      subst h
      exact derived_of_shape (shape_remove_server t d) hw
    | UNKNOWN =>
      rw [htt] at hf
      simp only [gSDAMTransitionTable, Option.some.injEq] at hf
      subst hf
      exact derived_of_update_rs_from_primary t d t2 m hd hm h hw
    | RS_NO_PRIMARY =>
      rw [htt] at hf
      simp only [gSDAMTransitionTable, Option.some.injEq] at hf
      subst hf
      exact derived_of_update_rs_from_primary t d t2 m hd hm h hw
    | RS_WITH_PRIMARY =>
      rw [htt] at hf
      simp only [gSDAMTransitionTable, Option.some.injEq] at hf
      subst hf
      exact derived_of_update_rs_from_primary t d t2 m hd hm h hw
  · exact derived_of_shape (transition_shape t d f t2 hprim hf h) hw

/-! ## C8: ids and addresses stay unique -/

/-- C8 (counterexample): the topology holds A under id 0 and its counter is at
2^32 - 1; no two servers share an id or an address and every id is at most
`max_server_id`. `add_server` gives B the id 0 as well. -/
theorem C8_counterexample_uniqueness :
    ids_unique topology_counter_wrap ∧ addresses_unique topology_counter_wrap ∧
    ids_bounded topology_counter_wrap ∧
    ¬ ids_unique (mongoc_topology_description_add_server topology_counter_wrap "B").1 :=
  ⟨by decide, by decide, by decide, by decide⟩

/-- C8 (amended): for every topology in which no two servers share an id or an
address and every id is at most `max_server_id`: after `add_server` with any
address, when the counter does not wrap, and after `handle_ismaster` with any
member and any outcome (a call that returns, and then returns `true`), when
the roster of the answer does not make the counter wrap, still no two servers
share an id or an address, every id is at most `max_server_id`, and every
server that remains keeps the id and address it had before; `add_server` keeps
every server as it was. -/
theorem C8_uniqueness_preserved (t : TopologyDescription) (hu : ids_unique t)
    (ha : addresses_unique t) (hb : ids_bounded t) :
    (∀ a : String, t.max_server_id + 1 < 2 ^ 32 →
      ids_unique (mongoc_topology_description_add_server t a).1 ∧
      addresses_unique (mongoc_topology_description_add_server t a).1 ∧
      ids_bounded (mongoc_topology_description_add_server t a).1 ∧
      keeps_ids_and_addresses t (mongoc_topology_description_add_server t a).1 ∧
      ∀ s ∈ t.servers, s ∈ (mongoc_topology_description_add_server t a).1.servers) ∧
    (∀ (id : Nat) (s : ServerDescription) (resp : Option IsMasterResponse) (rtt : Int)
        (err : Bool) (r : HandleResult),
      mongoc_set_get t.servers id = some s →
      t.max_server_id +
        (roster (mongoc_server_description_handle_ismaster s resp rtt err)).length < 2 ^ 32 →
      mongoc_topology_description_handle_ismaster t (SdPtr.item id) resp rtt err = some r →
      r.ret = true ∧ ids_unique r.topology ∧ addresses_unique r.topology ∧
        ids_bounded r.topology ∧ keeps_ids_and_addresses t r.topology) := by
  constructor
  · intro a hw
    obtain ⟨news, m⟩ := add_all_monitored [a] t
    have hd : Derived t (add_all t [a]) news :=
      derived_of_monitored m (by simpa using hw) t _ rfl rfl (List.Sublist.refl _) rfl
    obtain ⟨h1, h2, h3, h4, _⟩ := derived_wellformed hd hu ha hb
    exact ⟨h1, h2, h3, h4, fun s hs => m.perm.mem_iff.2 (List.mem_append_left _ hs)⟩
  · intro id s resp rtt err r hget hw hcall
    have hsid := (mongoc_set_get_some hget).2
    have hsmem := (mongoc_set_get_some hget).1
    obtain ⟨ret, t2, sd⟩ := r
    obtain ⟨hret, _, hres⟩ := handle_ismaster_present t (SdPtr.item id) s resp rtt err _ hget
      (has_server_isSome_of_mem hsmem) hcall
    simp only at hret hres
    have hdid : (mongoc_server_description_handle_ismaster s resp rtt err).id = id := by
      rw [handshake_id, hsid]
    have hkeys : keys (SdPtr.store t (SdPtr.item id)
        (mongoc_server_description_handle_ismaster s resp rtt err)).servers =
        keys t.servers :=
      keys_write_item hget _ hdid (handshake_address s resp rtt err)
    have hder : ∃ news, Derived (SdPtr.store t (SdPtr.item id)
        (mongoc_server_description_handle_ismaster s resp rtt err)) t2 news := by
      rcases hres with ⟨_, rfl⟩ | ⟨f, hf, hft⟩
      · exact ⟨[], derived_of_sublist _ _ (List.Sublist.refl _) rfl⟩
      · exact derived_of_transition _ _ f t2 (mem_write_item_self hget _)
          (handshake_rs_member_named s resp rtt err) (by rw [store_type]; exact hf) hft hw
    obtain ⟨news, hd1⟩ := hder
    have hd : Derived t t2 news := derived_of_keys_eq hkeys rfl hd1
    obtain ⟨h1, h2, h3, h4, _⟩ := derived_wellformed hd hu ha hb
    exact ⟨hret, h1, h2, h3, h4⟩

/-- C8 (witness): the replica set "rs0" of A and B; the new address C is
added, and A answers as a secondary. -/
theorem C8_witness :
    (ids_unique (mongoc_topology_description_add_server topology_rs0 "C").1 ∧
      addresses_unique (mongoc_topology_description_add_server topology_rs0 "C").1 ∧
      ids_bounded (mongoc_topology_description_add_server topology_rs0 "C").1 ∧
      keeps_ids_and_addresses topology_rs0
        (mongoc_topology_description_add_server topology_rs0 "C").1 ∧
      ∀ s ∈ topology_rs0.servers,
        s ∈ (mongoc_topology_description_add_server topology_rs0 "C").1.servers) ∧
    (∃ r, mongoc_topology_description_handle_ismaster topology_rs0 (SdPtr.item 1)
          (some response_secondary_rs0) 5 false = some r ∧
        r.ret = true ∧ ids_unique r.topology ∧ addresses_unique r.topology ∧
        ids_bounded r.topology ∧ keeps_ids_and_addresses topology_rs0 r.topology) :=
  ⟨(C8_uniqueness_preserved topology_rs0 (by decide) (by decide) (by decide)).1 "C"
      (by decide),
   ⟨(mongoc_topology_description_handle_ismaster topology_rs0 (SdPtr.item 1)
        (some response_secondary_rs0) 5 false).get (by decide),
      (Option.some_get _).symm,
      (C8_uniqueness_preserved topology_rs0 (by decide) (by decide) (by decide)).2 1
        (example_server 1 "A" ServerType.RS_PRIMARY (some "rs0"))
        (some response_secondary_rs0) 5 false _ (by decide) (by decide)
        (Option.some_get _).symm⟩⟩

/-! ## C12: selection in a SINGLE topology -/

/-- C12: in a topology of kind SINGLE with exactly one server `s`,
`suitable_servers` returns `[s]` when `s` is a STANDALONE and the empty list
otherwise, for every operation, read preference (mode and filter) and
threshold; the result mentions none of them, nor the round trip time of `s`. -/
theorem C12_single_topology_selection (t : TopologyDescription) (s : ServerDescription)
    (hk : t.type = TopologyType.SINGLE) (hs : t.servers = [s]) (optype : OpType)
    (rp : ReadPrefs) (thr : Nat) :
    mongoc_topology_description_suitable_servers optype t rp thr =
      some (if s.type = ServerType.STANDALONE then [s] else []) := by
  simp only [mongoc_topology_description_suitable_servers, hk, hs, if_true]
  cases hst : s.type <;>
    simp [_mongoc_topology_description_server_is_candidate]

/-- C12 (witness): the standalone S in a SINGLE topology, for a write. -/
theorem C12_witness :
    mongoc_topology_description_suitable_servers OpType.WRITE topology_single example_prefs 15 =
      some (if ({ example_server 1 "S" ServerType.STANDALONE none with
                  round_trip_time := 40 } : ServerDescription).type = ServerType.STANDALONE
            then [{ example_server 1 "S" ServerType.STANDALONE none with
                    round_trip_time := 40 }]
            else []) :=
  C12_single_topology_selection topology_single _ (by decide) (by decide) _ _ _

/-! ## C20: the primary check -/

theorem has_primary_isSome_iff (t : TopologyDescription) :
    (_mongoc_topology_description_has_primary t).isSome = true ↔
      ∃ s ∈ t.servers, s.type = ServerType.RS_PRIMARY ∨ s.type = ServerType.STANDALONE := by
  rw [has_primary_eq, List.find?_isSome]
  simp

/-- C20 (counterexample): the only server is a standalone; after
`check_if_has_primary` the kind is RS_WITH_PRIMARY although no server has kind
RS_PRIMARY. -/
theorem C20_counterexample_standalone_counts_as_primary :
    (_mongoc_topology_description_check_if_has_primary topology_only_standalone
        (example_server 1 "S" ServerType.STANDALONE none)).type =
      TopologyType.RS_WITH_PRIMARY ∧
    ∀ s ∈ topology_only_standalone.servers, s.type ≠ ServerType.RS_PRIMARY := by
  decide

/-- C20 (amended): for every topology (any server set, any kind), after
`check_if_has_primary` the kind is RS_WITH_PRIMARY if and only if some server of
the set has kind RS_PRIMARY or STANDALONE, and RS_NO_PRIMARY otherwise; where no
server is a STANDALONE this is: if and only if some server has kind RS_PRIMARY.
The server set and the set name are unchanged. -/
theorem C20_check_if_has_primary (t : TopologyDescription) (d : ServerDescription) :
    ((_mongoc_topology_description_check_if_has_primary t d).type =
        TopologyType.RS_WITH_PRIMARY ↔
      ∃ s ∈ t.servers, s.type = ServerType.RS_PRIMARY ∨ s.type = ServerType.STANDALONE) ∧
    ((_mongoc_topology_description_check_if_has_primary t d).type ≠
        TopologyType.RS_WITH_PRIMARY →
      (_mongoc_topology_description_check_if_has_primary t d).type =
        TopologyType.RS_NO_PRIMARY) ∧
    ((∀ s ∈ t.servers, s.type ≠ ServerType.STANDALONE) →
      ((_mongoc_topology_description_check_if_has_primary t d).type =
          TopologyType.RS_WITH_PRIMARY ↔
        ∃ s ∈ t.servers, s.type = ServerType.RS_PRIMARY)) ∧
    (_mongoc_topology_description_check_if_has_primary t d).servers = t.servers ∧
    (_mongoc_topology_description_check_if_has_primary t d).set_name = t.set_name := by
  have hiff : (_mongoc_topology_description_check_if_has_primary t d).type =
      TopologyType.RS_WITH_PRIMARY ↔
      ∃ s ∈ t.servers, s.type = ServerType.RS_PRIMARY ∨ s.type = ServerType.STANDALONE := by
    rw [check_if_has_primary_type, ← has_primary_isSome_iff]
    cases (_mongoc_topology_description_has_primary t).isSome <;> simp
  refine ⟨hiff, ?_, ?_, check_if_has_primary_servers t d, check_if_has_primary_set_name t d⟩
  · rw [check_if_has_primary_type]
    split <;> simp
  · intro hno
    rw [hiff]
    constructor
    · rintro ⟨s, hs, h | h⟩
      · exact ⟨s, hs, h⟩
      · exact absurd h (hno s hs)
    · rintro ⟨s, hs, h⟩
      exact ⟨s, hs, Or.inl h⟩

/-! ## C13: writes in a replica set with primary -/

theorem suitable_servers_write_with_primary (t : TopologyDescription) (rp : ReadPrefs)
    (thr : Nat) (hk : t.type = TopologyType.RS_WITH_PRIMARY) :
    mongoc_topology_description_suitable_servers OpType.WRITE t rp thr =
      match t.servers.find? (fun s => decide (s.type = ServerType.RS_PRIMARY ∨
          s.type = ServerType.STANDALONE)) with
      | some p => some [p]
      | none => some [] := by
  simp only [mongoc_topology_description_suitable_servers, hk, for_each_has_primary]
  cases t.servers.find? (fun s => decide (s.type = ServerType.RS_PRIMARY ∨
      s.type = ServerType.STANDALONE)) <;> simp [latency_window_nil]

/-- C13 (counterexample): a topology of kind RS_WITH_PRIMARY with exactly one
server of kind RS_PRIMARY, P, and a standalone S before it: a write gets S. -/
theorem C13_counterexample_write_gets_standalone :
    primary_count topology_standalone_first.servers = 1 ∧
    topology_standalone_first.type = TopologyType.RS_WITH_PRIMARY ∧
    mongoc_topology_description_suitable_servers OpType.WRITE topology_standalone_first
        example_prefs 15 =
      some [example_server 1 "S" ServerType.STANDALONE none] := by
  decide

/-- C13 (amended): in a topology of kind RS_WITH_PRIMARY that holds exactly one
server of kind RS_PRIMARY, `p`, and no server of kind STANDALONE,
`suitable_servers` for a write returns exactly `[p]`, for every read preference
and threshold and whatever the kinds of the other servers (STANDALONE
apart). -/
theorem C13_writes_go_to_the_primary (t : TopologyDescription) (p : ServerDescription)
    (hk : t.type = TopologyType.RS_WITH_PRIMARY) (hp : p ∈ t.servers)
    (hpt : p.type = ServerType.RS_PRIMARY)
    (hone : ∀ q ∈ t.servers, q.type = ServerType.RS_PRIMARY → q = p)
    (hno : ∀ s ∈ t.servers, s.type ≠ ServerType.STANDALONE) (rp : ReadPrefs) (thr : Nat) :
    mongoc_topology_description_suitable_servers OpType.WRITE t rp thr = some [p] := by
  rw [suitable_servers_write_with_primary t rp thr hk]
  cases hf : t.servers.find? (fun s => decide (s.type = ServerType.RS_PRIMARY ∨
      s.type = ServerType.STANDALONE)) with
  | none =>
    have := List.find?_eq_none.1 hf p hp
    simp [hpt] at this
  | some q =>
    have hq := List.mem_of_find?_eq_some hf
    have hqt := List.find?_some hf
    simp only [decide_eq_true_eq] at hqt
    rcases hqt with h | h
    · rw [hone q hq h]
    · exact absurd h (hno q hq)

/-- C13 (witness): the replica set "rs0" with primary A and secondary B. -/
theorem C13_witness :
    mongoc_topology_description_suitable_servers OpType.WRITE topology_rs0 example_prefs 15 =
      some [example_server 1 "A" ServerType.RS_PRIMARY (some "rs0")] :=
  C13_writes_go_to_the_primary topology_rs0 _ (by decide) (by decide) (by decide) (by decide)
    (by decide) _ _

/-! ## C14: SECONDARY_PREFERRED and the primary -/

/-- C14 (evaluation at the failing input): in the replica set "rs0" with
primary A and secondary B, a SECONDARY_PREFERRED read whose filter keeps the
primary and rejects the secondary. No secondary survives the filter, and
`suitable_servers` returns the empty list instead of the primary: the
`has_secondary` flag set while collecting is still on, so the primary is struck
from the candidates. -/
theorem C14_secondary_preferred_loses_the_primary :
    (∃ p ∈ topology_rs0.servers, p.type = ServerType.RS_PRIMARY) ∧
    (∀ s ∈ topology_rs0.servers, s.type = ServerType.RS_SECONDARY →
      prefs_secondary_preferred_primary_tag.eligible topology_rs0.servers s = false) ∧
    mongoc_topology_description_suitable_servers OpType.READ topology_rs0
      prefs_secondary_preferred_primary_tag 15 = some [] := by
  decide

/-! ## C11: the latency window of a sharded topology -/

theorem for_each_find_mongos (l : List ServerDescription) :
    ∀ data : mongoc_suitable_data_t,
      (mongoc_set_for_each l _mongoc_find_suitable_mongos_cb data).candidates =
        data.candidates ++
          l.filter (fun s => _mongoc_topology_description_server_is_candidate s.type
            data.read_mode data.topology_type) := by
  induction l with
  | nil => intro data; simp [mongoc_set_for_each]
  | cons x xs ih =>
    intro data
    unfold mongoc_set_for_each
    cases hc : _mongoc_topology_description_server_is_candidate x.type data.read_mode
        data.topology_type
    · simp only [_mongoc_find_suitable_mongos_cb, hc, Bool.false_eq_true, if_false]
      rw [ih]
      simp [hc]
    · simp only [_mongoc_find_suitable_mongos_cb, hc, if_true]
      rw [ih]
      simp [hc]

theorem is_candidate_sharded (ty : ServerType) (m : ReadMode) :
    _mongoc_topology_description_server_is_candidate ty m TopologyType.SHARDED =
      decide (ty = ServerType.MONGOS) := by
  cases ty <;> rfl

theorem suitable_servers_sharded (optype : OpType) (t : TopologyDescription) (rp : ReadPrefs)
    (thr : Nat) (hk : t.type = TopologyType.SHARDED) :
    mongoc_topology_description_suitable_servers optype t rp thr =
      some (latency_window
        ((t.servers.filter (fun s => decide (s.type = ServerType.MONGOS))).map some) thr) := by
  simp only [mongoc_topology_description_suitable_servers, hk, for_each_find_mongos,
    is_candidate_sharded]
  simp

/-- The first loop of the latency window over candidates with non-negative
round trip times, started from `acc`: the result is `acc` or one of the times,
it is below every time, and below `acc` when `acc` is not the start value
`-1`. -/
theorem nearest_fold (l : List ServerDescription) :
    ∀ acc : Int, (acc = -1 ∨ 0 ≤ acc) → (∀ s ∈ l, 0 ≤ s.round_trip_time) →
      ((l.map some).foldl
          (fun nearest c =>
            match c with
            | some s =>
              if nearest = -1 ∨ nearest > s.round_trip_time then s.round_trip_time
              else nearest
            | none => nearest) acc = acc ∨
        ∃ s ∈ l, s.round_trip_time = (l.map some).foldl
          (fun nearest c =>
            match c with
            | some s =>
              if nearest = -1 ∨ nearest > s.round_trip_time then s.round_trip_time
              else nearest
            | none => nearest) acc) ∧
      (∀ s ∈ l, (l.map some).foldl
          (fun nearest c =>
            match c with
            | some s =>
              if nearest = -1 ∨ nearest > s.round_trip_time then s.round_trip_time
              else nearest
            | none => nearest) acc ≤ s.round_trip_time) ∧
      (acc ≠ -1 → (l.map some).foldl
          (fun nearest c =>
            match c with
            | some s =>
              if nearest = -1 ∨ nearest > s.round_trip_time then s.round_trip_time
              else nearest
            | none => nearest) acc ≤ acc) ∧
      (0 ≤ acc ∨ l ≠ [] → 0 ≤ (l.map some).foldl
          (fun nearest c =>
            match c with
            | some s =>
              if nearest = -1 ∨ nearest > s.round_trip_time then s.round_trip_time
              else nearest
            | none => nearest) acc) := by
  induction l with
  | nil => intro acc _ _; simp
  | cons x xs ih =>
    intro acc hacc hl
    have hx : 0 ≤ x.round_trip_time := hl x (List.mem_cons_self _ _)
    have hxs : ∀ s ∈ xs, 0 ≤ s.round_trip_time := fun s hs => hl s (List.mem_cons_of_mem _ hs)
    simp only [List.map_cons, List.foldl_cons]
    by_cases hc : acc = -1 ∨ acc > x.round_trip_time
    · simp only [hc, if_true]
      obtain ⟨h1, h2, h3, h4⟩ := ih x.round_trip_time (Or.inr hx) hxs
      have hne : x.round_trip_time ≠ -1 := by omega
      have h3' := h3 hne
      refine ⟨Or.inr ?_, ?_, ?_, fun _ => h4 (Or.inl hx)⟩
      · rcases h1 with h | ⟨s, hs, h⟩
        · exact ⟨x, List.mem_cons_self _ _, h.symm⟩
        · exact ⟨s, List.mem_cons_of_mem _ hs, h⟩
      · intro s hs
        rcases List.mem_cons.1 hs with rfl | hs
        · exact h3'
        · exact h2 s hs
      · intro hacc'
        rcases hc with h | h
        · exact absurd h hacc'
        · omega
    · simp only [hc, if_false]
      have hacc0 : 0 ≤ acc := by
        rcases hacc with h | h
        · exact absurd (Or.inl h) hc
        · exact h
      have hle : acc ≤ x.round_trip_time := by
        by_contra h; exact hc (Or.inr (by omega))
      obtain ⟨h1, h2, h3, h4⟩ := ih acc (Or.inr hacc0) hxs
      have hne : acc ≠ -1 := by omega
      have h3' := h3 hne
      refine ⟨?_, ?_, fun _ => h3', fun _ => h4 (Or.inl hacc0)⟩
      · rcases h1 with h | ⟨s, hs, h⟩
        · exact Or.inl h
        · exact Or.inr ⟨s, List.mem_cons_of_mem _ hs, h⟩
      · intro s hs
        rcases List.mem_cons.1 hs with rfl | hs
        · omega
        · exact h2 s hs

/-- With non-negative round trip times, `find_nearest` is the smallest of
them. -/
theorem find_nearest_eq_min (l : List ServerDescription) (m : Int)
    (hl : ∀ s ∈ l, 0 ≤ s.round_trip_time) (hm : ∃ s ∈ l, s.round_trip_time = m)
    (hmin : ∀ s ∈ l, m ≤ s.round_trip_time) : find_nearest (l.map some) = m := by
  obtain ⟨h1, h2, _, h4⟩ := nearest_fold l (-1) (Or.inl rfl) hl
  obtain ⟨s0, hs0, hs0m⟩ := hm
  unfold find_nearest
  have hle := h2 s0 hs0
  have hpos := h4 (Or.inr (List.ne_nil_of_mem hs0))
  rcases h1 with h | ⟨s, hs, h⟩
  · rw [h] at hpos
    omega
  · have := hmin s hs
    rw [← h] at hle ⊢
    omega

theorem to_size_t_of_nonneg (x : Int) (h0 : 0 ≤ x) (h1 : x < 2 ^ 64) :
    (to_size_t x : Int) = x := by
  unfold to_size_t
  rw [Int.emod_eq_of_lt h0 h1]
  exact Int.toNat_of_nonneg h0

theorem within_window_eq_filter (l : List ServerDescription) (m : Int) (thr : Nat)
    (hl : ∀ s ∈ l, 0 ≤ s.round_trip_time ∧ s.round_trip_time < 2 ^ 63) (hm0 : 0 ≤ m)
    (hm : m + thr < 2 ^ 64) :
    within_window (l.map some) m thr =
      l.filter (fun s => decide (s.round_trip_time ≤ m + thr)) := by
  have hmz := to_size_t_of_nonneg m hm0 (by omega)
  induction l with
  | nil => rfl
  | cons x xs ih =>
    have hx := hl x (List.mem_cons_self _ _)
    have hxz := to_size_t_of_nonneg x.round_trip_time hx.1 (by omega)
    have ih' := ih (fun s hs => hl s (List.mem_cons_of_mem _ hs))
    unfold within_window at ih' ⊢
    simp only [List.map_cons, List.filterMap_cons, List.filter_cons]
    have hmod : (to_size_t m + thr) % 2 ^ 64 = to_size_t m + thr := by
      apply Nat.mod_eq_of_lt
      have : ((to_size_t m + thr : Nat) : Int) < 2 ^ 64 := by
        push_cast; rw [hmz]; exact hm
      exact_mod_cast this
    have hiff : to_size_t x.round_trip_time ≤ (to_size_t m + thr) % 2 ^ 64 ↔
        x.round_trip_time ≤ m + thr := by
      rw [hmod]
      constructor
      · intro h
        have : ((to_size_t x.round_trip_time : Nat) : Int) ≤ ((to_size_t m + thr : Nat) : Int) :=
          by exact_mod_cast h
        push_cast at this
        rw [hxz, hmz] at this
        exact this
      · intro h
        have : ((to_size_t x.round_trip_time : Nat) : Int) ≤ ((to_size_t m + thr : Nat) : Int) :=
          by push_cast; rw [hxz, hmz]; exact h
        exact_mod_cast this
    by_cases hc : x.round_trip_time ≤ m + thr
    · simp only [hiff.2 hc, hc, if_true, decide_True, ih']
    · have hc' : ¬ to_size_t x.round_trip_time ≤ (to_size_t m + thr) % 2 ^ 64 :=
        fun h => hc (hiff.1 h)
      simp only [hc', hc, if_false, decide_False, ih', Bool.false_eq_true]

/-- C11: in a topology of kind SHARDED whose servers have non-negative round
trip times (of type `int64_t`), for every operation, read preference and
threshold `thr` (a `size_t`): without a server of kind MONGOS
`suitable_servers` returns the empty list; otherwise, with `m` the smallest
round trip time among the MONGOS servers and `m + thr` not overflowing, it
returns, in the iteration order of the set, exactly the servers of kind MONGOS
whose round trip time is at most `m + thr`. -/
theorem C11_latency_window_sharded (t : TopologyDescription)
    (hk : t.type = TopologyType.SHARDED)
    (hrtt : ∀ s ∈ t.servers, 0 ≤ s.round_trip_time ∧ s.round_trip_time < 2 ^ 63)
    (optype : OpType) (rp : ReadPrefs) (thr : Nat) :
    ((∀ s ∈ t.servers, s.type ≠ ServerType.MONGOS) →
      mongoc_topology_description_suitable_servers optype t rp thr = some []) ∧
    (∀ m : Int,
      (∃ s ∈ t.servers, s.type = ServerType.MONGOS ∧ s.round_trip_time = m) →
      (∀ s ∈ t.servers, s.type = ServerType.MONGOS → m ≤ s.round_trip_time) →
      m + thr < 2 ^ 64 →
      mongoc_topology_description_suitable_servers optype t rp thr =
        some (t.servers.filter
          (fun s => decide (s.type = ServerType.MONGOS) &&
            decide (s.round_trip_time ≤ m + thr)))) := by
  rw [suitable_servers_sharded optype t rp thr hk]
  constructor
  · intro hno
    have : t.servers.filter (fun s => decide (s.type = ServerType.MONGOS)) = [] := by
      rw [List.filter_eq_nil_iff]
      intro s hs
      simpa using hno s hs
    rw [this]; rfl
  · rintro m ⟨s0, hs0, hs0t, hs0m⟩ hmin hm
    have hcl : ∀ s ∈ t.servers.filter (fun s => decide (s.type = ServerType.MONGOS)),
        0 ≤ s.round_trip_time ∧ s.round_trip_time < 2 ^ 63 :=
      fun s hs => hrtt s (List.mem_of_mem_filter hs)
    have hnear : find_nearest
        ((t.servers.filter (fun s => decide (s.type = ServerType.MONGOS))).map some) = m := by
      apply find_nearest_eq_min
      · exact fun s hs => (hcl s hs).1
      · exact ⟨s0, List.mem_filter.2 ⟨hs0, by simpa using hs0t⟩, hs0m⟩
      · intro s hs
        have := List.mem_filter.1 hs
        exact hmin s this.1 (by simpa using this.2)
    have hm0 : 0 ≤ m := by rw [← hs0m]; exact (hrtt s0 hs0).1
    unfold latency_window
    rw [hnear, within_window_eq_filter _ m thr hcl hm0 hm, List.filter_filter]
    congr 2
    funext s
    exact Bool.and_comm _ _

/-- C11 (witness): three mongos at 15, 30 and 90 ms with a threshold of 20 ms:
the smallest time is 15 and the first two are returned. -/
theorem C11_witness :
    mongoc_topology_description_suitable_servers OpType.READ topology_sharded example_prefs
        20 =
      some (topology_sharded.servers.filter
        (fun s => decide (s.type = ServerType.MONGOS) &&
          decide (s.round_trip_time ≤ (15 : Int) + (20 : Nat)))) ∧
    (topology_sharded.servers.filter
        (fun s => decide (s.type = ServerType.MONGOS) &&
          decide (s.round_trip_time ≤ (15 : Int) + (20 : Nat)))).map
      (fun s => s.connection_address) = ["M1", "M2"] :=
  ⟨(C11_latency_window_sharded topology_sharded (by decide) (by decide) OpType.READ
      example_prefs 20).2 15 (by decide) (by decide) (by decide),
    by decide⟩

/-! ## Reads in a replica set -/

/-- The function `suitable_servers` for a read in a replica set, in terms of the
context the iteration leaves. -/
theorem suitable_servers_read_rs (t : TopologyDescription) (rp : ReadPrefs) (thr : Nat)
    (hk : t.type = TopologyType.RS_NO_PRIMARY ∨ t.type = TopologyType.RS_WITH_PRIMARY) :
    mongoc_topology_description_suitable_servers OpType.READ t rp thr =
      match (if rp.mode = ReadMode.PRIMARY ∨ rp.mode = ReadMode.PRIMARY_PREFERRED
              then (read_suitable_data t rp).primary else none) with
      | some primary => some [primary]
      | none =>
        if (mongoc_server_description_filter_eligible (read_suitable_data t rp).candidates
              rp).2 = 0 ∧ rp.mode = ReadMode.NEAREST then some []
        else
          if (if (mongoc_server_description_filter_eligible
                    (read_suitable_data t rp).candidates rp).2 = 0 then false
                else (read_suitable_data t rp).has_secondary) = true ∧
              (rp.mode = ReadMode.SECONDARY ∨ rp.mode = ReadMode.SECONDARY_PREFERRED) then
            some (latency_window
              (strike_primaries (mongoc_server_description_filter_eligible
                (read_suitable_data t rp).candidates rp).1) thr)
          else
            match (if rp.mode = ReadMode.SECONDARY_PREFERRED
                    then (read_suitable_data t rp).primary else none) with
            | some primary => some [primary]
            | none =>
              some (latency_window (mongoc_server_description_filter_eligible
                (read_suitable_data t rp).candidates rp).1 thr) := by
  rcases hk with hk | hk <;>
    simp only [mongoc_topology_description_suitable_servers, hk, reduceCtorEq, if_false,
      if_true, or_true, true_or, read_suitable_data, strike_primaries]

/-- What the iteration of `_mongoc_replica_set_read_suitable_cb` collects, in
every read mode: candidates of the set, and a primary of the set that is a
candidate. -/
theorem for_each_read_suitable (l : List ServerDescription) :
    ∀ data : mongoc_suitable_data_t,
      (mongoc_set_for_each l _mongoc_replica_set_read_suitable_cb data).read_mode =
        data.read_mode ∧
      (mongoc_set_for_each l _mongoc_replica_set_read_suitable_cb data).topology_type =
        data.topology_type ∧
      (∀ c ∈ (mongoc_set_for_each l _mongoc_replica_set_read_suitable_cb data).candidates,
        c ∈ data.candidates ∨
          (c ∈ l ∧ _mongoc_topology_description_server_is_candidate c.type data.read_mode
            data.topology_type = true)) ∧
      (∀ p, (mongoc_set_for_each l _mongoc_replica_set_read_suitable_cb data).primary =
          some p →
        data.primary = some p ∨
          (p ∈ l ∧ p.type = ServerType.RS_PRIMARY ∧
            _mongoc_topology_description_server_is_candidate p.type data.read_mode
              data.topology_type = true)) := by
  induction l with
  | nil => intro data; simp [mongoc_set_for_each]
  | cons x xs ih =>
    intro data
    unfold mongoc_set_for_each
    cases hc : _mongoc_topology_description_server_is_candidate x.type data.read_mode
        data.topology_type
    · simp only [_mongoc_replica_set_read_suitable_cb, hc, Bool.false_eq_true, if_false]
      obtain ⟨h1, h2, h3, h4⟩ := ih data
      refine ⟨h1, h2, ?_, ?_⟩
      · intro c hcm
        rcases h3 c hcm with h | ⟨h, h'⟩
        · exact Or.inl h
        · exact Or.inr ⟨List.mem_cons_of_mem _ h, h'⟩
      · intro p hp
        rcases h4 p hp with h | ⟨h, h'⟩
        · exact Or.inl h
        · exact Or.inr ⟨List.mem_cons_of_mem _ h, h'⟩
    · simp only [_mongoc_replica_set_read_suitable_cb, hc, if_true]
      by_cases hbreak : x.type = ServerType.RS_PRIMARY ∧
          (data.read_mode = ReadMode.PRIMARY ∨ data.read_mode = ReadMode.PRIMARY_PREFERRED)
      · simp only [hbreak, and_self, if_true, true_and]
        refine ⟨fun c hcm => Or.inl hcm, ?_⟩
        intro p hp
        simp only [Option.some.injEq] at hp
        subst hp
        exact Or.inr ⟨List.mem_cons_self _ _, hbreak.1, hc⟩
      · simp only [hbreak, if_false]
        by_cases hprim : x.type = ServerType.RS_PRIMARY <;>
          by_cases hsec : x.type = ServerType.RS_SECONDARY <;>
          simp only [hprim, hsec, if_true, if_false, reduceCtorEq] <;>
          (refine ⟨(ih _).1, (ih _).2.1, ?_, ?_⟩
           · intro c hcm
             rcases (ih _).2.2.1 c hcm with h | ⟨h, h'⟩
             · simp only [List.mem_append, List.mem_singleton] at h
               rcases h with h | rfl
               · exact Or.inl h
               · exact Or.inr ⟨List.mem_cons_self _ _, hc⟩
             · exact Or.inr ⟨List.mem_cons_of_mem _ h, h'⟩
           · intro p hp
             rcases (ih _).2.2.2 p hp with h | ⟨h, h'⟩
             · first
                 | exact Or.inl h
                 | (simp only [Option.some.injEq] at h
                    subst h
                    exact Or.inr ⟨List.mem_cons_self _ _, hprim, hc⟩)
             · exact Or.inr ⟨List.mem_cons_of_mem _ h, h'⟩)

/-- In the modes that never stop the iteration early, every candidate of the
set is collected, in order, and `has_secondary` tells whether one of them is a
secondary. -/
theorem for_each_read_suitable_all (l : List ServerDescription) :
    ∀ data : mongoc_suitable_data_t,
      data.read_mode ≠ ReadMode.PRIMARY → data.read_mode ≠ ReadMode.PRIMARY_PREFERRED →
      (mongoc_set_for_each l _mongoc_replica_set_read_suitable_cb data).candidates =
        data.candidates ++ l.filter (fun s =>
          _mongoc_topology_description_server_is_candidate s.type data.read_mode
            data.topology_type) ∧
      (mongoc_set_for_each l _mongoc_replica_set_read_suitable_cb data).has_secondary =
        (data.has_secondary || l.any (fun s =>
          _mongoc_topology_description_server_is_candidate s.type data.read_mode
            data.topology_type && decide (s.type = ServerType.RS_SECONDARY))) := by
  induction l with
  | nil => intro data _ _; simp [mongoc_set_for_each]
  | cons x xs ih =>
    intro data h1 h2
    unfold mongoc_set_for_each
    cases hc : _mongoc_topology_description_server_is_candidate x.type data.read_mode
        data.topology_type
    · simp only [_mongoc_replica_set_read_suitable_cb, hc, Bool.false_eq_true, if_false]
      obtain ⟨e1, e2⟩ := ih data h1 h2
      rw [e1, e2]
      simp [List.filter_cons, hc]
    · simp only [_mongoc_replica_set_read_suitable_cb, hc, if_true, h1, h2, or_self, and_false,
        if_false]
      by_cases hsec : x.type = ServerType.RS_SECONDARY
      · have hprim : x.type ≠ ServerType.RS_PRIMARY := by rw [hsec]; decide
        simp only [hprim, hsec, if_true, if_false, reduceCtorEq]
        refine ⟨?_, ?_⟩
        · rw [(ih _ (by exact h1) (by exact h2)).1]
          simp [List.filter_cons, hc]
        · rw [(ih _ (by exact h1) (by exact h2)).2]
          rw [hsec] at hc
          simp [List.any_cons, hc, hsec]
      · by_cases hprim : x.type = ServerType.RS_PRIMARY <;>
          simp only [hprim, hsec, if_true, if_false, reduceCtorEq] <;>
          (refine ⟨?_, ?_⟩
           · rw [(ih _ (by exact h1) (by exact h2)).1]
             simp [List.filter_cons, hc]
           · rw [(ih _ (by exact h1) (by exact h2)).2]
             simp [List.any_cons, hc, hsec, hprim])

/-- In the modes PRIMARY and PRIMARY_PREFERRED the iteration over a replica set
stops at the first primary and records it. -/
theorem for_each_read_suitable_primary (l : List ServerDescription) :
    ∀ data : mongoc_suitable_data_t,
      data.read_mode = ReadMode.PRIMARY ∨ data.read_mode = ReadMode.PRIMARY_PREFERRED →
      data.topology_type = TopologyType.RS_NO_PRIMARY ∨
        data.topology_type = TopologyType.RS_WITH_PRIMARY →
      (mongoc_set_for_each l _mongoc_replica_set_read_suitable_cb data).primary =
        match l.find? (fun s => decide (s.type = ServerType.RS_PRIMARY)) with
        | some p => some p
        | none => data.primary := by
  induction l with
  | nil => intro data _ _; simp [mongoc_set_for_each]
  | cons x xs ih =>
    intro data hm hk
    unfold mongoc_set_for_each
    by_cases hprim : x.type = ServerType.RS_PRIMARY
    · have hc : _mongoc_topology_description_server_is_candidate x.type data.read_mode
          data.topology_type = true := by
        rcases hm with hm | hm <;> rcases hk with hk | hk <;>
          simp [_mongoc_topology_description_server_is_candidate, hm, hk, hprim]
      rw [hprim] at hc
      simp only [_mongoc_replica_set_read_suitable_cb, hc, if_true, hprim, hm, and_self]
      simp [List.find?_cons, hprim]
    · have hf : (x :: xs).find? (fun s => decide (s.type = ServerType.RS_PRIMARY)) =
          xs.find? (fun s => decide (s.type = ServerType.RS_PRIMARY)) := by
        simp [List.find?_cons, hprim]
      rw [hf]
      cases hc : _mongoc_topology_description_server_is_candidate x.type data.read_mode
          data.topology_type
      · simp only [_mongoc_replica_set_read_suitable_cb, hc, Bool.false_eq_true, if_false]
        exact ih data hm hk
      · simp only [_mongoc_replica_set_read_suitable_cb, hc, if_true, hprim, false_and,
          if_false]
        by_cases hsec : x.type = ServerType.RS_SECONDARY <;>
          simp only [hsec, if_true, if_false] <;>
          exact ih _ (by exact hm) (by exact hk)

/-- A server of the latency window is one of the candidates. -/
theorem mem_latency_window (cs : List (Option ServerDescription)) (thr : Nat)
    (x : ServerDescription) (h : x ∈ latency_window cs thr) : some x ∈ cs := by
  unfold latency_window within_window at h
  rw [List.mem_filterMap] at h
  obtain ⟨c, hc, hx⟩ := h
  cases c with
  | none => simp at hx
  | some s =>
    simp only at hx
    split at hx
    · simp only [Option.some.injEq] at hx
      subst hx
      exact hc
    · simp at hx

/-- A candidate that the read preference kept is a candidate it was given, and
eligible. -/
theorem mem_filter_eligible (cands : List ServerDescription) (rp : ReadPrefs)
    (x : ServerDescription)
    (h : some x ∈ (mongoc_server_description_filter_eligible cands rp).1) :
    x ∈ cands ∧ rp.eligible cands x = true := by
  simp only [mongoc_server_description_filter_eligible, List.mem_map] at h
  obtain ⟨s, hs, hx⟩ := h
  split at hx
  · simp only [Option.some.injEq] at hx
    subst hx
    exact ⟨hs, by assumption⟩
  · simp at hx

/-- The number of candidates the read preference kept is not zero when it kept
one. -/
theorem filter_eligible_count_pos (cands : List ServerDescription) (rp : ReadPrefs)
    (x : ServerDescription) (hx : x ∈ cands) (he : rp.eligible cands x = true) :
    (mongoc_server_description_filter_eligible cands rp).2 ≠ 0 := by
  simp only [mongoc_server_description_filter_eligible]
  intro h0
  have hnil := List.length_eq_zero.1 h0
  have hm : some x ∈ (cands.map (fun s => if rp.eligible cands s then some s else none)).filter
      Option.isSome := by
    rw [List.mem_filter]
    refine ⟨List.mem_map.2 ⟨x, hx, by simp [he]⟩, rfl⟩
  rw [hnil] at hm
  simp at hm

/-- What survives the loop that strikes the primaries was there before and is
no primary. -/
theorem mem_strike_primaries (cs : List (Option ServerDescription)) (x : ServerDescription)
    (h : some x ∈ strike_primaries cs) : some x ∈ cs ∧ x.type ≠ ServerType.RS_PRIMARY := by
  simp only [strike_primaries, List.mem_map] at h
  obtain ⟨c, hc, hx⟩ := h
  cases c with
  | none => simp at hx
  | some s =>
    simp only at hx
    split at hx
    · simp at hx
    · simp only [Option.some.injEq] at hx
      subst hx
      exact ⟨hc, by assumption⟩

/-- The kinds `_mongoc_topology_description_server_is_candidate` admits in a
replica set, per read mode. -/
theorem is_candidate_rs_kinds (ty : ServerType) (mode : ReadMode) (tt : TopologyType)
    (hk : tt = TopologyType.RS_NO_PRIMARY ∨ tt = TopologyType.RS_WITH_PRIMARY)
    (h : _mongoc_topology_description_server_is_candidate ty mode tt = true) :
    (mode = ReadMode.PRIMARY → ty = ServerType.RS_PRIMARY ∨ ty = ServerType.POSSIBLE_PRIMARY) ∧
    (mode = ReadMode.SECONDARY → ty = ServerType.RS_SECONDARY) ∧
    (ty = ServerType.RS_PRIMARY ∨ ty = ServerType.POSSIBLE_PRIMARY ∨
      ty = ServerType.RS_SECONDARY) := by
  rcases hk with hk | hk <;> subst hk <;> cases ty <;> cases mode <;>
    simp_all [_mongoc_topology_description_server_is_candidate]

/-- What the iteration over the servers of a replica set leaves in the context:
candidates of the set, and a primary of the set. -/
theorem read_suitable_data_spec (t : TopologyDescription) (rp : ReadPrefs) :
    (∀ c ∈ (read_suitable_data t rp).candidates,
      c ∈ t.servers ∧
        _mongoc_topology_description_server_is_candidate c.type rp.mode t.type = true) ∧
    (∀ p, (read_suitable_data t rp).primary = some p →
      p ∈ t.servers ∧ p.type = ServerType.RS_PRIMARY ∧
        _mongoc_topology_description_server_is_candidate p.type rp.mode t.type = true) := by
  obtain ⟨_, _, h3, h4⟩ := for_each_read_suitable t.servers
    { read_mode := rp.mode, topology_type := t.type, primary := none, candidates := [],
      has_secondary := false }
  refine ⟨?_, ?_⟩
  · intro c hc
    rcases h3 c hc with h | h
    · simp at h
    · exact h
  · intro p hp
    rcases h4 p hp with h | h
    · simp at h
    · exact h

/-- The branches of a read in a replica set all return a list with a property
that the recorded primary and both latency windows have. -/
theorem read_branches (prim1 : Option ServerDescription) (c1 : Prop) [Decidable c1]
    (c2 : Prop) [Decidable c2] (prim2 : Option ServerDescription)
    (A B : List ServerDescription) (P : ServerDescription → Prop) :
    (∀ p, prim1 = some p → P p) → (∀ p, prim2 = some p → P p) →
    (∀ x ∈ A, P x) → (∀ x ∈ B, P x) →
    ∃ l, (match prim1 with
          | some primary => some [primary]
          | none =>
            if c1 then some []
            else
              if c2 then some A
              else
                match prim2 with
                | some primary => some [primary]
                | none => some B : Option (List ServerDescription)) = some l ∧
      ∀ x ∈ l, P x := by
  intro h1 h2 hA hB
  cases prim1 with
  | some p => exact ⟨[p], rfl, by simpa using h1 p rfl⟩
  | none =>
    by_cases hc1 : c1
    · exact ⟨[], by simp [hc1], by simp⟩
    · by_cases hc2 : c2
      · exact ⟨A, by simp [hc1, hc2], hA⟩
      · cases prim2 with
        | some p => exact ⟨[p], by simp [hc1, hc2], by simpa using h2 p rfl⟩
        | none => exact ⟨B, by simp [hc1, hc2], hB⟩

/-- Every server a read in a replica set returns is a server of the set that
`_mongoc_topology_description_server_is_candidate` admits, and the call
returns. -/
theorem suitable_servers_read_rs_mem (t : TopologyDescription) (rp : ReadPrefs) (thr : Nat)
    (hk : t.type = TopologyType.RS_NO_PRIMARY ∨ t.type = TopologyType.RS_WITH_PRIMARY) :
    ∃ l, mongoc_topology_description_suitable_servers OpType.READ t rp thr = some l ∧
      ∀ x ∈ l, x ∈ t.servers ∧
        _mongoc_topology_description_server_is_candidate x.type rp.mode t.type = true := by
  obtain ⟨hcand, hprim⟩ := read_suitable_data_spec t rp
  have hwin : ∀ x, some x ∈ (mongoc_server_description_filter_eligible
      (read_suitable_data t rp).candidates rp).1 →
      x ∈ t.servers ∧
        _mongoc_topology_description_server_is_candidate x.type rp.mode t.type = true :=
    fun x hx => hcand x (mem_filter_eligible _ _ _ hx).1
  rw [suitable_servers_read_rs t rp thr hk]
  apply read_branches
  · intro p hp
    split at hp
    · exact ⟨(hprim p hp).1, (hprim p hp).2.2⟩
    · simp at hp
  · intro p hp
    split at hp
    · exact ⟨(hprim p hp).1, (hprim p hp).2.2⟩
    · simp at hp
  · intro x hx
    exact hwin x (mem_strike_primaries _ _ (mem_latency_window _ _ _ hx)).1
  · intro x hx
    exact hwin x (mem_latency_window _ _ _ hx)

/-- C15: in a replica set whose only primary is `p`, a read with mode PRIMARY
or PRIMARY_PREFERRED returns exactly `[p]`, for every filter and threshold,
whatever the round-trip times and the other servers are. -/
theorem C15_primary_first_reads (t : TopologyDescription) (p : ServerDescription)
    (hk : t.type = TopologyType.RS_NO_PRIMARY ∨ t.type = TopologyType.RS_WITH_PRIMARY)
    (hp : p ∈ t.servers) (hpt : p.type = ServerType.RS_PRIMARY)
    (hone : ∀ q ∈ t.servers, q.type = ServerType.RS_PRIMARY → q = p)
    (rp : ReadPrefs)
    (hm : rp.mode = ReadMode.PRIMARY ∨ rp.mode = ReadMode.PRIMARY_PREFERRED) (thr : Nat) :
    mongoc_topology_description_suitable_servers OpType.READ t rp thr = some [p] := by
  have hprim : (read_suitable_data t rp).primary = some p := by
    unfold read_suitable_data
    rw [for_each_read_suitable_primary t.servers _ (by exact hm) (by exact hk)]
    cases hf : t.servers.find? (fun s => decide (s.type = ServerType.RS_PRIMARY)) with
    | none =>
      have := List.find?_eq_none.1 hf p hp
      simp [hpt] at this
    | some q =>
      have hq := List.find?_some hf
      have hqm := List.mem_of_find?_eq_some hf
      simp only [decide_eq_true_eq] at hq
      rw [hone q hqm hq]
  rw [suitable_servers_read_rs t rp thr hk]
  simp only [hm, if_true, hprim]

/-- Witness for C15: in the set "rs0" with the primary A and the secondary B, a
PRIMARY_PREFERRED read whose filter accepts only secondaries returns A. -/
theorem C15_witness :
    mongoc_topology_description_suitable_servers OpType.READ topology_rs0
      { mode := ReadMode.PRIMARY_PREFERRED,
        eligible := fun _ s => decide (s.type = ServerType.RS_SECONDARY) } 15 =
      some [example_server 1 "A" ServerType.RS_PRIMARY (some "rs0")] :=
  C15_primary_first_reads topology_rs0 (example_server 1 "A" ServerType.RS_PRIMARY (some "rs0"))
    (by decide) (by decide) (by decide) (by decide) _ (by decide) 15

/-- C16: every server a read in a replica set returns is a server of the set of
a kind the read mode allows: RS_PRIMARY or POSSIBLE_PRIMARY in mode PRIMARY,
RS_SECONDARY in mode SECONDARY, and RS_PRIMARY, POSSIBLE_PRIMARY or RS_SECONDARY
in every mode; the call returns for every filter and threshold. -/
theorem C16_read_mode_kind_compatibility (t : TopologyDescription)
    (hk : t.type = TopologyType.RS_NO_PRIMARY ∨ t.type = TopologyType.RS_WITH_PRIMARY)
    (rp : ReadPrefs) (thr : Nat) :
    ∃ l, mongoc_topology_description_suitable_servers OpType.READ t rp thr = some l ∧
      ∀ x ∈ l, x ∈ t.servers ∧
        (rp.mode = ReadMode.PRIMARY →
          x.type = ServerType.RS_PRIMARY ∨ x.type = ServerType.POSSIBLE_PRIMARY) ∧
        (rp.mode = ReadMode.SECONDARY → x.type = ServerType.RS_SECONDARY) ∧
        (x.type = ServerType.RS_PRIMARY ∨ x.type = ServerType.POSSIBLE_PRIMARY ∨
          x.type = ServerType.RS_SECONDARY) := by
  obtain ⟨l, hl, hmem⟩ := suitable_servers_read_rs_mem t rp thr hk
  exact ⟨l, hl, fun x hx => ⟨(hmem x hx).1, is_candidate_rs_kinds _ _ _ hk (hmem x hx).2⟩⟩

/-- Witness for C16: a NEAREST read in the set "rs0" with the primary A and the
secondary B returns servers of the set of the allowed kinds. -/
theorem C16_witness :
    ∃ l, mongoc_topology_description_suitable_servers OpType.READ topology_rs0
        (prefs_with_mode ReadMode.NEAREST) 15 = some l ∧
      ∀ x ∈ l, x ∈ topology_rs0.servers ∧
        ((prefs_with_mode ReadMode.NEAREST).mode = ReadMode.PRIMARY →
          x.type = ServerType.RS_PRIMARY ∨ x.type = ServerType.POSSIBLE_PRIMARY) ∧
        ((prefs_with_mode ReadMode.NEAREST).mode = ReadMode.SECONDARY →
          x.type = ServerType.RS_SECONDARY) ∧
        (x.type = ServerType.RS_PRIMARY ∨ x.type = ServerType.POSSIBLE_PRIMARY ∨
          x.type = ServerType.RS_SECONDARY) :=
  C16_read_mode_kind_compatibility topology_rs0 (by decide) (prefs_with_mode ReadMode.NEAREST) 15

/-! ## The set name across a transition -/

/-- A server freshly built from an address is no replica set member. -/
theorem not_rs_kind_init (a : String) (id : Nat) :
    ¬rs_kind (mongoc_server_description_init a id) := by
  simp [rs_kind, mongoc_server_description_init]

/-- A replica set member among the items after labelling was there before. -/
theorem mem_label_list_rs {l : List ServerDescription} {o : Option String}
    {s : ServerDescription} (hs : s ∈ label_list l o) (hk : rs_kind s) : s ∈ l := by
  have hrel := label_list_relabelled l o
  generalize label_list l o = l2 at hrel hs
  induction hrel with
  | nil => simp at hs
  | cons hab _ ih =>
    rcases List.mem_cons.1 hs with h | h
    · subst h
      rcases hab with h1 | ⟨_, h2⟩
      · rw [h1]; exact List.mem_cons_self _ _
      · rw [h2] at hk
        simp [rs_kind, mongoc_server_description_set_state] at hk
    · exact List.mem_cons_of_mem _ (ih h)

/-- A replica set member among the demoted items was there before. -/
theorem mem_map_demote_rs {l : List ServerDescription} {d s : ServerDescription}
    (hs : s ∈ l.map (demote d)) (hk : rs_kind s) : s ∈ l := by
  obtain ⟨x, hx, rfl⟩ := List.mem_map.1 hs
  have : demote d x = x := by
    unfold demote _mongoc_topology_description_invalidate_primaries_cb at hk ⊢
    split
    · rename_i hc
      rw [if_pos hc] at hk
      simp [rs_kind, mongoc_server_description_set_state] at hk
    · rfl
  rw [this]
  exact hx

/-- A replica set member among the servers after monitoring addresses was there
before. -/
theorem mem_add_all_rs {t : TopologyDescription} {as : List String} {s : ServerDescription}
    (hs : s ∈ (add_all t as).servers) (hk : rs_kind s) : s ∈ t.servers := by
  obtain ⟨news, hmon⟩ := add_all_monitored as t
  rcases List.mem_append.1 (hmon.perm.subset hs) with h | h
  · exact h
  · rw [hmon.fresh s h] at hk
    exact absurd hk (not_rs_kind_init _ _)

/-- A server left by `mongoc_set_rm` was there before and has another id. -/
theorem mem_mongoc_set_rm {l : List ServerDescription} {id : Nat} {s : ServerDescription} :
    s ∈ mongoc_set_rm l id ↔ s ∈ l ∧ s.id ≠ id := by
  simp [mongoc_set_rm, List.mem_filter]

/-- A replica set member after an accepted primary was there before. -/
theorem mem_accepted_rs {t : TopologyDescription} {d s : ServerDescription}
    (hs : s ∈ (update_rs_from_primary_accepted t d).servers) (hk : rs_kind s) :
    s ∈ t.servers := by
  have h1 := ((mem_accepted t d s).1 hs).1
  exact mem_map_demote_rs (mem_add_all_rs h1 hk) hk

/-- What the accepted branch of `update_rs_without_primary` keeps: the set
name, the kind, and no new replica set member. -/
theorem without_primary_accepted_facts (t : TopologyDescription) (d : ServerDescription) :
    (update_rs_without_primary_accepted t d).set_name = t.set_name ∧
    (update_rs_without_primary_accepted t d).type = t.type ∧
    ∀ s ∈ (update_rs_without_primary_accepted t d).servers, rs_kind s → s ∈ t.servers := by
  obtain ⟨news, hmon⟩ := add_all_monitored (roster d) t
  unfold update_rs_without_primary_accepted
  rw [monitor_new_servers_eq]
  cases hc : d.current_primary with
  | none => exact ⟨hmon.set_name_eq, hmon.type_eq, fun s hs hk => mem_add_all_rs hs hk⟩
  | some a =>
    refine ⟨?_, ?_, ?_⟩
    · simp only
      rw [label_unknown_member_set_name]; exact hmon.set_name_eq
    · simp only
      rw [label_unknown_member_type]; exact hmon.type_eq
    · intro s hs hk
      simp only at hs
      rw [label_unknown_member_servers] at hs
      exact mem_add_all_rs (mem_label_list_rs hs hk) hk

/-- A transition that leaves the topology as it is. -/
theorem outcome_same (t : TopologyDescription) (d : ServerDescription)
    (h : d ∈ t.servers → rs_kind d → t.set_name = d.set_name) : Outcome t d t :=
  { rs_from := fun _ hs _ => hs
    name := Or.inl rfl
    agree := h
    kind := Or.inr ⟨rfl, Or.inl rfl⟩
    known := fun h => Or.inr ⟨h, rfl⟩ }

/-- The transition `remove_server`. -/
theorem outcome_remove_server (t : TopologyDescription) (d : ServerDescription) :
    Outcome t d (_mongoc_topology_description_remove_server t d) :=
  { rs_from := fun _ hs _ => (mem_mongoc_set_rm.1 hs).1
    name := Or.inl rfl
    agree := fun hd _ => absurd rfl (mem_mongoc_set_rm.1 hd).2
    kind := Or.inr ⟨rfl, Or.inl rfl⟩
    known := fun h => Or.inr ⟨h, rfl⟩ }

/-- The transition `check_if_has_primary`, in a topology of kind
RS_WITH_PRIMARY or with a set name. -/
theorem outcome_check_if_has_primary (t : TopologyDescription) (d : ServerDescription)
    (h : d ∈ t.servers → rs_kind d → t.set_name = d.set_name)
    (hk : t.set_name.isSome = true ∨ t.type = TopologyType.RS_WITH_PRIMARY) :
    Outcome t d (_mongoc_topology_description_check_if_has_primary t d) := by
  have hty : (_mongoc_topology_description_check_if_has_primary t d).type =
      TopologyType.RS_NO_PRIMARY ∨
      (_mongoc_topology_description_check_if_has_primary t d).type =
        TopologyType.RS_WITH_PRIMARY := by
    rw [check_if_has_primary_type]
    split
    · exact Or.inr rfl
    · exact Or.inl rfl
  refine ⟨?_, ?_, ?_, Or.inl hty, ?_⟩
  · intro s hs _
    rw [check_if_has_primary_servers] at hs
    exact hs
  · exact Or.inl (check_if_has_primary_set_name t d)
  · intro hd hr
    rw [check_if_has_primary_servers] at hd
    rw [check_if_has_primary_set_name]
    exact h hd hr
  · intro _
    rw [check_if_has_primary_set_name]
    rcases hk with hk | hk
    · exact Or.inl hk
    · exact Or.inr ⟨hk, rfl⟩

/-- The transition `remove_and_check_primary`, in a topology of kind
RS_WITH_PRIMARY or with a set name. -/
theorem outcome_remove_and_check_primary (t : TopologyDescription) (d : ServerDescription)
    (hk : t.set_name.isSome = true ∨ t.type = TopologyType.RS_WITH_PRIMARY) :
    Outcome t d (_mongoc_topology_description_remove_and_check_primary t d) := by
  have h := outcome_check_if_has_primary (_mongoc_topology_description_remove_server t d) d
    (fun hd _ => absurd rfl (mem_mongoc_set_rm.1 hd).2) hk
  exact
    { rs_from := fun s hs hr => (mem_mongoc_set_rm.1 (h.rs_from s hs hr)).1
      name := h.name
      agree := h.agree
      kind := h.kind
      known := h.known }

/-- The transition `update_unknown_with_standalone`, for a server that is no
replica set member, in a topology of kind UNKNOWN. -/
theorem outcome_update_unknown_with_standalone (t : TopologyDescription)
    (d : ServerDescription) (hd : ¬rs_kind d) (hk : t.type = TopologyType.UNKNOWN) :
    Outcome t d (_mongoc_topology_description_update_unknown_with_standalone t d) := by
  unfold _mongoc_topology_description_update_unknown_with_standalone
  split
  · exact outcome_same t d (fun _ hr => absurd hr hd)
  · split
    · exact outcome_remove_server t d
    · exact
        { rs_from := fun _ hs _ => hs
          name := Or.inl rfl
          agree := fun _ hr => absurd hr hd
          kind := Or.inr ⟨rfl, Or.inr hk⟩
          known := fun h => by
            simp [_mongoc_topology_description_set_state] at h }

/-- The transition `set_topology_type_to_sharded`, for a server that is no
replica set member, in a topology of kind UNKNOWN. -/
theorem outcome_set_topology_type_to_sharded (t : TopologyDescription)
    (d : ServerDescription) (hd : ¬rs_kind d) (hk : t.type = TopologyType.UNKNOWN) :
    Outcome t d (_mongoc_topology_description_set_topology_type_to_sharded t d) :=
  { rs_from := fun _ hs _ => hs
    name := Or.inl rfl
    agree := fun _ hr => absurd hr hd
    kind := Or.inr ⟨rfl, Or.inr hk⟩
    known := fun h => by
      simp [_mongoc_topology_description_set_topology_type_to_sharded,
        _mongoc_topology_description_set_state] at h }

/-- A server whose address the topology does not hold is not in the set. -/
theorem not_mem_of_has_server_isNone {t : TopologyDescription} {d : ServerDescription}
    (h : (_mongoc_topology_description_has_server t d.connection_address).isNone = true) :
    d ∉ t.servers := by
  intro hd
  rw [has_server_isSome_of_mem hd] at h
  exact absurd h (by decide)

/-- The comparison of two set names that are there. -/
theorem strcmp_ne_some {a b : Option String} {r : Bool} (h : strcmp_ne a b = some r) :
    ∃ x y, a = some x ∧ b = some y ∧ r = (x != y) := by
  cases a <;> cases b <;> simp [strcmp_ne] at h
  exact ⟨_, _, rfl, rfl, h.symm⟩

/-- The transition `update_rs_from_primary`. -/
theorem outcome_update_rs_from_primary (t : TopologyDescription) (d : ServerDescription)
    (t2 : TopologyDescription)
    (h : _mongoc_topology_description_update_rs_from_primary t d = some t2) :
    Outcome t d t2 := by
  unfold _mongoc_topology_description_update_rs_from_primary at h
  split at h
  · rename_i hn
    cases h
    exact outcome_same t d (fun hd _ => absurd hd (not_mem_of_has_server_isNone hn))
  · split at h
    · rename_i hc
      cases h
      obtain ⟨_, _, _, hacc, hname, _⟩ :=
        accepted_spec { t with set_name := d.set_name } d
      exact
        { rs_from := fun s hs hr =>
            @mem_accepted_rs { t with set_name := d.set_name } d s hs hr
          name := Or.inr ⟨by simpa using hc.1, hname, hc.2⟩
          agree := fun _ _ => hname
          kind := Or.inl (Or.inr hacc)
          known := fun _ => Or.inl (by rw [hname]; exact hc.2) }
    · split at h
      · cases h
      · rename_i hcmp
        cases h
        obtain ⟨x, y, hx, _, _⟩ := strcmp_ne_some hcmp
        exact outcome_remove_and_check_primary t d (Or.inl (by rw [hx]; rfl))
      · rename_i hcmp
        cases h
        obtain ⟨x, y, hx, hy, hxy⟩ := strcmp_ne_some hcmp
        obtain ⟨_, _, _, hacc, hname, _⟩ := accepted_spec t d
        have hxy2 : x = y := by
          by_contra hne
          rw [bne_iff_ne.2 hne] at hxy
          exact absurd hxy (by decide)
        exact
          { rs_from := fun s hs hr => mem_accepted_rs hs hr
            name := Or.inl hname
            agree := fun _ _ => by rw [hname, hx, hy, hxy2]
            kind := Or.inl (Or.inr hacc)
            known := fun _ => Or.inl (by rw [hname, hx]; rfl) }

/-- The transition `update_rs_without_primary`, for a description that has a
set name when it is a replica set member, in a topology of kind
RS_NO_PRIMARY. -/
theorem outcome_update_rs_without_primary (t : TopologyDescription) (d : ServerDescription)
    (t2 : TopologyDescription) (hd : rs_member_named d)
    (hk : t.type = TopologyType.RS_NO_PRIMARY)
    (h : _mongoc_topology_description_update_rs_without_primary t d = some t2) :
    Outcome t d t2 := by
  have hacc : ∀ t0 : TopologyDescription, t0.servers = t.servers → t0.type = t.type →
      (t0.set_name = t.set_name ∨
        (t.set_name = none ∧ t0.set_name = d.set_name ∧ d.set_name.isSome = true)) →
      (rs_kind d → t0.set_name = d.set_name) →
      Outcome t d (update_rs_without_primary_accepted t0 d) := by
    intro t0 h0 hty hname hagree
    obtain ⟨f1, f2, f3⟩ := without_primary_accepted_facts t0 d
    exact
      { rs_from := fun s hs hr => h0 ▸ f3 s hs hr
        name := by rw [f1]; exact hname
        agree := fun _ hr => by rw [f1]; exact hagree hr
        kind := Or.inl (Or.inl (by rw [f2, hty, hk]))
        known := fun hw => by
          rw [f2, hty, hk] at hw
          exact absurd hw (by decide) }
  unfold _mongoc_topology_description_update_rs_without_primary at h
  split at h
  · rename_i hn
    cases h
    exact outcome_same t d (fun hd2 _ => absurd hd2 (not_mem_of_has_server_isNone hn))
  · split at h
    · rename_i m hm
      split at h
      · rename_i hn
        cases h
        exact hacc _ rfl rfl (Or.inr ⟨hn, rfl, by rw [hm]; rfl⟩) (fun _ => rfl)
      · split at h
        · cases h
        · cases h; exact outcome_remove_server t d
        · rename_i hcmp
          cases h
          obtain ⟨x, y, hx, hy, hxy⟩ := strcmp_ne_some hcmp
          have hxy2 : x = y := by
            by_contra hne
            rw [bne_iff_ne.2 hne] at hxy
            exact absurd hxy (by decide)
          exact hacc _ rfl rfl (Or.inl rfl) (fun _ => by rw [hx, hy, hxy2])
    · rename_i hm
      cases h
      refine hacc _ rfl rfl (Or.inl rfl) (fun hr => ?_)
      have := hd hr
      rw [hm] at this
      exact absurd this (by decide)

/-- The transition `transition_unknown_to_rs_no_primary`. -/
theorem outcome_transition_unknown_to_rs_no_primary (t : TopologyDescription)
    (d : ServerDescription) (t2 : TopologyDescription) (hd : rs_member_named d)
    (h : _mongoc_topology_description_transition_unknown_to_rs_no_primary t d = some t2) :
    Outcome t d t2 := by
  have ho := outcome_update_rs_without_primary
    (_mongoc_topology_description_set_state t TopologyType.RS_NO_PRIMARY) d t2 hd rfl h
  refine ⟨ho.rs_from, ho.name, ho.agree, ?_, ?_⟩
  · rcases ho.kind with hk | ⟨_, hk | hk⟩
    · exact Or.inl hk
    · exact Or.inl (Or.inl hk)
    · simp [_mongoc_topology_description_set_state] at hk
  · intro hw
    rcases ho.known hw with hk | ⟨hk, _⟩
    · exact Or.inl hk
    · simp [_mongoc_topology_description_set_state] at hk

/-- The transition `update_rs_with_primary_from_member`. -/
theorem outcome_update_rs_with_primary_from_member (t : TopologyDescription)
    (d : ServerDescription) (t2 : TopologyDescription)
    (hk : t.type = TopologyType.RS_WITH_PRIMARY)
    (h : _mongoc_topology_description_update_rs_with_primary_from_member t d = some t2) :
    Outcome t d t2 := by
  have h := update_rs_with_primary_from_member_defined t d t2 h
  split at h
  · rename_i hn
    cases h
    exact outcome_same t d (fun hd2 _ => absurd hd2 (not_mem_of_has_server_isNone hn))
  · cases hcmp : strcmp_ne t.set_name d.set_name with
    | none => simp only [hcmp] at h; cases h
    | some differ =>
      simp only [hcmp] at h
      obtain ⟨x, y, hx, hy, hxy⟩ := strcmp_ne_some hcmp
      have hfin : ∀ t0 : TopologyDescription, (∀ s ∈ t0.servers, s ∈ t.servers) →
          t0.set_name = t.set_name → t0.type = t.type →
          (d ∈ t0.servers → t.set_name = d.set_name) →
          (if (_mongoc_topology_description_has_primary t0).isNone ∧
              d.current_primary.isSome then
            some (_mongoc_topology_description_label_unknown_member
              (_mongoc_topology_description_set_state t0 TopologyType.RS_NO_PRIMARY)
              d.current_primary ServerType.POSSIBLE_PRIMARY)
          else some t0) = some t2 → Outcome t d t2 := by
        intro t0 b1 b2 b3 b4 h
        split at h
        · cases h
          refine ⟨?_, ?_, ?_, ?_, ?_⟩
          · intro s hs hr
            rw [label_unknown_member_servers] at hs
            exact b1 s (mem_label_list_rs hs hr)
          · rw [label_unknown_member_set_name]
            exact Or.inl b2
          · intro hd2 hr
            rw [label_unknown_member_servers] at hd2
            rw [label_unknown_member_set_name]
            exact (b4 (mem_label_list_rs hd2 hr)) ▸ b2
          · rw [label_unknown_member_type]
            exact Or.inl (Or.inl rfl)
          · intro _
            rw [label_unknown_member_set_name]
            exact Or.inl (by
              show t0.set_name.isSome = true
              rw [b2, hx]; rfl)
        · cases h
          refine ⟨fun s hs _ => b1 s hs, Or.inl b2, fun hd2 _ => (b4 hd2) ▸ b2, ?_, ?_⟩
          · exact Or.inl (Or.inr (by rw [b3, hk]))
          · intro _
            exact Or.inl (by rw [b2, hx]; rfl)
      cases hdf : differ with
      | true =>
        rw [hdf] at h
        simp only [if_true] at h
        exact hfin (_mongoc_topology_description_remove_server t d)
          (fun s hs => (mem_mongoc_set_rm.1 hs).1) rfl rfl
          (fun hd2 => absurd rfl (mem_mongoc_set_rm.1 hd2).2) h
      | false =>
        rw [hdf] at h
        simp only [Bool.false_eq_true, if_false] at h
        have hxy2 : x = y := by
          by_contra hne
          rw [hdf, bne_iff_ne.2 hne] at hxy
          exact absurd hxy (by decide)
        exact hfin t (fun s hs => hs) rfl rfl (fun _ => by rw [hx, hy, hxy2]) h

/-- Every transition of the table leaves an `Outcome`, and the table has no
transition for a topology of kind SINGLE. -/
theorem transition_outcome (t : TopologyDescription) (d : ServerDescription)
    (f : transition_t) (t2 : TopologyDescription) (hd : rs_member_named d)
    (hf : gSDAMTransitionTable d.type t.type = some f) (h : f t d = some t2) :
    Outcome t d t2 ∧ t.type ≠ TopologyType.SINGLE := by
  cases hdt : d.type <;> cases htt : t.type <;>
    simp only [hdt, htt, gSDAMTransitionTable, Option.some.injEq, reduceCtorEq] at hf <;>
    subst hf <;>
    refine ⟨?_, by decide⟩ <;>
    first
      | exact outcome_update_rs_from_primary t d t2 h
      | exact outcome_update_rs_without_primary t d t2 hd htt h
      | exact outcome_update_rs_with_primary_from_member t d t2 htt h
      | exact outcome_transition_unknown_to_rs_no_primary t d t2 hd h
      | (simp only [Option.some.injEq] at h; subst h
         first
           | exact outcome_check_if_has_primary t d
               (fun _ hr => absurd hr (by simp [rs_kind, hdt])) (Or.inr htt)
           | exact outcome_remove_server t d
           | exact outcome_remove_and_check_primary t d (Or.inr htt)
           | exact outcome_update_unknown_with_standalone t d (by simp [rs_kind, hdt]) htt
           | exact outcome_set_topology_type_to_sharded t d (by simp [rs_kind, hdt]) htt)

/-- Outside the kind SINGLE the table has a transition for every replica set
member. -/
theorem table_none_not_rs (d : ServerDescription) (tt : TopologyType)
    (hf : gSDAMTransitionTable d.type tt = none) (hk : tt ≠ TopologyType.SINGLE) :
    ¬rs_kind d := by
  intro hr
  cases hdt : d.type <;> cases tt <;>
    simp_all [rs_kind, gSDAMTransitionTable]

/-- After a write through the pointer the set holds the new contents and the
servers it held. -/
theorem mem_store {t : TopologyDescription} {p : SdPtr} {d s : ServerDescription}
    (hs : s ∈ (SdPtr.store t p d).servers) : s = d ∨ s ∈ t.servers := by
  cases p with
  | detached _ => exact Or.inr hs
  | item id =>
    simp only [SdPtr.store] at hs
    generalize t.servers = l at hs
    induction l with
    | nil => simp [write_item] at hs
    | cons x xs ih =>
      simp only [write_item] at hs
      split at hs
      · rcases List.mem_cons.1 hs with h | h
        · exact Or.inl h
        · exact Or.inr (List.mem_cons_of_mem _ h)
      · rcases List.mem_cons.1 hs with h | h
        · exact Or.inr (h ▸ List.mem_cons_self _ _)
        · rcases ih h with h2 | h2
          · exact Or.inl h2
          · exact Or.inr (List.mem_cons_of_mem _ h2)

/-- The ways a handshake that returns ends: the topology is left as it is, or
the description is stored and the table has no transition, or the transition
of the table ran on the stored description. -/
theorem handle_ismaster_cases (t : TopologyDescription) (p : SdPtr)
    (resp : Option IsMasterResponse) (rtt : Int) (err : Bool) (r : HandleResult)
    (h : mongoc_topology_description_handle_ismaster t p resp rtt err = some r) :
    r.topology = t ∨
      ∃ d, rs_member_named d ∧
        ((gSDAMTransitionTable d.type t.type = none ∧ r.topology = SdPtr.store t p d) ∨
          ∃ f, gSDAMTransitionTable d.type t.type = some f ∧
            f (SdPtr.store t p d) d = some r.topology) := by
  rcases handle_ismaster_inv t p resp rtt err r h with h2 | ⟨d0, _, h2⟩
  · exact Or.inl h2
  · exact Or.inr ⟨_, handshake_rs_member_named d0 resp rtt err, h2⟩

/-- The invariant `Agreement` across a stored description and its
transition. -/
theorem agreement_transition (t : TopologyDescription) (p : SdPtr) (d : ServerDescription)
    (t2 : TopologyDescription) (hI : Agreement t) (hd : rs_member_named d)
    (h : (gSDAMTransitionTable d.type t.type = none ∧ t2 = SdPtr.store t p d) ∨
      ∃ f, gSDAMTransitionTable d.type t.type = some f ∧ f (SdPtr.store t p d) d = some t2) :
    Agreement t2 := by
  rcases h with ⟨hf, rfl⟩ | ⟨f, hf, ht2⟩
  · have hnr : t.type ≠ TopologyType.SINGLE → ¬rs_kind d := table_none_not_rs d t.type hf
    refine ⟨?_, ?_, ?_, ?_⟩
    · intro hn s hs hr
      rw [store_set_name] at hn ⊢
      have hty : t.type ≠ TopologyType.SINGLE := by
        rcases hI.kinds hn with h | h <;> rw [h] <;> decide
      rcases mem_store hs with h | h
      · exact absurd (h ▸ hr) (hnr hty)
      · exact hI.agree hn s h hr
    · intro hn hty s hs hr
      rw [store_set_name] at hn
      rw [store_type] at hty
      rcases mem_store hs with h | h
      · exact absurd (h ▸ hr) (hnr hty)
      · exact hI.unnamed hn hty s h hr
    · intro hn
      rw [store_set_name] at hn
      rw [store_type]
      exact hI.kinds hn
    · exact store_set_name_known t p d hI.known
  · obtain ⟨ho, hty1⟩ := transition_outcome (SdPtr.store t p d) d f t2 hd
      (by rw [store_type]; exact hf) ht2
    rw [store_type] at hty1
    have hname := ho.name
    rw [store_set_name] at hname
    refine ⟨?_, ?_, ?_, ?_⟩
    · intro hn s hs hr
      rcases mem_store (ho.rs_from s hs hr) with h | h
      · subst h
        exact (ho.agree hs hr).symm
      · rcases hname with h2 | ⟨h2, _, _⟩
        · rw [h2] at hn ⊢
          exact hI.agree hn s h hr
        · exact absurd hr (hI.unnamed h2 hty1 s h)
    · intro hn _ s hs hr
      rcases hname with h2 | ⟨_, h3, h4⟩
      · rw [hn] at h2
        rcases mem_store (ho.rs_from s hs hr) with h | h
        · subst h
          have h5 := ho.agree hs hr
          have h6 := hd hr
          rw [← h5, hn] at h6
          exact absurd h6 (by decide)
        · exact hI.unnamed h2.symm hty1 s h hr
      · rw [← h3, hn] at h4
        exact absurd h4 (by decide)
    · intro hn
      rcases ho.kind with h | ⟨h1, h2⟩
      · exact h
      · rw [store_set_name] at h1
        rw [store_type] at h2
        rw [h1] at hn
        rcases h2 with h2 | h2
        · rw [h2]; exact hI.kinds hn
        · rcases hI.kinds hn with h | h <;> rw [h] at h2 <;> exact absurd h2 (by decide)
    · intro hw
      rcases ho.known hw with h | ⟨h1, h2⟩
      · exact h
      · rw [store_type] at h1
        rw [store_set_name] at h2
        rw [h2]
        exact hI.known h1

/-- The invariant `Agreement` across `add_server`. -/
theorem agreement_add_server (t : TopologyDescription) (a : String) (hI : Agreement t) :
    Agreement (mongoc_topology_description_add_server t a).1 := by
  cases hs : _mongoc_topology_description_has_server t a with
  | some id => rw [add_server_present t a id hs]; exact hI
  | none =>
    rw [add_server_absent t a hs]
    have hmem : ∀ s, s ∈ mongoc_set_add t.servers
        (mongoc_server_description_init a ((t.max_server_id + 1) % 2 ^ 32)) → rs_kind s →
        s ∈ t.servers := by
      intro s hs hr
      rcases mem_mongoc_set_add.1 hs with h | h
      · rw [h] at hr
        exact absurd hr (not_rs_kind_init _ _)
      · exact h
    exact
      { agree := fun hn s hs hr => hI.agree hn s (hmem s hs hr) hr
        unnamed := fun hn hty s hs hr => hI.unnamed hn hty s (hmem s hs hr) hr
        kinds := hI.kinds
        known := hI.known }

/-- The invariant `Agreement` holds in every reachable state. -/
theorem reachable_agreement (t : TopologyDescription) (h : Reachable t) : Agreement t := by
  induction h with
  | init type cb_add cb_rm t hk h =>
    unfold mongoc_topology_description_init at h
    split at h
    · cases h
      refine ⟨?_, ?_, ?_, ?_⟩
      · intro hn; simp at hn
      · intro _ _ s hs; simp at hs
      · intro hn; simp at hn
      · intro hw
        simp only at hw
        rcases hk with hk | hk <;> rw [hk] at hw <;> exact absurd hw (by decide)
    · cases h
  | add_server t a _ ih => exact agreement_add_server t a ih
  | handle_ismaster t p resp rtt err r _ hr ih =>
    rcases handle_ismaster_cases t p resp rtt err r hr with h2 | ⟨d, hd, h2⟩
    · rw [h2]; exact ih
    · exact agreement_transition t p d _ ih hd h2

/-! ## The set name is written once -/

/-- A handshake that returns leaves the set name of a topology that has one as
it is. -/
theorem handle_ismaster_set_name (t : TopologyDescription) (n : String)
    (hn : t.set_name = some n) (p : SdPtr) (resp : Option IsMasterResponse) (rtt : Int)
    (err : Bool) (r : HandleResult)
    (h : mongoc_topology_description_handle_ismaster t p resp rtt err = some r) :
    r.topology.set_name = some n := by
  rcases handle_ismaster_cases t p resp rtt err r h with
    h2 | ⟨d, hd, ⟨_, h2⟩ | ⟨f, hf, h2⟩⟩
  · rw [h2]; exact hn
  · rw [h2, store_set_name]; exact hn
  · have ho := (transition_outcome (SdPtr.store t p d) d f r.topology hd
      (by rw [store_type]; exact hf) h2).1
    rcases ho.name with h3 | ⟨h3, _, _⟩
    · rw [h3, store_set_name]; exact hn
    · rw [store_set_name, hn] at h3
      exact absurd h3 (by simp)

/-- The function `add_server` leaves the set name as it is. -/
theorem add_server_set_name (t : TopologyDescription) (a : String) :
    (mongoc_topology_description_add_server t a).1.set_name = t.set_name := by
  cases hs : _mongoc_topology_description_has_server t a with
  | some id => rw [add_server_present t a id hs]
  | none => rw [add_server_absent t a hs]

/-! ## C19: set-name agreement -/

/-- The state `topology_after_first_handshake` is reachable. -/
theorem reachable_after_first_handshake : Reachable topology_after_first_handshake := by
  have h0 : Reachable (example_topology TopologyType.UNKNOWN [] none 0) :=
    Reachable.init TopologyType.UNKNOWN false false _ (Or.inl rfl) (by decide)
  have h1 := Reachable.add_server _ "A" h0
  have h2 := Reachable.add_server _ "B" h1
  exact Reachable.handle_ismaster _ (SdPtr.item 1) (some response_secondary_names_B) 5 false
    { ret := true, topology := topology_after_first_handshake,
      sd := some member_A_after_handshake } h2 (by decide)

/-- C19: in every state reachable from `init` (kind UNKNOWN or RS_NO_PRIMARY) by
`add_server` and `handle_ismaster` calls, if the topology has a set name `n`
then every server of the set of kind RS_PRIMARY, RS_SECONDARY, RS_ARBITER or
RS_OTHER has the set name `n`. -/
theorem C19_set_name_agreement (t : TopologyDescription) (h : Reachable t) :
    ∀ n, t.set_name = some n → ∀ s ∈ t.servers,
      (s.type = ServerType.RS_PRIMARY ∨ s.type = ServerType.RS_SECONDARY ∨
        s.type = ServerType.RS_ARBITER ∨ s.type = ServerType.RS_OTHER) →
      s.set_name = some n := by
  have hI := reachable_agreement t h
  intro n hn s hs hr
  rw [← hn]
  exact hI.agree (by rw [hn]; rfl) s hs hr

/-- Witness for C19: the state after `init`, two `add_server` calls and the
handshake of a secondary of "rs0" is reachable, has the set name "rs0", and its
replica set member A has that set name. -/
theorem C19_witness :
    Reachable topology_after_first_handshake ∧
    topology_after_first_handshake.set_name = some "rs0" ∧
    member_A_after_handshake ∈ topology_after_first_handshake.servers ∧
    member_A_after_handshake.type = ServerType.RS_SECONDARY ∧
    member_A_after_handshake.set_name = some "rs0" :=
  ⟨reachable_after_first_handshake, rfl, by decide, rfl,
    C19_set_name_agreement topology_after_first_handshake reachable_after_first_handshake
      "rs0" rfl member_A_after_handshake (by decide) (Or.inr (Or.inl rfl))⟩

/-! ## C30: nothing is selectable before discovery -/

/-- C30: in a topology of kind UNKNOWN, whatever its servers are, for every
operation, read preference, threshold and draw, `suitable_servers` returns the
empty list and `select` returns `NULL`. -/
theorem C30_nothing_selectable_before_discovery (t : TopologyDescription)
    (hk : t.type = TopologyType.UNKNOWN) (optype : OpType) (rp : ReadPrefs) (thr : Int)
    (thr_size : Nat) (rv : Nat) :
    mongoc_topology_description_suitable_servers optype t rp thr_size = some [] ∧
    mongoc_topology_description_select t optype rp thr rv = some none :=
  ⟨suitable_servers_unknown optype t rp thr_size hk, select_unknown t optype rp thr rv hk⟩

/-- Witness for C30: a topology of kind UNKNOWN that holds a primary, a
standalone and a mongos; a write with a threshold of 15 ms selects nothing. -/
theorem C30_witness :
    topology_unknown_mixed.type = TopologyType.UNKNOWN ∧
    mongoc_topology_description_suitable_servers OpType.WRITE topology_unknown_mixed
      example_prefs 15 = some [] ∧
    mongoc_topology_description_select topology_unknown_mixed OpType.WRITE example_prefs 15 7 =
      some none :=
  ⟨rfl, C30_nothing_selectable_before_discovery topology_unknown_mixed rfl OpType.WRITE
    example_prefs 15 15 7⟩

/-! ## C28: NEAREST reads in a replica set -/

/-- The latency window skips the entries the filter set to `NULL`. -/
theorem latency_window_kept (cands : List ServerDescription) (el : ServerDescription → Bool)
    (thr : Nat) :
    latency_window (cands.map (fun s => if el s = true then some s else none)) thr =
      latency_window ((cands.filter el).map some) thr := by
  have hfold : ∀ acc : Int,
      (cands.map (fun s => if el s = true then some s else none)).foldl
        (fun nearest c =>
          match c with
          | some s =>
            if nearest = -1 ∨ nearest > s.round_trip_time then s.round_trip_time else nearest
          | none => nearest) acc =
      ((cands.filter el).map some).foldl
        (fun nearest c =>
          match c with
          | some s =>
            if nearest = -1 ∨ nearest > s.round_trip_time then s.round_trip_time else nearest
          | none => nearest) acc := by
    induction cands with
    | nil => intro acc; rfl
    | cons x xs ih =>
      intro acc
      cases hx : el x
      · simp only [List.map_cons, hx, Bool.false_eq_true, if_false, List.foldl_cons,
          List.filter_cons]
        exact ih acc
      · simp only [List.map_cons, hx, if_true, List.foldl_cons, List.filter_cons]
        exact ih _
  have hwin : ∀ n : Int,
      within_window (cands.map (fun s => if el s = true then some s else none)) n thr =
        within_window ((cands.filter el).map some) n thr := by
    intro n
    clear hfold
    unfold within_window
    induction cands with
    | nil => rfl
    | cons x xs ih =>
      cases hx : el x
      · simp only [List.map_cons, hx, Bool.false_eq_true, if_false, List.filterMap_cons,
          List.filter_cons]
        exact ih
      · simp only [List.map_cons, hx, if_true, List.filterMap_cons, List.filter_cons]
        split
        · exact ih
        · rw [ih]
  unfold latency_window find_nearest
  rw [hfold, hwin]

/-- The candidates of a read in a mode that does not stop at the primary. -/
theorem read_suitable_data_candidates (t : TopologyDescription) (rp : ReadPrefs)
    (h1 : rp.mode ≠ ReadMode.PRIMARY) (h2 : rp.mode ≠ ReadMode.PRIMARY_PREFERRED) :
    (read_suitable_data t rp).candidates = read_candidates t rp.mode := by
  unfold read_suitable_data read_candidates
  rw [(for_each_read_suitable_all t.servers _ (by exact h1) (by exact h2)).1]
  rfl

/-- A NEAREST read in a replica set: nothing when the filter keeps nothing,
else the latency window of the kept candidates. -/
theorem suitable_servers_nearest (t : TopologyDescription) (rp : ReadPrefs) (thr : Nat)
    (hk : t.type = TopologyType.RS_NO_PRIMARY ∨ t.type = TopologyType.RS_WITH_PRIMARY)
    (hm : rp.mode = ReadMode.NEAREST) :
    mongoc_topology_description_suitable_servers OpType.READ t rp thr =
      if kept_candidates (read_candidates t ReadMode.NEAREST) rp = [] then some []
      else some (latency_window
        ((kept_candidates (read_candidates t ReadMode.NEAREST) rp).map some) thr) := by
  have hc := read_suitable_data_candidates t rp (by rw [hm]; decide) (by rw [hm]; decide)
  rw [hm] at hc
  have hcount : (mongoc_server_description_filter_eligible (read_candidates t ReadMode.NEAREST)
      rp).2 = 0 ↔ kept_candidates (read_candidates t ReadMode.NEAREST) rp = [] := by
    simp only [mongoc_server_description_filter_eligible, kept_candidates,
      List.length_eq_zero, List.filter_eq_nil_iff, List.mem_map, forall_exists_index, and_imp]
    constructor
    · intro h s hs he
      have := h _ s hs rfl
      simp [he] at this
    · intro h o s hs ho
      subst ho
      have := h s hs
      simp [this]
  rw [suitable_servers_read_rs t rp thr hk, hc]
  simp only [hm, reduceCtorEq, or_self, if_false, and_true, and_false]
  by_cases hkept : kept_candidates (read_candidates t ReadMode.NEAREST) rp = []
  · rw [if_pos (hcount.2 hkept), if_pos hkept]
  · rw [if_neg (fun h => hkept (hcount.1 h)), if_neg hkept]
    simp only [mongoc_server_description_filter_eligible, kept_candidates]
    rw [latency_window_kept]

/-- C28: a NEAREST read in a replica set whose round-trip times are not
negative. The candidates are the servers of kind RS_PRIMARY, POSSIBLE_PRIMARY
or RS_SECONDARY. When the filter keeps none of them the result is empty;
otherwise, with `m` the smallest round-trip time among the kept candidates, the
result is exactly the kept candidates with a round-trip time of at most
`m + thr`, in set order, and every kept candidate at `m` is among them. -/
theorem C28_nearest_reads (t : TopologyDescription)
    (hk : t.type = TopologyType.RS_NO_PRIMARY ∨ t.type = TopologyType.RS_WITH_PRIMARY)
    (hrtt : ∀ s ∈ t.servers, 0 ≤ s.round_trip_time ∧ s.round_trip_time < 2 ^ 63)
    (rp : ReadPrefs) (hm : rp.mode = ReadMode.NEAREST) (thr : Nat) :
    (∀ s, s ∈ read_candidates t ReadMode.NEAREST ↔
      s ∈ t.servers ∧ (s.type = ServerType.RS_PRIMARY ∨ s.type = ServerType.POSSIBLE_PRIMARY ∨
        s.type = ServerType.RS_SECONDARY)) ∧
    (kept_candidates (read_candidates t ReadMode.NEAREST) rp = [] →
      mongoc_topology_description_suitable_servers OpType.READ t rp thr = some []) ∧
    (∀ m : Int,
      (∃ s ∈ kept_candidates (read_candidates t ReadMode.NEAREST) rp, s.round_trip_time = m) →
      (∀ s ∈ kept_candidates (read_candidates t ReadMode.NEAREST) rp, m ≤ s.round_trip_time) →
      m + thr < 2 ^ 64 →
      mongoc_topology_description_suitable_servers OpType.READ t rp thr =
        some ((kept_candidates (read_candidates t ReadMode.NEAREST) rp).filter
          (fun s => decide (s.round_trip_time ≤ m + thr))) ∧
      ∀ s ∈ kept_candidates (read_candidates t ReadMode.NEAREST) rp, s.round_trip_time = m →
        s ∈ (kept_candidates (read_candidates t ReadMode.NEAREST) rp).filter
          (fun s => decide (s.round_trip_time ≤ m + thr))) := by
  refine ⟨?_, ?_, ?_⟩
  · intro s
    unfold read_candidates
    rw [List.mem_filter]
    constructor
    · rintro ⟨hs, hc⟩
      exact ⟨hs, (is_candidate_rs_kinds _ _ _ hk hc).2.2⟩
    · rintro ⟨hs, hc⟩
      refine ⟨hs, ?_⟩
      rcases hk with hk | hk <;> rcases hc with hc | hc | hc <;>
        simp [_mongoc_topology_description_server_is_candidate, hk, hc]
  · intro hnil
    rw [suitable_servers_nearest t rp thr hk hm, if_pos hnil]
  · rintro m ⟨s0, hs0, hs0m⟩ hmin hmt
    have hsub : ∀ s ∈ kept_candidates (read_candidates t ReadMode.NEAREST) rp, s ∈ t.servers :=
      fun s hs => List.mem_of_mem_filter (List.mem_of_mem_filter hs)
    have hcl : ∀ s ∈ kept_candidates (read_candidates t ReadMode.NEAREST) rp,
        0 ≤ s.round_trip_time ∧ s.round_trip_time < 2 ^ 63 := fun s hs => hrtt s (hsub s hs)
    have hnear : find_nearest
        ((kept_candidates (read_candidates t ReadMode.NEAREST) rp).map some) = m :=
      find_nearest_eq_min _ m (fun s hs => (hcl s hs).1) ⟨s0, hs0, hs0m⟩ hmin
    have hm0 : 0 ≤ m := by rw [← hs0m]; exact (hcl s0 hs0).1
    have hne : kept_candidates (read_candidates t ReadMode.NEAREST) rp ≠ [] :=
      List.ne_nil_of_mem hs0
    refine ⟨?_, ?_⟩
    · rw [suitable_servers_nearest t rp thr hk hm, if_neg hne]
      unfold latency_window
      rw [hnear, within_window_eq_filter _ m thr hcl hm0 hmt]
    · intro s hs hsm
      rw [List.mem_filter]
      refine ⟨hs, ?_⟩
      rw [decide_eq_true_eq, hsm]
      omega

/-- Witness for C28: in the set "rs0" with P at 10 ms, S1 at 20 ms, S2 at 50 ms
and an arbiter at 1 ms, a NEAREST read with a threshold of 15 ms whose filter
keeps every candidate returns P and S1. -/
theorem C28_witness :
    mongoc_topology_description_suitable_servers OpType.READ topology_rs0_latencies
        (prefs_with_mode ReadMode.NEAREST) 15 =
      some ((kept_candidates (read_candidates topology_rs0_latencies ReadMode.NEAREST)
        (prefs_with_mode ReadMode.NEAREST)).filter
          (fun s => decide (s.round_trip_time ≤ (10 : Int) + (15 : Nat)))) ∧
    ((kept_candidates (read_candidates topology_rs0_latencies ReadMode.NEAREST)
        (prefs_with_mode ReadMode.NEAREST)).filter
          (fun s => decide (s.round_trip_time ≤ (10 : Int) + (15 : Nat)))).map
      (fun s => s.connection_address) = ["P", "S1"] :=
  ⟨((C28_nearest_reads topology_rs0_latencies (by decide) (by decide)
      (prefs_with_mode ReadMode.NEAREST) rfl 15).2.2 10 (by decide) (by decide)
      (by decide)).1,
    by decide⟩

/-! ## C22: `invalidate_server` -/

/-- The description a handshake without response leaves has kind UNKNOWN. -/
theorem handshake_error_type (s : ServerDescription) (resp : Option IsMasterResponse)
    (rtt : Int) :
    (mongoc_server_description_handle_ismaster s resp rtt true).type = ServerType.UNKNOWN := by
  cases resp <;> rfl

/-- The item stored under `id` after it was overwritten. -/
theorem mongoc_set_get_write_item {l : List ServerDescription} {id : Nat}
    {s : ServerDescription} (h : mongoc_set_get l id = some s) (d : ServerDescription)
    (hd : d.id = id) : mongoc_set_get (write_item l id d) id = some d := by
  obtain ⟨l1, l2, _, h1, _, h4⟩ := write_item_split h d
  rw [h4]
  unfold mongoc_set_get
  rw [List.find?_append]
  have : l1.find? (fun s => s.id == id) = none := by
    rw [List.find?_eq_none]
    intro x hx
    simpa using h1 x hx
  rw [this]
  simp [hd]

/-- The function `invalidate_server` for an id of the set: the description is
downgraded in the set, and in a topology of kind RS_WITH_PRIMARY
`check_if_has_primary` runs. -/
theorem invalidate_server_eq (t : TopologyDescription) (id : Nat) (d0 : ServerDescription)
    (hget : mongoc_set_get t.servers id = some d0) :
    mongoc_topology_description_invalidate_server t id =
      some (if t.type = TopologyType.RS_WITH_PRIMARY then
        _mongoc_topology_description_check_if_has_primary
          (SdPtr.store t (SdPtr.item id)
            (mongoc_server_description_handle_ismaster d0 none 0 true))
          (mongoc_server_description_handle_ismaster d0 none 0 true)
      else SdPtr.store t (SdPtr.item id)
        (mongoc_server_description_handle_ismaster d0 none 0 true)) := by
  unfold mongoc_topology_description_invalidate_server
  rw [handle_ismaster_item t id d0 none 0 true hget, handshake_error_type]
  cases htt : t.type <;> simp [gSDAMTransitionTable]

/-- C22 (counterexample): in the set "rs0" of kind RS_WITH_PRIMARY with the
standalone S and the primary P, `invalidate_server` of P leaves no server of
kind RS_PRIMARY, and the kind is still RS_WITH_PRIMARY. -/
theorem C22_counterexample_standalone_keeps_the_kind :
    topology_standalone_and_primary.type = TopologyType.RS_WITH_PRIMARY ∧
    ∃ t2, mongoc_topology_description_invalidate_server topology_standalone_and_primary 2 =
        some t2 ∧
      (∀ s ∈ t2.servers, s.type ≠ ServerType.RS_PRIMARY) ∧
      t2.type = TopologyType.RS_WITH_PRIMARY :=
  ⟨rfl, _, rfl, by decide, rfl⟩

/-- C22 (amended): `invalidate_server` for every topology and id. Without a
server under the id the topology is unchanged. Otherwise the call returns, the
item under the id is overwritten with its downgraded contents, of kind UNKNOWN
and with the same id and address; the ids and addresses of the set are those
before, servers with another id are still there with their contents, the set
name and the counter are unchanged; the kind is unchanged unless it was
RS_WITH_PRIMARY, where it stays RS_WITH_PRIMARY if a server of kind RS_PRIMARY
or STANDALONE remains and becomes RS_NO_PRIMARY otherwise. -/
theorem C22_invalidate_server_downgrades (t : TopologyDescription) (id : Nat) :
    (mongoc_set_get t.servers id = none →
      mongoc_topology_description_invalidate_server t id = some t) ∧
    (∀ d0, mongoc_set_get t.servers id = some d0 →
      ∃ t2, mongoc_topology_description_invalidate_server t id = some t2 ∧
        t2.servers = write_item t.servers id
          (mongoc_server_description_handle_ismaster d0 none 0 true) ∧
        mongoc_set_get t2.servers id =
          some (mongoc_server_description_handle_ismaster d0 none 0 true) ∧
        (mongoc_server_description_handle_ismaster d0 none 0 true).type =
          ServerType.UNKNOWN ∧
        (mongoc_server_description_handle_ismaster d0 none 0 true).id = d0.id ∧
        (mongoc_server_description_handle_ismaster d0 none 0 true).connection_address =
          d0.connection_address ∧
        t2.servers.map (fun s => s.id) = t.servers.map (fun s => s.id) ∧
        t2.servers.map (fun s => s.connection_address) =
          t.servers.map (fun s => s.connection_address) ∧
        (∀ s ∈ t.servers, s.id ≠ id → s ∈ t2.servers) ∧
        (∀ s ∈ t2.servers,
          s = mongoc_server_description_handle_ismaster d0 none 0 true ∨ s ∈ t.servers) ∧
        t2.set_name = t.set_name ∧
        t2.max_server_id = t.max_server_id ∧
        (t.type ≠ TopologyType.RS_WITH_PRIMARY → t2.type = t.type) ∧
        (t.type = TopologyType.RS_WITH_PRIMARY →
          (∃ s ∈ t2.servers,
            s.type = ServerType.RS_PRIMARY ∨ s.type = ServerType.STANDALONE) →
          t2.type = TopologyType.RS_WITH_PRIMARY) ∧
        (t.type = TopologyType.RS_WITH_PRIMARY →
          (∀ s ∈ t2.servers,
            s.type ≠ ServerType.RS_PRIMARY ∧ s.type ≠ ServerType.STANDALONE) →
          t2.type = TopologyType.RS_NO_PRIMARY)) := by
  refine ⟨?_, ?_⟩
  · intro hnone
    simp only [mongoc_topology_description_invalidate_server,
      mongoc_topology_description_handle_ismaster, SdPtr.deref, hnone, Option.map_some']
  · intro d0 hget
    have hid : (mongoc_server_description_handle_ismaster d0 none 0 true).id = id := by
      rw [handshake_id]; exact (mongoc_set_get_some hget).2
    have hservers : ∀ t2 : TopologyDescription,
        t2.servers = write_item t.servers id
          (mongoc_server_description_handle_ismaster d0 none 0 true) →
        mongoc_set_get t2.servers id =
          some (mongoc_server_description_handle_ismaster d0 none 0 true) ∧
        (mongoc_server_description_handle_ismaster d0 none 0 true).type =
          ServerType.UNKNOWN ∧
        (mongoc_server_description_handle_ismaster d0 none 0 true).id = d0.id ∧
        (mongoc_server_description_handle_ismaster d0 none 0 true).connection_address =
          d0.connection_address ∧
        t2.servers.map (fun s => s.id) = t.servers.map (fun s => s.id) ∧
        t2.servers.map (fun s => s.connection_address) =
          t.servers.map (fun s => s.connection_address) ∧
        (∀ s ∈ t.servers, s.id ≠ id → s ∈ t2.servers) ∧
        (∀ s ∈ t2.servers,
          s = mongoc_server_description_handle_ismaster d0 none 0 true ∨ s ∈ t.servers) := by
      intro t2 h2
      rw [h2]
      refine ⟨mongoc_set_get_write_item hget _ hid, handshake_error_type _ _ _,
        handshake_id _ _ _ _, handshake_address _ _ _ _, write_item_map_id hget _ hid,
        write_item_map_address hget _ (handshake_address _ _ _ _),
        fun s hs hne => mem_write_item_of_ne hget _ hs hne, ?_⟩
      intro s hs
      exact @mem_store t (SdPtr.item id) _ s hs
    rw [invalidate_server_eq t id d0 hget]
    by_cases hw : t.type = TopologyType.RS_WITH_PRIMARY
    · rw [if_pos hw]
      refine ⟨_, rfl, check_if_has_primary_servers _ _, ?_⟩
      obtain ⟨g1, g2, g3, g4, g5, g6, g7, g8⟩ :=
        hservers (_mongoc_topology_description_check_if_has_primary
          (SdPtr.store t (SdPtr.item id)
            (mongoc_server_description_handle_ismaster d0 none 0 true))
          (mongoc_server_description_handle_ismaster d0 none 0 true))
          (check_if_has_primary_servers _ _)
      refine ⟨g1, g2, g3, g4, g5, g6, g7, g8, ?_, ?_, fun h => absurd hw h, ?_, ?_⟩
      · rw [check_if_has_primary_set_name]; rfl
      · rw [check_if_has_primary_max_server_id]; rfl
      · intro _ hex
        rw [check_if_has_primary_type, if_pos]
        rw [check_if_has_primary_servers] at hex
        exact (has_primary_isSome_iff _).2 hex
      · intro _ hall
        rw [check_if_has_primary_type, if_neg]
        intro hp
        obtain ⟨s, hs, hs2⟩ := (has_primary_isSome_iff _).1 hp
        rw [check_if_has_primary_servers] at hall
        rcases hs2 with h | h
        · exact (hall s hs).1 h
        · exact (hall s hs).2 h
    · rw [if_neg hw]
      refine ⟨_, rfl, rfl, ?_⟩
      obtain ⟨g1, g2, g3, g4, g5, g6, g7, g8⟩ :=
        hservers (SdPtr.store t (SdPtr.item id) _) rfl
      exact ⟨g1, g2, g3, g4, g5, g6, g7, g8, rfl, rfl, fun _ => rfl,
        fun h => absurd h hw, fun h => absurd h hw⟩

/-! ## C26: a standalone in a topology of kind UNKNOWN -/

/-- Overwriting an item keeps the number of items. -/
theorem write_item_length (l : List ServerDescription) (id : Nat) (d : ServerDescription) :
    (write_item l id d).length = l.length := by
  induction l with
  | nil => rfl
  | cons x xs ih =>
    simp only [write_item]
    split
    · rfl
    · simp [ih]

/-- C26 (counterexample): in a topology of kind UNKNOWN the seeds A and B are
stored under one id; A answers as a standalone. The set held more than one
server, A is removed, and B, another server, is removed with it. -/
theorem C26_counterexample_shared_id :
    topology_unknown_shared_id.type = TopologyType.UNKNOWN ∧
    SdPtr.deref topology_unknown_shared_id (SdPtr.item 1) =
      some (example_server 1 "A" ServerType.UNKNOWN none) ∧
    classify response_standalone = ServerType.STANDALONE ∧
    example_server 1 "B" ServerType.UNKNOWN none ∈ topology_unknown_shared_id.servers ∧
    (mongoc_topology_description_handle_ismaster topology_unknown_shared_id (SdPtr.item 1)
        (some response_standalone) 5 false).map
      (fun r => (r.topology.servers, r.topology.type)) = some ([], TopologyType.UNKNOWN) :=
  ⟨rfl, by decide, by decide, by decide, by decide⟩

/-- C26 (amended): in a topology of kind UNKNOWN whose servers have pairwise
distinct ids the server stored under `id` answers as a standalone. The
handshake returns `true`, leaves the set name and the counter, and: if the set
held more than one server, the set is the one before with the observed server
erased (every other server is still there with its contents, nothing is
added), and the kind is still UNKNOWN; if the set held one server, it now
holds exactly the updated description and the kind is SINGLE. So the kind
becomes SINGLE only when the set held the observed server alone. -/
theorem C26_standalone_in_unknown (t : TopologyDescription)
    (hk : t.type = TopologyType.UNKNOWN) (hu : ids_unique t) (id : Nat)
    (d0 : ServerDescription)
    (hget : mongoc_set_get t.servers id = some d0) (resp : Option IsMasterResponse)
    (rtt : Int) (err : Bool)
    (hc : (mongoc_server_description_handle_ismaster d0 resp rtt err).type =
      ServerType.STANDALONE) :
    ∃ r, mongoc_topology_description_handle_ismaster t (SdPtr.item id) resp rtt err = some r ∧
      r.ret = true ∧
      r.topology.set_name = t.set_name ∧
      r.topology.max_server_id = t.max_server_id ∧
      (1 < t.servers.length →
        r.topology.servers = t.servers.erase d0 ∧
        r.topology.servers = mongoc_set_rm t.servers id ∧
        (∀ s, s ∈ r.topology.servers ↔ s ∈ t.servers ∧ s.id ≠ id) ∧
        r.topology.type = TopologyType.UNKNOWN) ∧
      (t.servers.length = 1 →
        t.servers = [d0] ∧
        r.topology.servers = [mongoc_server_description_handle_ismaster d0 resp rtt err] ∧
        r.topology.type = TopologyType.SINGLE) ∧
      (r.topology.type = TopologyType.SINGLE → t.servers = [d0]) := by
  have hid : (mongoc_server_description_handle_ismaster d0 resp rtt err).id = id := by
    rw [handshake_id]; exact (mongoc_set_get_some hget).2
  have hmem : mongoc_server_description_handle_ismaster d0 resp rtt err ∈
      (SdPtr.store t (SdPtr.item id)
        (mongoc_server_description_handle_ismaster d0 resp rtt err)).servers :=
    mem_write_item_self hget _
  have hone : t.servers.length = 1 → t.servers = [d0] := by
    intro h1
    have hd0 := (mongoc_set_get_some hget).1
    match hl : t.servers, h1, hd0 with
    | [x], _, hd0 => simp at hd0; rw [hd0]
  rw [handle_ismaster_item t id d0 resp rtt err hget, hc, hk]
  simp only [gSDAMTransitionTable, Option.map_some',
    _mongoc_topology_description_update_unknown_with_standalone,
    has_server_isSome_of_mem hmem, Bool.false_eq_true, if_false]
  have hlen : (SdPtr.store t (SdPtr.item id)
      (mongoc_server_description_handle_ismaster d0 resp rtt err)).servers.length =
      t.servers.length := write_item_length _ _ _
  rw [hlen]
  by_cases hgt : t.servers.length > 1
  · rw [if_pos hgt]
    have hs : (_mongoc_topology_description_remove_server
        (SdPtr.store t (SdPtr.item id)
          (mongoc_server_description_handle_ismaster d0 resp rtt err))
        (mongoc_server_description_handle_ismaster d0 resp rtt err)).servers =
        mongoc_set_rm t.servers id := by
      show mongoc_set_rm (write_item t.servers id _) _ = _
      rw [hid]
      exact mongoc_set_rm_write_item hget _ hid
    refine ⟨_, rfl, rfl, rfl, rfl, ?_, ?_, ?_⟩
    · intro _
      refine ⟨?_, hs, ?_, hk⟩
      · rw [hs, ← (mongoc_set_get_some hget).2]
        exact mongoc_set_rm_eq_erase hu (mongoc_set_get_some hget).1
      · intro s
        rw [hs]
        exact mem_mongoc_set_rm
    · intro h1
      omega
    · intro h
      have : t.type = TopologyType.SINGLE := h
      rw [hk] at this
      exact absurd this (by decide)
  · rw [if_neg hgt]
    have h1 : t.servers.length = 1 := by
      have := List.length_pos_of_mem (mongoc_set_get_some hget).1
      omega
    have ht := hone h1
    refine ⟨_, rfl, rfl, rfl, rfl, fun h => absurd h hgt, fun _ => ⟨ht, ?_, rfl⟩, fun _ => ht⟩
    show write_item t.servers id _ = _
    rw [ht]
    have : (d0.id == id) = true := by simpa using (mongoc_set_get_some hget).2
    simp [write_item, this]

/-- Witness for C26: with the two seeds A and B in a topology of kind UNKNOWN,
A answers as a standalone; A is removed, B stays, the kind is still UNKNOWN. -/
theorem C26_witness :
    ∃ r, mongoc_topology_description_handle_ismaster topology_two_seeds (SdPtr.item 1)
        (some response_standalone) 5 false = some r ∧
      r.ret = true ∧
      r.topology.set_name = topology_two_seeds.set_name ∧
      r.topology.max_server_id = topology_two_seeds.max_server_id ∧
      (1 < topology_two_seeds.servers.length →
        r.topology.servers =
          topology_two_seeds.servers.erase (example_server 1 "A" ServerType.UNKNOWN none) ∧
        r.topology.servers = mongoc_set_rm topology_two_seeds.servers 1 ∧
        (∀ s, s ∈ r.topology.servers ↔ s ∈ topology_two_seeds.servers ∧ s.id ≠ 1) ∧
        r.topology.type = TopologyType.UNKNOWN) ∧
      (topology_two_seeds.servers.length = 1 →
        topology_two_seeds.servers = [example_server 1 "A" ServerType.UNKNOWN none] ∧
        r.topology.servers =
          [mongoc_server_description_handle_ismaster
            (example_server 1 "A" ServerType.UNKNOWN none) (some response_standalone) 5
            false] ∧
        r.topology.type = TopologyType.SINGLE) ∧
      (r.topology.type = TopologyType.SINGLE →
        topology_two_seeds.servers = [example_server 1 "A" ServerType.UNKNOWN none]) :=
  C26_standalone_in_unknown topology_two_seeds (by decide) (by decide) 1
    (example_server 1 "A" ServerType.UNKNOWN none) (by decide) (some response_standalone) 5
    false (by decide)

/-! ## C29: the kind of the topology across a handshake -/

/-- The kind after `update_rs_from_primary`. -/
theorem update_rs_from_primary_type (t : TopologyDescription) (d : ServerDescription)
    (t2 : TopologyDescription)
    (h : _mongoc_topology_description_update_rs_from_primary t d = some t2) :
    t2.type = t.type ∨ t2.type = TopologyType.RS_NO_PRIMARY ∨
      t2.type = TopologyType.RS_WITH_PRIMARY := by
  have hcheck : ∀ t0 : TopologyDescription,
      (_mongoc_topology_description_check_if_has_primary t0 d).type =
        TopologyType.RS_NO_PRIMARY ∨
      (_mongoc_topology_description_check_if_has_primary t0 d).type =
        TopologyType.RS_WITH_PRIMARY := by
    intro t0
    rw [check_if_has_primary_type]
    split
    · exact Or.inr rfl
    · exact Or.inl rfl
  unfold _mongoc_topology_description_update_rs_from_primary at h
  split at h
  · cases h; exact Or.inl rfl
  · split at h
    · cases h
      obtain ⟨_, _, _, hacc, _, _⟩ := accepted_spec { t with set_name := d.set_name } d
      exact Or.inr (Or.inr hacc)
    · split at h
      · cases h
      · cases h; exact Or.inr (hcheck _)
      · cases h
        obtain ⟨_, _, _, hacc, _, _⟩ := accepted_spec t d
        exact Or.inr (Or.inr hacc)

/-- The transition `update_rs_without_primary` keeps the kind. -/
theorem update_rs_without_primary_type (t : TopologyDescription) (d : ServerDescription)
    (t2 : TopologyDescription)
    (h : _mongoc_topology_description_update_rs_without_primary t d = some t2) :
    t2.type = t.type := by
  unfold _mongoc_topology_description_update_rs_without_primary at h
  split at h
  · cases h; rfl
  · split at h
    · split at h
      · cases h
        exact (without_primary_accepted_facts { t with set_name := d.set_name } d).2.1
      · split at h
        · cases h
        · cases h; rfl
        · cases h; exact (without_primary_accepted_facts t d).2.1
    · cases h; exact (without_primary_accepted_facts t d).2.1

/-- The kind after `update_rs_with_primary_from_member`. -/
theorem update_rs_with_primary_from_member_type (t : TopologyDescription)
    (d : ServerDescription) (t2 : TopologyDescription)
    (h : _mongoc_topology_description_update_rs_with_primary_from_member t d = some t2) :
    t2.type = t.type ∨ t2.type = TopologyType.RS_NO_PRIMARY := by
  have h := update_rs_with_primary_from_member_defined t d t2 h
  split at h
  · cases h; exact Or.inl rfl
  · cases hcmp : strcmp_ne t.set_name d.set_name with
    | none => simp only [hcmp] at h; cases h
    | some differ =>
      simp only [hcmp] at h
      have hfin : ∀ t0 : TopologyDescription, t0.type = t.type →
          (if (_mongoc_topology_description_has_primary t0).isNone ∧
              d.current_primary.isSome then
            some (_mongoc_topology_description_label_unknown_member
              (_mongoc_topology_description_set_state t0 TopologyType.RS_NO_PRIMARY)
              d.current_primary ServerType.POSSIBLE_PRIMARY)
          else some t0) = some t2 →
          t2.type = t.type ∨ t2.type = TopologyType.RS_NO_PRIMARY := by
        intro t0 h0 h
        split at h
        · cases h
          rw [label_unknown_member_type]
          exact Or.inr rfl
        · cases h; exact Or.inl h0
      cases hdf : differ with
      | true =>
        rw [hdf] at h
        simp only [if_true] at h
        exact hfin (_mongoc_topology_description_remove_server t d) rfl h
      | false =>
        rw [hdf] at h
        simp only [Bool.false_eq_true, if_false] at h
        exact hfin t rfl h

/-- Every transition of the table respects `kind_step`. -/
theorem transition_kind_step (t : TopologyDescription) (d : ServerDescription)
    (f : transition_t) (t2 : TopologyDescription)
    (hf : gSDAMTransitionTable d.type t.type = some f) (h : f t d = some t2) :
    kind_step t.type t2.type := by
  have hcheck : ∀ t0 : TopologyDescription,
      (_mongoc_topology_description_check_if_has_primary t0 d).type =
        TopologyType.RS_NO_PRIMARY ∨
      (_mongoc_topology_description_check_if_has_primary t0 d).type =
        TopologyType.RS_WITH_PRIMARY := by
    intro t0
    rw [check_if_has_primary_type]
    split
    · exact Or.inr rfl
    · exact Or.inl rfl
  cases hdt : d.type <;> cases htt : t.type <;>
    simp only [hdt, htt, gSDAMTransitionTable, Option.some.injEq, reduceCtorEq] at hf <;>
    subst hf <;>
    first
      | exact trivial
      | (have h1 := update_rs_from_primary_type t d t2 h
         rw [htt] at h1
         rcases h1 with h1 | h1 | h1
         · exact Or.inl h1
         · exact Or.inl h1
         · exact Or.inr h1)
      | (have h1 := update_rs_from_primary_type t d t2 h
         rw [htt] at h1
         rcases h1 with h1 | h1 | h1
         · exact Or.inr h1
         · exact Or.inl h1
         · exact Or.inr h1)
      | (have h1 := update_rs_without_primary_type t d t2 h
         rw [htt] at h1
         exact Or.inl h1)
      | (have h1 := update_rs_with_primary_from_member_type t d t2 h
         rw [htt] at h1
         rcases h1 with h1 | h1
         · exact Or.inr h1
         · exact Or.inl h1)
      | (simp only [Option.some.injEq] at h; subst h
         first
           | exact hcheck _
           | exact htt
           | (show (_mongoc_topology_description_remove_server t d).type = _ ∨ _
              exact Or.inl htt))

/-- A handshake that returns respects `kind_step`. -/
theorem handle_ismaster_kind_step (t : TopologyDescription) (p : SdPtr)
    (resp : Option IsMasterResponse) (rtt : Int) (err : Bool) (r : HandleResult)
    (h : mongoc_topology_description_handle_ismaster t p resp rtt err = some r) :
    kind_step t.type r.topology.type := by
  have hrefl : kind_step t.type t.type := by
    cases htt : t.type <;> simp [kind_step]
  rcases handle_ismaster_cases t p resp rtt err r h with
    h2 | ⟨d, _, ⟨_, h2⟩ | ⟨f, hf, h2⟩⟩
  · rw [h2]; exact hrefl
  · rw [h2, store_type]; exact hrefl
  · have := transition_kind_step (SdPtr.store t p d) d f r.topology
      (by rw [store_type]; exact hf) h2
    rw [store_type] at this
    exact this

/-- C29: for every topology, every member pointer, response, round-trip time
and error, and every result `r` of the handshake: a kind SINGLE or SHARDED is
unchanged; a kind RS_NO_PRIMARY or RS_WITH_PRIMARY stays one of these two; the
kind UNKNOWN changes to SINGLE, SHARDED, RS_NO_PRIMARY or RS_WITH_PRIMARY only;
so a kind other than UNKNOWN never becomes UNKNOWN. -/
theorem C29_kind_never_regresses (t : TopologyDescription)
    (p : SdPtr) (resp : Option IsMasterResponse) (rtt : Int) (err : Bool) (r : HandleResult)
    (hr : mongoc_topology_description_handle_ismaster t p resp rtt err = some r) :
    (t.type = TopologyType.SINGLE → r.topology.type = TopologyType.SINGLE) ∧
    (t.type = TopologyType.SHARDED → r.topology.type = TopologyType.SHARDED) ∧
    (t.type = TopologyType.RS_NO_PRIMARY ∨ t.type = TopologyType.RS_WITH_PRIMARY →
      r.topology.type = TopologyType.RS_NO_PRIMARY ∨
        r.topology.type = TopologyType.RS_WITH_PRIMARY) ∧
    (t.type = TopologyType.UNKNOWN →
      r.topology.type = TopologyType.UNKNOWN ∨ r.topology.type = TopologyType.SINGLE ∨
        r.topology.type = TopologyType.SHARDED ∨
        r.topology.type = TopologyType.RS_NO_PRIMARY ∨
        r.topology.type = TopologyType.RS_WITH_PRIMARY) ∧
    (t.type ≠ TopologyType.UNKNOWN → r.topology.type ≠ TopologyType.UNKNOWN) := by
  have h2 := handle_ismaster_kind_step t p resp rtt err r hr
  refine ⟨?_, ?_, ?_, ?_, ?_⟩
  · intro h; rw [h] at h2; exact h2
  · intro h; rw [h] at h2; exact h2
  · intro h
    rcases h with h | h <;> rw [h] at h2 <;> exact h2
  · intro _
    cases r.topology.type <;> simp
  · intro h hu
    cases htt : t.type <;> rw [htt] at h2 <;> simp only [kind_step] at h2 <;>
      first
        | exact h htt
        | (rw [hu] at h2; simp at h2)

/-- Witness for C29: in the state after the discovery of the secondary A, of
kind RS_NO_PRIMARY, B answers as the primary of "rs0"; the handshake returns
the state of kind RS_WITH_PRIMARY, a replica set kind and not UNKNOWN. -/
theorem C29_witness :
    mongoc_topology_description_handle_ismaster topology_after_first_handshake
        (SdPtr.item 2) (some response_primary_rs0_AB) 7 false =
      some { ret := true, topology := topology_after_second_handshake,
             sd := some member_B_after_handshake } ∧
    topology_after_first_handshake.type = TopologyType.RS_NO_PRIMARY ∧
    (topology_after_second_handshake.type = TopologyType.RS_NO_PRIMARY ∨
      topology_after_second_handshake.type = TopologyType.RS_WITH_PRIMARY) ∧
    topology_after_second_handshake.type ≠ TopologyType.UNKNOWN :=
  ⟨by decide, rfl,
    (C29_kind_never_regresses topology_after_first_handshake (SdPtr.item 2)
      (some response_primary_rs0_AB) 7 false
      { ret := true, topology := topology_after_second_handshake,
        sd := some member_B_after_handshake } (by decide)).2.2.1 (Or.inl rfl),
    (C29_kind_never_regresses topology_after_first_handshake (SdPtr.item 2)
      (some response_primary_rs0_AB) 7 false
      { ret := true, topology := topology_after_second_handshake,
        sd := some member_B_after_handshake } (by decide)).2.2.2.2 (by decide)⟩

/-! ## C27: the set names at the comparisons -/

/-- The invariant `Agreement` holds in every state reached from `init` with
any kind. -/
theorem reached_agreement (t : TopologyDescription) (h : Reached t) : Agreement t := by
  induction h with
  | init type cb_add cb_rm t h =>
    unfold mongoc_topology_description_init at h
    split at h
    · rename_i hk
      cases h
      refine ⟨?_, ?_, ?_, ?_⟩
      · intro hn; simp at hn
      · intro _ _ s hs; simp at hs
      · intro hn; simp at hn
      · intro hw
        simp only at hw
        rcases hk with hk | hk | hk <;> rw [hk] at hw <;> exact absurd hw (by decide)
    · cases h
  | add_server t a _ ih => exact agreement_add_server t a ih
  | handle_ismaster t p resp rtt err r _ hr ih =>
    rcases handle_ismaster_cases t p resp rtt err r hr with h2 | ⟨d, hd, h2⟩
    · rw [h2]; exact ih
    · exact agreement_transition t p d _ ih hd h2

/-- A state reachable from kind UNKNOWN or RS_NO_PRIMARY is a reached state. -/
theorem reached_of_reachable (t : TopologyDescription) (h : Reachable t) : Reached t := by
  induction h with
  | init type cb_add cb_rm t _ h => exact Reached.init type cb_add cb_rm t h
  | add_server t a _ ih => exact Reached.add_server t a ih
  | handle_ismaster t p resp rtt err r _ hr ih =>
    exact Reached.handle_ismaster t p resp rtt err r ih hr

/-- The state `topology_after_second_handshake` is reached. -/
theorem reached_after_second_handshake : Reached topology_after_second_handshake :=
  Reached.handle_ismaster topology_after_first_handshake (SdPtr.item 2)
    (some response_primary_rs0_AB) 7 false
    { ret := true, topology := topology_after_second_handshake,
      sd := some member_B_after_handshake }
    (reached_of_reachable _ reachable_after_first_handshake) (by decide)

/-- C27: in every state reached from `init` by `add_server` and
`handle_ismaster` calls, a topology of kind RS_WITH_PRIMARY has a set name. For
every handshake on such a state: a description classified RS_PRIMARY,
RS_SECONDARY, RS_ARBITER or RS_OTHER has a set name; when the table runs
`update_rs_with_primary_from_member` (member rows, kind RS_WITH_PRIMARY) both
the set name of the topology and that of the description are there; when
`update_rs_from_primary` does not adopt the name and reaches its comparison,
both are there. -/
theorem C27_set_names_present (t : TopologyDescription) (h : Reached t) :
    (t.type = TopologyType.RS_WITH_PRIMARY → t.set_name.isSome = true) ∧
    (∀ (p : SdPtr) (resp : Option IsMasterResponse) (rtt : Int) (err : Bool)
        (d0 : ServerDescription), p.deref t = some d0 →
      (rs_kind (mongoc_server_description_handle_ismaster d0 resp rtt err) →
        (mongoc_server_description_handle_ismaster d0 resp rtt err).set_name.isSome = true) ∧
      (((mongoc_server_description_handle_ismaster d0 resp rtt err).type =
            ServerType.RS_SECONDARY ∨
          (mongoc_server_description_handle_ismaster d0 resp rtt err).type =
            ServerType.RS_ARBITER ∨
          (mongoc_server_description_handle_ismaster d0 resp rtt err).type =
            ServerType.RS_OTHER) →
        t.type = TopologyType.RS_WITH_PRIMARY →
        (SdPtr.store t p
          (mongoc_server_description_handle_ismaster d0 resp rtt err)).set_name.isSome =
            true ∧
        (mongoc_server_description_handle_ismaster d0 resp rtt err).set_name.isSome = true) ∧
      ((mongoc_server_description_handle_ismaster d0 resp rtt err).type =
          ServerType.RS_PRIMARY →
        ¬((SdPtr.store t p
            (mongoc_server_description_handle_ismaster d0 resp rtt err)).set_name.isNone =
              true ∧
          (mongoc_server_description_handle_ismaster d0 resp rtt err).set_name.isSome =
            true) →
        (SdPtr.store t p
          (mongoc_server_description_handle_ismaster d0 resp rtt err)).set_name.isSome =
            true ∧
        (mongoc_server_description_handle_ismaster d0 resp rtt err).set_name.isSome =
          true)) := by
  have hI := reached_agreement t h
  refine ⟨hI.known, ?_⟩
  · intro p resp rtt err d0 _
    have hnamed := handshake_rs_member_named d0 resp rtt err
    refine ⟨fun hr => hnamed hr, ?_, ?_⟩
    · intro hty hw
      refine ⟨by rw [store_set_name]; exact hI.known hw, hnamed ?_⟩
      rcases hty with h1 | h1 | h1
      · exact Or.inr (Or.inl h1)
      · exact Or.inr (Or.inr (Or.inl h1))
      · exact Or.inr (Or.inr (Or.inr h1))
    · intro hty hnot
      have hd := hnamed (Or.inl hty)
      refine ⟨?_, hd⟩
      cases hs : (SdPtr.store t p
          (mongoc_server_description_handle_ismaster d0 resp rtt err)).set_name with
      | some _ => rfl
      | none =>
        rw [hs] at hnot
        exact absurd ⟨rfl, hd⟩ hnot

/-- Witness for C27: the state after the discovery of the secondary A and of
the primary B of "rs0" is reached, has kind RS_WITH_PRIMARY, and has a set
name. -/
theorem C27_witness :
    Reached topology_after_second_handshake ∧
    topology_after_second_handshake.type = TopologyType.RS_WITH_PRIMARY ∧
    topology_after_second_handshake.set_name.isSome = true :=
  ⟨reached_after_second_handshake, rfl,
    (C27_set_names_present topology_after_second_handshake
      reached_after_second_handshake).1 rfl⟩

/-! ## C23: a topology of kind SINGLE holds one server -/

/-- A write through the pointer keeps the number of servers. -/
theorem store_length (t : TopologyDescription) (p : SdPtr) (d : ServerDescription) :
    (SdPtr.store t p d).servers.length = t.servers.length := by
  cases p with
  | detached _ => rfl
  | item id => exact write_item_length _ _ _

/-- A transition of the table ends in the kind SINGLE only with one server in
the set. -/
theorem transition_single (t : TopologyDescription) (d : ServerDescription)
    (f : transition_t) (t2 : TopologyDescription)
    (hf : gSDAMTransitionTable d.type t.type = some f) (h : f t d = some t2)
    (hs : t2.type = TopologyType.SINGLE) : t2.servers.length = 1 := by
  have hstep := transition_kind_step t d f t2 hf h
  cases htt : t.type with
  | SINGLE => rw [htt] at hf; simp [gSDAMTransitionTable] at hf
  | SHARDED =>
    rw [htt, hs] at hstep
    simp [kind_step] at hstep
  | RS_NO_PRIMARY =>
    rw [htt, hs] at hstep
    simp [kind_step] at hstep
  | RS_WITH_PRIMARY =>
    rw [htt, hs] at hstep
    simp [kind_step] at hstep
  | UNKNOWN =>
    cases hdt : d.type <;>
      simp only [hdt, htt, gSDAMTransitionTable, Option.some.injEq, reduceCtorEq] at hf <;>
      subst hf
    · simp only [Option.some.injEq] at h
      subst h
      unfold _mongoc_topology_description_update_unknown_with_standalone at hs ⊢
      split
      · rename_i hn
        rw [if_pos hn, htt] at hs
        exact absurd hs (by decide)
      · rename_i hn
        rw [if_neg hn] at hs
        split
        · rename_i hl
          rw [if_pos hl] at hs
          have : t.type = TopologyType.SINGLE := hs
          rw [htt] at this
          exact absurd this (by decide)
        · rename_i hl
          have hne : t.servers ≠ [] := by
            intro hnil
            apply hn
            simp [_mongoc_topology_description_has_server, hnil, mongoc_set_for_each]
          have := List.length_pos.2 hne
          show t.servers.length = 1
          omega
    · simp only [Option.some.injEq] at h
      subst h
      simp [_mongoc_topology_description_set_topology_type_to_sharded,
        _mongoc_topology_description_set_state] at hs
    · have h1 := update_rs_from_primary_type t d t2 h
      rw [htt, hs] at h1
      simp at h1
    · have h1 := update_rs_without_primary_type _ d t2 h
      rw [hs] at h1
      simp [_mongoc_topology_description_set_state] at h1
    · have h1 := update_rs_without_primary_type _ d t2 h
      rw [hs] at h1
      simp [_mongoc_topology_description_set_state] at h1
    · have h1 := update_rs_without_primary_type _ d t2 h
      rw [hs] at h1
      simp [_mongoc_topology_description_set_state] at h1

/-- A handshake that returns keeps: a topology of kind SINGLE holds one
server. -/
theorem handle_ismaster_single (t : TopologyDescription) (p : SdPtr)
    (resp : Option IsMasterResponse) (rtt : Int) (err : Bool) (r : HandleResult)
    (h : mongoc_topology_description_handle_ismaster t p resp rtt err = some r)
    (hI : t.type = TopologyType.SINGLE → t.servers.length = 1)
    (hs : r.topology.type = TopologyType.SINGLE) : r.topology.servers.length = 1 := by
  rcases handle_ismaster_inv t p resp rtt err r h with h2 | ⟨d0, _, ⟨_, h2⟩ | ⟨f, hf, h2⟩⟩
  · rw [h2] at hs ⊢; exact hI hs
  · rw [h2] at hs ⊢
    rw [store_type] at hs
    rw [store_length]
    exact hI hs
  · exact transition_single _ _ f r.topology (by rw [store_type]; exact hf) h2 hs

/-- C23 (counterexample): `init` with the permitted kind SINGLE and no seed, or
with the seeds A and B, and no handshake: the kind is SINGLE and the set holds
no server, or two; without a server `suitable_servers` reads an entry that is
not there. -/
theorem C23_counterexample_single_without_one_seed :
    mongoc_topology_description_init TopologyType.SINGLE false false =
      some (example_topology TopologyType.SINGLE [] none 0) ∧
    (add_all (example_topology TopologyType.SINGLE [] none 0) []).type =
      TopologyType.SINGLE ∧
    (add_all (example_topology TopologyType.SINGLE [] none 0) []).servers.length = 0 ∧
    mongoc_topology_description_suitable_servers OpType.READ
      (add_all (example_topology TopologyType.SINGLE [] none 0) []) example_prefs 15 = none ∧
    (add_all (example_topology TopologyType.SINGLE [] none 0) ["A", "B"]).type =
      TopologyType.SINGLE ∧
    (add_all (example_topology TopologyType.SINGLE [] none 0) ["A", "B"]).servers.length = 2 := by
  decide

/-- C23 (amended): a topology is created by `init` with a permitted kind, the
seeds are added with `add_server`, and any sequence of handshakes follows;
where the initial kind is SINGLE the seeds leave exactly one server. Then
whenever the kind is SINGLE the set holds exactly one server, and
`suitable_servers` returns for every operation, read preference and
threshold. -/
theorem C23_single_means_one_server (type : TopologyType) (cb_add cb_rm : Bool)
    (t0 : TopologyDescription) (seeds : List String) (t : TopologyDescription)
    (hinit : mongoc_topology_description_init type cb_add cb_rm = some t0)
    (hseeds : type = TopologyType.SINGLE → (add_all t0 seeds).servers.length = 1)
    (hsteps : Handshakes (add_all t0 seeds) t) (hk : t.type = TopologyType.SINGLE) :
    t.servers.length = 1 ∧
    ∀ (optype : OpType) (rp : ReadPrefs) (thr : Nat),
      ∃ l, mongoc_topology_description_suitable_servers optype t rp thr = some l := by
  have hlen : t.type = TopologyType.SINGLE → t.servers.length = 1 := by
    clear hk
    induction hsteps with
    | refl =>
      intro hs
      obtain ⟨news, hmon⟩ := add_all_monitored seeds t0
      rw [hmon.type_eq] at hs
      apply hseeds
      unfold mongoc_topology_description_init at hinit
      split at hinit
      · cases hinit; exact hs
      · cases hinit
    | step t2 p resp rtt err r _ hr ih =>
      exact handle_ismaster_single t2 p resp rtt err r hr ih
  have h1 := hlen hk
  refine ⟨h1, ?_⟩
  intro optype rp thr
  match hl : t.servers, h1 with
  | [s], _ =>
    refine ⟨if s.type = ServerType.STANDALONE then [s] else [], ?_⟩
    simp only [mongoc_topology_description_suitable_servers, hk, hl, if_true]
    cases hst : s.type <;>
      simp [_mongoc_topology_description_server_is_candidate]

/-- Witness for C23: `init` with kind UNKNOWN, the seed A, and the handshake of
A as a standalone: the kind is SINGLE and the set holds A alone. -/
theorem C23_witness :
    topology_single_after_handshake.servers.length = 1 ∧
    ∀ (optype : OpType) (rp : ReadPrefs) (thr : Nat),
      ∃ l, mongoc_topology_description_suitable_servers optype
        topology_single_after_handshake rp thr = some l :=
  C23_single_means_one_server TopologyType.UNKNOWN false false
    (example_topology TopologyType.UNKNOWN [] none 0) ["A"] topology_single_after_handshake
    (by decide) (by decide)
    (Handshakes.step _ (SdPtr.item 1) (some response_standalone) 5 false
      { ret := true, topology := topology_single_after_handshake,
        sd := some standalone_A_after_handshake }
      Handshakes.refl (by decide))
    rfl

/-! ## C24: the counter of the ids -/

/-- Monitoring addresses does not lower the counter, unless it wraps. -/
theorem add_all_counter (t : TopologyDescription) (as : List String) (m : Nat)
    (hm : t.max_server_id = m) (hw : m + as.length < 2 ^ 32) :
    m ≤ (add_all t as).max_server_id := by
  obtain ⟨news, hmon⟩ := add_all_monitored as t
  subst hm
  rw [hmon.counter hw]
  exact Nat.le_add_right _ _

/-- The transition `update_rs_from_primary` does not lower the counter, unless
it wraps. -/
theorem update_rs_from_primary_counter (t : TopologyDescription) (d : ServerDescription)
    (t2 : TopologyDescription)
    (h : _mongoc_topology_description_update_rs_from_primary t d = some t2)
    (hw : t.max_server_id + (roster d).length < 2 ^ 32) :
    t.max_server_id ≤ t2.max_server_id := by
  unfold _mongoc_topology_description_update_rs_from_primary at h
  split at h
  · cases h; exact Nat.le_refl _
  · split at h
    · cases h
      obtain ⟨_, _, _, _, _, hmax⟩ := accepted_spec { t with set_name := d.set_name } d
      rw [hmax]
      exact add_all_counter _ _ _ rfl hw
    · split at h
      · cases h
      · cases h
        rw [check_if_has_primary_max_server_id]
        exact Nat.le_refl _
      · cases h
        obtain ⟨_, _, _, _, _, hmax⟩ := accepted_spec t d
        rw [hmax]
        exact add_all_counter _ _ _ rfl hw

/-- No transition of the table lowers the counter, unless it wraps. -/
theorem transition_counter (t : TopologyDescription) (d : ServerDescription)
    (f : transition_t) (t2 : TopologyDescription)
    (hf : gSDAMTransitionTable d.type t.type = some f) (h : f t d = some t2)
    (hw : t.max_server_id + (roster d).length < 2 ^ 32) :
    t.max_server_id ≤ t2.max_server_id := by
  by_cases hp : d.type = ServerType.RS_PRIMARY
  · rw [hp] at hf
    cases htt : t.type <;>
      simp only [htt, gSDAMTransitionTable, Option.some.injEq, reduceCtorEq] at hf <;>
      subst hf
    all_goals first
      | exact update_rs_from_primary_counter t d t2 h hw
      | (simp only [Option.some.injEq] at h; subst h; exact Nat.le_refl _)
  · cases transition_shape t d f t2 hp hf h with
    | kept o base hbase hs hmax => rw [hmax]
    | grown o t0 h0 hm0 hs hmax =>
      rw [hmax, ← hm0]
      exact add_all_counter t0 _ _ rfl (by rw [hm0]; exact hw)

/-- A write through the pointer keeps the counter. -/
theorem store_max_server_id (t : TopologyDescription) (p : SdPtr) (d : ServerDescription) :
    (SdPtr.store t p d).max_server_id = t.max_server_id := by
  cases p <;> rfl

/-- A handshake that returns does not lower the counter, unless it wraps. -/
theorem handle_ismaster_counter (t : TopologyDescription) (p : SdPtr)
    (resp : Option IsMasterResponse) (rtt : Int) (err : Bool) (r : HandleResult)
    (h : mongoc_topology_description_handle_ismaster t p resp rtt err = some r)
    (hw : ∀ d0, p.deref t = some d0 →
      t.max_server_id +
        (roster (mongoc_server_description_handle_ismaster d0 resp rtt err)).length <
          2 ^ 32) :
    t.max_server_id ≤ r.topology.max_server_id := by
  rcases handle_ismaster_inv t p resp rtt err r h with h2 | ⟨d0, hd0, ⟨_, h2⟩ | ⟨f, hf, h2⟩⟩
  · rw [h2]
  · rw [h2, store_max_server_id]
  · have := transition_counter _ _ f r.topology (by rw [store_type]; exact hf) h2
      (by rw [store_max_server_id]; exact hw d0 hd0)
    rw [store_max_server_id] at this
    exact this

/-- The function `add_server` does not lower the counter, unless it wraps. -/
theorem add_server_counter (t : TopologyDescription) (a : String)
    (hw : t.max_server_id + 1 < 2 ^ 32) :
    t.max_server_id ≤ (mongoc_topology_description_add_server t a).1.max_server_id := by
  cases hs : _mongoc_topology_description_has_server t a with
  | some id => rw [add_server_present t a id hs]
  | none =>
    rw [add_server_absent t a hs]
    show t.max_server_id ≤ (t.max_server_id + 1) % 2 ^ 32
    rw [Nat.mod_eq_of_lt hw]
    exact Nat.le_succ _

/-- Along steps without wrap the counter does not decrease. -/
theorem steps_counter (t t2 : TopologyDescription) (h : Steps t t2) :
    t.max_server_id ≤ t2.max_server_id := by
  induction h with
  | refl => exact Nat.le_refl _
  | add_server t2 a _ hw ih => exact Nat.le_trans ih (add_server_counter t2 a hw)
  | handle_ismaster t2 p resp rtt err r _ hw hr ih =>
    exact Nat.le_trans ih (handle_ismaster_counter t2 p resp rtt err r hr hw)

/-- C24 (counterexample): with the counter at 2^32 - 1, `add_server` of the
absent address B lowers the counter to 0 and gives B the id 0. -/
theorem C24_counterexample_counter_wraps :
    topology_counter_wrap.max_server_id = 4294967295 ∧
    _mongoc_topology_description_has_server topology_counter_wrap "B" = none ∧
    (mongoc_topology_description_add_server topology_counter_wrap "B").1.max_server_id = 0 ∧
    (mongoc_topology_description_add_server topology_counter_wrap "B").2 = 0 := by
  decide

/-- C24 (amended): while the counter `max_server_id` does not wrap. For every
topology: `add_server` below 2^32 - 1 does not lower the counter; for an absent
address it raises it by exactly one, returns the new value, and adds one
server, built from the address with the new value as id; for a present address
it changes nothing. `invalidate_server` returns and keeps the counter. A
handshake with room for the roster of the description does not lower the
counter, whatever it returns. Hence after any steps without wrap the counter
is not lower than before, and the id a following `add_server` of an absent
address assigns is greater than the counter at every earlier state, so
greater than every id assigned before, removed or not. -/
theorem C24_ids_never_reused (t : TopologyDescription) :
    (∀ a, t.max_server_id + 1 < 2 ^ 32 →
      t.max_server_id ≤ (mongoc_topology_description_add_server t a).1.max_server_id ∧
      (_mongoc_topology_description_has_server t a = none →
        (mongoc_topology_description_add_server t a).1.max_server_id =
          t.max_server_id + 1 ∧
        (mongoc_topology_description_add_server t a).2 = t.max_server_id + 1 ∧
        mongoc_server_description_init a (t.max_server_id + 1) ∈
          (mongoc_topology_description_add_server t a).1.servers ∧
        ∀ s ∈ (mongoc_topology_description_add_server t a).1.servers,
          s = mongoc_server_description_init a (t.max_server_id + 1) ∨ s ∈ t.servers) ∧
      (∀ id, _mongoc_topology_description_has_server t a = some id →
        mongoc_topology_description_add_server t a = (t, id))) ∧
    (∀ id, ∃ t2, mongoc_topology_description_invalidate_server t id = some t2 ∧
      t2.max_server_id = t.max_server_id) ∧
    (∀ (p : SdPtr) (resp : Option IsMasterResponse) (rtt : Int) (err : Bool)
        (r : HandleResult),
      (∀ d0, p.deref t = some d0 →
        t.max_server_id +
          (roster (mongoc_server_description_handle_ismaster d0 resp rtt err)).length <
            2 ^ 32) →
      mongoc_topology_description_handle_ismaster t p resp rtt err = some r →
      t.max_server_id ≤ r.topology.max_server_id) ∧
    (∀ t2, Steps t t2 →
      t.max_server_id ≤ t2.max_server_id ∧
      ∀ a, _mongoc_topology_description_has_server t2 a = none →
        t2.max_server_id + 1 < 2 ^ 32 →
        t.max_server_id < (mongoc_topology_description_add_server t2 a).2) := by
  have habsent : ∀ (t : TopologyDescription) (a : String),
      t.max_server_id + 1 < 2 ^ 32 → _mongoc_topology_description_has_server t a = none →
      (mongoc_topology_description_add_server t a).1.max_server_id = t.max_server_id + 1 ∧
      (mongoc_topology_description_add_server t a).2 = t.max_server_id + 1 ∧
      mongoc_server_description_init a (t.max_server_id + 1) ∈
        (mongoc_topology_description_add_server t a).1.servers ∧
      ∀ s ∈ (mongoc_topology_description_add_server t a).1.servers,
        s = mongoc_server_description_init a (t.max_server_id + 1) ∨ s ∈ t.servers := by
    intro t a hw hs
    rw [add_server_absent t a hs]
    simp only [Nat.mod_eq_of_lt hw]
    exact ⟨trivial, trivial, mem_mongoc_set_add.2 (Or.inl rfl),
      fun s hs => mem_mongoc_set_add.1 hs⟩
  refine ⟨?_, ?_, ?_, ?_⟩
  · intro a hw
    exact ⟨add_server_counter t a hw, habsent t a hw,
      fun id hs => add_server_present t a id hs⟩
  · intro id
    cases hget : mongoc_set_get t.servers id with
    | none =>
      refine ⟨t, ?_, rfl⟩
      simp only [mongoc_topology_description_invalidate_server,
        mongoc_topology_description_handle_ismaster, SdPtr.deref, hget, Option.map_some']
    | some d0 =>
      rw [invalidate_server_eq t id d0 hget]
      refine ⟨_, rfl, ?_⟩
      split
      · rw [check_if_has_primary_max_server_id, store_max_server_id]
      · rw [store_max_server_id]
  · intro p resp rtt err r hw h1
    exact handle_ismaster_counter t p resp rtt err r h1 hw
  · intro t2 hsteps
    have hle := steps_counter t t2 hsteps
    refine ⟨hle, ?_⟩
    intro a hs hw
    rw [(habsent t2 a hw hs).2.1]
    omega

/-! ## C25: a rogue member -/

/-- C25 (evaluation at the failing input): in the set "rs0" of kind
RS_WITH_PRIMARY with the primary A and the unknown B, A answers as a secondary
of the set "other" and names B as primary. A is removed, which destroys its
description, and `update_rs_with_primary_from_member` goes on after the
removal, where `update_rs_without_primary` returns: no primary is left, so it
reads `server->current_primary` of the destroyed description and the handshake
has no defined result. With the hint the description held, the statements
that follow label B POSSIBLE_PRIMARY and set the kind RS_NO_PRIMARY. -/
theorem C25_rogue_member_hint_is_used :
    topology_rs0_primary_and_unknown.type = TopologyType.RS_WITH_PRIMARY ∧
    topology_rs0_primary_and_unknown.set_name = some "rs0" ∧
    classify response_rogue_secondary = ServerType.RS_SECONDARY ∧
    response_rogue_secondary.setName = some "other" ∧
    example_server 2 "B" ServerType.UNKNOWN none ∈ topology_rs0_primary_and_unknown.servers ∧
    SdPtr.deref topology_rs0_primary_and_unknown (SdPtr.item 1) =
      some (example_server 1 "A" ServerType.RS_PRIMARY (some "rs0")) ∧
    rogue_member_after_handshake.type = ServerType.RS_SECONDARY ∧
    rogue_member_after_handshake.current_primary = some "B" ∧
    topology_rogue_member_removed.servers = [example_server 2 "B" ServerType.UNKNOWN none] ∧
    topology_rogue_member_removed.type = TopologyType.RS_WITH_PRIMARY ∧
    _mongoc_topology_description_has_primary topology_rogue_member_removed = none ∧
    mongoc_topology_description_handle_ismaster topology_rs0_primary_and_unknown
      (SdPtr.item 1) (some response_rogue_secondary) 5 false = none ∧
    (_mongoc_topology_description_label_unknown_member
        (_mongoc_topology_description_set_state topology_rogue_member_removed
          TopologyType.RS_NO_PRIMARY)
        rogue_member_after_handshake.current_primary ServerType.POSSIBLE_PRIMARY).servers =
      [example_server 2 "B" ServerType.POSSIBLE_PRIMARY none] ∧
    (_mongoc_topology_description_label_unknown_member
        (_mongoc_topology_description_set_state topology_rogue_member_removed
          TopologyType.RS_NO_PRIMARY)
        rogue_member_after_handshake.current_primary ServerType.POSSIBLE_PRIMARY).type =
      TopologyType.RS_NO_PRIMARY := by
  decide

/-! ## C21: discovery of a replica set without primary -/

/-- The items after labelling the address `a`: every item that is not an
UNKNOWN at `a` is still there; every item is there as it was or labelled; every
item afterwards was there, or is the labelled contents of an UNKNOWN at `a`;
and if there was an UNKNOWN at `a`, one is labelled. -/
theorem label_list_spec (l : List ServerDescription) (a : String) :
    (∀ x ∈ l, ¬(x.connection_address = a ∧ x.type = ServerType.UNKNOWN) →
      x ∈ label_list l (some a)) ∧
    (∀ x ∈ l, x ∈ label_list l (some a) ∨
      (x.connection_address = a ∧ x.type = ServerType.UNKNOWN ∧
        mongoc_server_description_set_state x ServerType.POSSIBLE_PRIMARY ∈
          label_list l (some a))) ∧
    (∀ y ∈ label_list l (some a), y ∈ l ∨
      ∃ x ∈ l, x.connection_address = a ∧ x.type = ServerType.UNKNOWN ∧
        y = mongoc_server_description_set_state x ServerType.POSSIBLE_PRIMARY) ∧
    ((∃ x ∈ l, x.connection_address = a ∧ x.type = ServerType.UNKNOWN) →
      ∃ y ∈ label_list l (some a),
        y.connection_address = a ∧ y.type = ServerType.POSSIBLE_PRIMARY) := by
  unfold label_list
  induction l with
  | nil => simp [mongoc_set_for_each_item]
  | cons x xs ih =>
    obtain ⟨i1, i2, i3, i4⟩ := ih
    by_cases hx : x.connection_address = a ∧ x.type = ServerType.UNKNOWN
    · have hl : mongoc_set_for_each_item (x :: xs) _mongoc_label_unknown_member_cb
          (a, ServerType.POSSIBLE_PRIMARY) =
          mongoc_server_description_set_state x ServerType.POSSIBLE_PRIMARY :: xs := by
        simp only [mongoc_set_for_each_item, _mongoc_label_unknown_member_cb, hx, and_self,
          if_true]
      simp only [hl]
      refine ⟨?_, ?_, ?_, ?_⟩
      · intro y hy hny
        rcases List.mem_cons.1 hy with h | h
        · subst h; exact absurd hx hny
        · exact List.mem_cons_of_mem _ h
      · intro y hy
        rcases List.mem_cons.1 hy with h | h
        · subst h; exact Or.inr ⟨hx.1, hx.2, List.mem_cons_self _ _⟩
        · exact Or.inl (List.mem_cons_of_mem _ h)
      · intro y hy
        rcases List.mem_cons.1 hy with h | h
        · exact Or.inr ⟨x, List.mem_cons_self _ _, hx.1, hx.2, h⟩
        · exact Or.inl (List.mem_cons_of_mem _ h)
      · intro _
        exact ⟨_, List.mem_cons_self _ _, hx.1, rfl⟩
    · have hl : mongoc_set_for_each_item (x :: xs) _mongoc_label_unknown_member_cb
          (a, ServerType.POSSIBLE_PRIMARY) =
          x :: mongoc_set_for_each_item xs _mongoc_label_unknown_member_cb
            (a, ServerType.POSSIBLE_PRIMARY) := by
        simp only [mongoc_set_for_each_item, _mongoc_label_unknown_member_cb, hx, if_false]
      simp only [hl]
      refine ⟨?_, ?_, ?_, ?_⟩
      · intro y hy hny
        rcases List.mem_cons.1 hy with h | h
        · subst h; exact List.mem_cons_self _ _
        · exact List.mem_cons_of_mem _ (i1 y h hny)
      · intro y hy
        rcases List.mem_cons.1 hy with h | h
        · subst h; exact Or.inl (List.mem_cons_self _ _)
        · rcases i2 y h with h2 | ⟨h2, h3, h4⟩
          · exact Or.inl (List.mem_cons_of_mem _ h2)
          · exact Or.inr ⟨h2, h3, List.mem_cons_of_mem _ h4⟩
      · intro y hy
        rcases List.mem_cons.1 hy with h | h
        · subst h; exact Or.inl (List.mem_cons_self _ _)
        · rcases i3 y h with h2 | ⟨z, hz, h2⟩
          · exact Or.inl (List.mem_cons_of_mem _ h2)
          · exact Or.inr ⟨z, List.mem_cons_of_mem _ hz, h2⟩
      · rintro ⟨z, hz, hz2⟩
        rcases List.mem_cons.1 hz with h | h
        · subst h; exact absurd hz2 hx
        · obtain ⟨y, hy, hy2⟩ := i4 ⟨z, h, hz2⟩
          exact ⟨y, List.mem_cons_of_mem _ hy, hy2⟩

/-- With pairwise distinct addresses no item at the labelled address is
UNKNOWN afterwards. -/
theorem label_list_no_unknown (l : List ServerDescription) (a : String)
    (hnd : (l.map (fun s => s.connection_address)).Nodup) :
    ∀ y ∈ label_list l (some a), y.connection_address = a → y.type ≠ ServerType.UNKNOWN := by
  unfold label_list
  induction l with
  | nil => simp [mongoc_set_for_each_item]
  | cons x xs ih =>
    rw [List.map_cons, List.nodup_cons] at hnd
    by_cases hx : x.connection_address = a ∧ x.type = ServerType.UNKNOWN
    · have hl : mongoc_set_for_each_item (x :: xs) _mongoc_label_unknown_member_cb
          (a, ServerType.POSSIBLE_PRIMARY) =
          mongoc_server_description_set_state x ServerType.POSSIBLE_PRIMARY :: xs := by
        simp only [mongoc_set_for_each_item, _mongoc_label_unknown_member_cb, hx, and_self,
          if_true]
      simp only [hl]
      intro y hy hya
      rcases List.mem_cons.1 hy with h | h
      · rw [h]; simp [mongoc_server_description_set_state]
      · exfalso
        apply hnd.1
        rw [hx.1, ← hya]
        exact List.mem_map_of_mem _ h
    · have hl : mongoc_set_for_each_item (x :: xs) _mongoc_label_unknown_member_cb
          (a, ServerType.POSSIBLE_PRIMARY) =
          x :: mongoc_set_for_each_item xs _mongoc_label_unknown_member_cb
            (a, ServerType.POSSIBLE_PRIMARY) := by
        simp only [mongoc_set_for_each_item, _mongoc_label_unknown_member_cb, hx, if_false]
      simp only [hl]
      intro y hy hya
      rcases List.mem_cons.1 hy with h | h
      · subst h
        exact fun hu => hx ⟨hya, hu⟩
      · exact ih hnd.2 y h hya

/-- The servers the accepted branch of `update_rs_without_primary` leaves. -/
theorem without_primary_accepted_servers (t : TopologyDescription) (d : ServerDescription) :
    (update_rs_without_primary_accepted t d).servers =
      label_list (add_all t (roster d)).servers d.current_primary := by
  unfold update_rs_without_primary_accepted
  rw [monitor_new_servers_eq]
  cases hc : d.current_primary with
  | none => rfl
  | some a => exact label_unknown_member_servers _ _

/-- The transition `update_rs_without_primary` for a server of the set whose
set name the topology lacks or shares: the accepted branch runs under the set
name of the server. -/
theorem update_rs_without_primary_accepts (t : TopologyDescription) (d : ServerDescription)
    (m : String) (hd : d ∈ t.servers) (hm : d.set_name = some m)
    (hn : t.set_name = none ∨ t.set_name = some m) :
    _mongoc_topology_description_update_rs_without_primary t d =
      some (update_rs_without_primary_accepted { t with set_name := some m } d) := by
  unfold _mongoc_topology_description_update_rs_without_primary
  rw [has_server_isSome_of_mem hd]
  simp only [Bool.false_eq_true, if_false, hm]
  rcases hn with hn | hn
  · simp only [hn]
  · have : ({ t with set_name := some m } : TopologyDescription) = t := by
      cases t
      simp only at hn
      subst hn
      rfl
    simp only [hn, strcmp_ne, bne_self_eq_false, this]

/-- The items after labelling the address `o`, which may be `NULL`. -/
theorem label_list_spec_opt (l : List ServerDescription) (o : Option String) :
    (∀ x ∈ l, ¬(o = some x.connection_address ∧ x.type = ServerType.UNKNOWN) →
      x ∈ label_list l o) ∧
    (∀ x ∈ l, x ∈ label_list l o ∨
      (o = some x.connection_address ∧ x.type = ServerType.UNKNOWN ∧
        mongoc_server_description_set_state x ServerType.POSSIBLE_PRIMARY ∈ label_list l o)) ∧
    (∀ y ∈ label_list l o, y ∈ l ∨
      ∃ x ∈ l, o = some x.connection_address ∧ x.type = ServerType.UNKNOWN ∧
        y = mongoc_server_description_set_state x ServerType.POSSIBLE_PRIMARY) ∧
    (∀ a, o = some a → (∃ x ∈ l, x.connection_address = a ∧ x.type = ServerType.UNKNOWN) →
      ∃ y ∈ label_list l o,
        y.connection_address = a ∧ y.type = ServerType.POSSIBLE_PRIMARY) ∧
    ((l.map (fun s => s.connection_address)).Nodup → ∀ a, o = some a →
      ∀ y ∈ label_list l o, y.connection_address = a → y.type ≠ ServerType.UNKNOWN) := by
  cases o with
  | none =>
    refine ⟨fun x hx _ => hx, fun x hx => Or.inl hx, fun y hy => Or.inl hy, ?_, ?_⟩
    · intro a ha; cases ha
    · intro _ a ha; cases ha
  | some b =>
    obtain ⟨s1, s2, s3, s4⟩ := label_list_spec l b
    refine ⟨?_, ?_, ?_, ?_, ?_⟩
    · intro x hx hn
      exact s1 x hx (fun h => hn ⟨by rw [h.1], h.2⟩)
    · intro x hx
      rcases s2 x hx with h | ⟨h1, h2, h3⟩
      · exact Or.inl h
      · exact Or.inr ⟨by rw [h1], h2, h3⟩
    · intro y hy
      rcases s3 y hy with h | ⟨x, hx, h1, h2, h3⟩
      · exact Or.inl h
      · exact Or.inr ⟨x, hx, by rw [h1], h2, h3⟩
    · intro a ha hex
      simp only [Option.some.injEq] at ha
      subst ha
      exact s4 hex
    · intro hnd a ha
      simp only [Option.some.injEq] at ha
      subst ha
      exact label_list_no_unknown l b hnd

/-- The handshake of a member of the set that answers as RS_SECONDARY,
RS_ARBITER or RS_OTHER of a set whose name the topology lacks or shares, in a
topology of kind RS_NO_PRIMARY or UNKNOWN: the accepted branch of
`update_rs_without_primary` runs on the set with the updated description, under
the kind RS_NO_PRIMARY and the set name of the member. -/
theorem handle_ismaster_discovers (t : TopologyDescription) (id : Nat)
    (d0 : ServerDescription) (resp : Option IsMasterResponse) (rtt : Int) (err : Bool)
    (m : String)
    (hk : t.type = TopologyType.RS_NO_PRIMARY ∨ t.type = TopologyType.UNKNOWN)
    (hget : mongoc_set_get t.servers id = some d0)
    (hc : (mongoc_server_description_handle_ismaster d0 resp rtt err).type =
        ServerType.RS_SECONDARY ∨
      (mongoc_server_description_handle_ismaster d0 resp rtt err).type =
        ServerType.RS_ARBITER ∨
      (mongoc_server_description_handle_ismaster d0 resp rtt err).type = ServerType.RS_OTHER)
    (hm : (mongoc_server_description_handle_ismaster d0 resp rtt err).set_name = some m)
    (hn : t.set_name = none ∨ t.set_name = some m) :
    ∃ t0 : TopologyDescription,
      t0.servers = write_item t.servers id
        (mongoc_server_description_handle_ismaster d0 resp rtt err) ∧
      t0.type = TopologyType.RS_NO_PRIMARY ∧ t0.set_name = some m ∧
      mongoc_topology_description_handle_ismaster t (SdPtr.item id) resp rtt err =
        some { ret := true,
               topology := update_rs_without_primary_accepted t0
                 (mongoc_server_description_handle_ismaster d0 resp rtt err),
               sd := some (mongoc_server_description_handle_ismaster d0 resp rtt err) } := by
  have hmem : mongoc_server_description_handle_ismaster d0 resp rtt err ∈
      (SdPtr.store t (SdPtr.item id)
        (mongoc_server_description_handle_ismaster d0 resp rtt err)).servers :=
    mem_write_item_self hget _
  rw [handle_ismaster_item t id d0 resp rtt err hget]
  rcases hk with hk | hk
  · have h1 := update_rs_without_primary_accepts
      (SdPtr.store t (SdPtr.item id)
        (mongoc_server_description_handle_ismaster d0 resp rtt err)) _ m hmem hm
      (by rw [store_set_name]; exact hn)
    refine ⟨{ SdPtr.store t (SdPtr.item id)
        (mongoc_server_description_handle_ismaster d0 resp rtt err) with set_name := some m },
      rfl, hk, rfl, ?_⟩
    · rcases hc with hc | hc | hc <;>
        simp only [hc, hk, gSDAMTransitionTable, h1, Option.map_some']
  · have h1 := update_rs_without_primary_accepts
      (_mongoc_topology_description_set_state
        (SdPtr.store t (SdPtr.item id)
          (mongoc_server_description_handle_ismaster d0 resp rtt err))
        TopologyType.RS_NO_PRIMARY) _ m hmem hm
      (by exact hn)
    refine ⟨{ _mongoc_topology_description_set_state
        (SdPtr.store t (SdPtr.item id)
          (mongoc_server_description_handle_ismaster d0 resp rtt err))
        TopologyType.RS_NO_PRIMARY with set_name := some m }, rfl, rfl, rfl, ?_⟩
    rcases hc with hc | hc | hc <;>
      simp only [hc, hk, gSDAMTransitionTable,
        _mongoc_topology_description_transition_unknown_to_rs_no_primary, h1,
        Option.map_some']

/-- C21: in a topology of kind RS_NO_PRIMARY or UNKNOWN the server stored under
`id` answers as RS_SECONDARY, RS_ARBITER or RS_OTHER of a set whose name the
topology lacks or shares; `d` is its description after the handshake. The
handshake returns `true`; the kind is RS_NO_PRIMARY; the set name is that of
`d`; `d` is in the set; no server is removed: every other server is still
there, unchanged unless it was an UNKNOWN at the address `d` names as primary,
and then unchanged or labelled POSSIBLE_PRIMARY; every address of the rosters
of `d` is in the set; every server of the set is `d`, a server from before
(unchanged or so labelled), or a new server at an address of the rosters that
the set did not hold, of kind UNKNOWN unless it is so labelled; if the address
named as primary was held by another UNKNOWN server or is new, a server at it
is POSSIBLE_PRIMARY; and with pairwise distinct addresses no server at it is
UNKNOWN afterwards. -/
theorem C21_discovery_without_primary (t : TopologyDescription)
    (hk : t.type = TopologyType.RS_NO_PRIMARY ∨ t.type = TopologyType.UNKNOWN) (id : Nat)
    (d0 : ServerDescription) (hget : mongoc_set_get t.servers id = some d0)
    (resp : Option IsMasterResponse) (rtt : Int) (err : Bool) (d : ServerDescription)
    (hd : d = mongoc_server_description_handle_ismaster d0 resp rtt err)
    (hc : d.type = ServerType.RS_SECONDARY ∨ d.type = ServerType.RS_ARBITER ∨
      d.type = ServerType.RS_OTHER)
    (hn : t.set_name = none ∨ t.set_name = d.set_name) :
    ∃ r, mongoc_topology_description_handle_ismaster t (SdPtr.item id) resp rtt err = some r ∧
      r.ret = true ∧ r.sd = some d ∧
      r.topology.type = TopologyType.RS_NO_PRIMARY ∧
      r.topology.set_name = d.set_name ∧ d.set_name.isSome = true ∧
      d ∈ r.topology.servers ∧
      (∀ s ∈ t.servers, s.id ≠ id →
        ¬(d.current_primary = some s.connection_address ∧ s.type = ServerType.UNKNOWN) →
        s ∈ r.topology.servers) ∧
      (∀ s ∈ t.servers, s.id ≠ id →
        s ∈ r.topology.servers ∨
          (d.current_primary = some s.connection_address ∧ s.type = ServerType.UNKNOWN ∧
            mongoc_server_description_set_state s ServerType.POSSIBLE_PRIMARY ∈
              r.topology.servers)) ∧
      (∀ a ∈ roster d, ∃ s ∈ r.topology.servers, s.connection_address = a) ∧
      (∀ y ∈ r.topology.servers,
        y = d ∨
        (∃ s ∈ t.servers, y = s ∨
          (d.current_primary = some s.connection_address ∧ s.type = ServerType.UNKNOWN ∧
            y = mongoc_server_description_set_state s ServerType.POSSIBLE_PRIMARY)) ∨
        (y.connection_address ∈ roster d ∧
          (∀ s ∈ t.servers, s.connection_address ≠ y.connection_address) ∧
          (y = mongoc_server_description_init y.connection_address y.id ∨
            (d.current_primary = some y.connection_address ∧
              y = mongoc_server_description_set_state
                (mongoc_server_description_init y.connection_address y.id)
                ServerType.POSSIBLE_PRIMARY)))) ∧
      (∀ a, d.current_primary = some a →
        ((∃ s ∈ t.servers, s.id ≠ id ∧ s.connection_address = a ∧
            s.type = ServerType.UNKNOWN) ∨
          (a ∈ roster d ∧ ∀ s ∈ t.servers, s.connection_address ≠ a)) →
        ∃ y ∈ r.topology.servers,
          y.connection_address = a ∧ y.type = ServerType.POSSIBLE_PRIMARY) ∧
      (addresses_unique t → ∀ a, d.current_primary = some a →
        ∀ y ∈ r.topology.servers, y.connection_address = a →
          y.type ≠ ServerType.UNKNOWN) := by
  have hnamed : d.set_name.isSome = true := by
    rw [hd]
    apply handshake_rs_member_named
    rw [← hd]
    rcases hc with h | h | h
    · exact Or.inr (Or.inl h)
    · exact Or.inr (Or.inr (Or.inl h))
    · exact Or.inr (Or.inr (Or.inr h))
  obtain ⟨m, hm⟩ := Option.isSome_iff_exists.1 hnamed
  have hdtype : d.type ≠ ServerType.UNKNOWN := by
    rcases hc with h | h | h <;> rw [h] <;> decide
  obtain ⟨t0, h0s, h0t, h0n, hres⟩ := handle_ismaster_discovers t id d0 resp rtt err m hk hget
    (by rw [← hd]; exact hc) (by rw [← hd]; exact hm) (by rw [← hm]; exact hn)
  rw [← hd] at h0s hres
  obtain ⟨f1, f2, _⟩ := without_primary_accepted_facts t0 d
  have hserv := without_primary_accepted_servers t0 d
  obtain ⟨news, hmon⟩ := add_all_monitored (roster d) t0
  have hL : ∀ s, s ∈ (add_all t0 (roster d)).servers ↔ s ∈ t0.servers ∨ s ∈ news :=
    fun s => (hmon.perm.mem_iff).trans List.mem_append
  obtain ⟨s1, s2, s3, s4, s5⟩ :=
    label_list_spec_opt (add_all t0 (roster d)).servers d.current_primary
  have hdmem : d ∈ t0.servers := by rw [h0s]; exact mem_write_item_self hget d
  have hother : ∀ s ∈ t.servers, s.id ≠ id → s ∈ t0.servers := by
    intro s hs hne
    rw [h0s]
    exact mem_write_item_of_ne hget d hs hne
  have hfrom : ∀ s ∈ t0.servers, s = d ∨ s ∈ t.servers := by
    intro s hs
    rw [h0s] at hs
    exact @mem_store t (SdPtr.item id) d s hs
  have haddr : t0.servers.map (fun s => s.connection_address) =
      t.servers.map (fun s => s.connection_address) := by
    rw [h0s]
    exact write_item_map_address hget d (by rw [hd]; exact handshake_address _ _ _ _)
  have habs : ∀ n ∈ news, ∀ s ∈ t.servers, s.connection_address ≠ n.connection_address := by
    intro n hn2 s hs he
    have h1 : s.connection_address ∈ t0.servers.map (fun s => s.connection_address) := by
      rw [haddr]
      exact List.mem_map_of_mem _ hs
    obtain ⟨s0, hs0, he0⟩ := List.mem_map.1 h1
    exact hmon.absent n hn2 s0 hs0 (he0.trans he)
  have hheld : ∀ s ∈ t0.servers, ∃ s2 ∈ t.servers,
      s2.connection_address = s.connection_address := by
    intro s hs
    have h1 : s.connection_address ∈ t.servers.map (fun s => s.connection_address) := by
      rw [← haddr]
      exact List.mem_map_of_mem _ hs
    obtain ⟨s2, hs2, he⟩ := List.mem_map.1 h1
    exact ⟨s2, hs2, he⟩
  refine ⟨_, hres, rfl, rfl, f2.trans h0t, (f1.trans h0n).trans hm.symm, hnamed, ?_, ?_, ?_,
    ?_, ?_, ?_, ?_⟩
  · show d ∈ (update_rs_without_primary_accepted t0 d).servers
    rw [hserv]
    exact s1 d ((hL d).2 (Or.inl hdmem)) (fun h => hdtype h.2)
  · intro s hs hne hnot
    show s ∈ (update_rs_without_primary_accepted t0 d).servers
    rw [hserv]
    exact s1 s ((hL s).2 (Or.inl (hother s hs hne))) hnot
  · intro s hs hne
    show s ∈ (update_rs_without_primary_accepted t0 d).servers ∨
      (_ ∧ _ ∧ _ ∈ (update_rs_without_primary_accepted t0 d).servers)
    rw [hserv]
    exact s2 s ((hL s).2 (Or.inl (hother s hs hne)))
  · intro a ha
    show ∃ s ∈ (update_rs_without_primary_accepted t0 d).servers, _
    rw [hserv]
    obtain ⟨s, hs, hsa⟩ := hmon.covered a ha
    rcases s2 s hs with h | ⟨_, _, h⟩
    · exact ⟨s, h, hsa⟩
    · exact ⟨_, h, hsa⟩
  · intro y hy
    have hy2 : y ∈ label_list (add_all t0 (roster d)).servers d.current_primary := by
      rw [← hserv]; exact hy
    rcases s3 y hy2 with h | ⟨x, hx, hcp, hxu, hyx⟩
    · rcases (hL y).1 h with h2 | h2
      · rcases hfrom y h2 with h3 | h3
        · exact Or.inl h3
        · exact Or.inr (Or.inl ⟨y, h3, Or.inl rfl⟩)
      · exact Or.inr (Or.inr ⟨hmon.listed y h2, habs y h2, Or.inl (hmon.fresh y h2)⟩)
    · rcases (hL x).1 hx with h2 | h2
      · rcases hfrom x h2 with h3 | h3
        · rw [h3] at hxu
          exact absurd hxu hdtype
        · exact Or.inr (Or.inl ⟨x, h3, Or.inr ⟨hcp, hxu, hyx⟩⟩)
      · have hya : y.connection_address = x.connection_address := by rw [hyx]; rfl
        have hyi : y.id = x.id := by rw [hyx]; rfl
        refine Or.inr (Or.inr ⟨?_, ?_, Or.inr ⟨?_, ?_⟩⟩)
        · rw [hya]; exact hmon.listed x h2
        · rw [hya]; exact habs x h2
        · rw [hya]; exact hcp
        · rw [hya, hyi, ← hmon.fresh x h2]
          exact hyx
  · intro a hcp hex
    show ∃ y ∈ (update_rs_without_primary_accepted t0 d).servers, _
    rw [hserv]
    apply s4 a hcp
    rcases hex with ⟨s, hs, hne, hsa, hsu⟩ | ⟨har, hab⟩
    · exact ⟨s, (hL s).2 (Or.inl (hother s hs hne)), hsa, hsu⟩
    · obtain ⟨s, hs, hsa⟩ := hmon.covered a har
      rcases (hL s).1 hs with h2 | h2
      · obtain ⟨s2, hs2, he⟩ := hheld s h2
        exact absurd (he.trans hsa) (hab s2 hs2)
      · refine ⟨s, hs, hsa, ?_⟩
        rw [hmon.fresh s h2]
        rfl
  · intro hu a hcp y hy
    have hy2 : y ∈ label_list (add_all t0 (roster d)).servers d.current_primary := by
      rw [← hserv]; exact hy
    refine s5 ?_ a hcp y hy2
    rw [(hmon.perm.map _).nodup_iff, List.map_append, List.nodup_append]
    refine ⟨by rw [haddr]; exact hu, hmon.distinct, ?_⟩
    intro b hb1 hb2
    obtain ⟨s0, hs0, he0⟩ := List.mem_map.1 hb1
    obtain ⟨n, hn2, he⟩ := List.mem_map.1 hb2
    exact hmon.absent n hn2 s0 hs0 (he0.trans he.symm)

/-- Witness for C21: the seed A of a topology of kind RS_NO_PRIMARY answers as
a secondary of "rs0" with the hosts A, B and C and names B as primary. The kind
is RS_NO_PRIMARY, the set name "rs0", and the set holds A as RS_SECONDARY, B
as POSSIBLE_PRIMARY and C as UNKNOWN. -/
theorem C21_witness :
    (∃ r, mongoc_topology_description_handle_ismaster topology_seed_A (SdPtr.item 1)
        (some response_secondary_ABC) 5 false = some r ∧
      r.topology.type = TopologyType.RS_NO_PRIMARY ∧
      r.topology.set_name = some "rs0" ∧
      ∀ a ∈ ["A", "B", "C"], ∃ s ∈ r.topology.servers, s.connection_address = a) ∧
    (mongoc_topology_description_handle_ismaster topology_seed_A (SdPtr.item 1)
        (some response_secondary_ABC) 5 false).map
      (fun r => r.topology.servers.map (fun s => (s.connection_address, s.type))) =
      some [("A", ServerType.RS_SECONDARY), ("B", ServerType.POSSIBLE_PRIMARY),
        ("C", ServerType.UNKNOWN)] :=
  ⟨(C21_discovery_without_primary topology_seed_A (Or.inl rfl) 1
      (example_server 1 "A" ServerType.UNKNOWN none) (by decide)
      (some response_secondary_ABC) 5 false
      (mongoc_server_description_handle_ismaster
        (example_server 1 "A" ServerType.UNKNOWN none) (some response_secondary_ABC) 5 false)
      rfl (by decide) (by decide)).imp
      (fun _ h => ⟨h.1, h.2.2.2.1, h.2.2.2.2.1, h.2.2.2.2.2.2.2.2.2.1⟩),
    by decide⟩

/-! ## C31: writes in a replica set without primary -/

/-- C31: in a topology of kind RS_NO_PRIMARY, whatever its servers are, a write
gets the empty list from `suitable_servers`, for every read preference and
threshold: the branch that looks for the primary runs for the kind
RS_WITH_PRIMARY only, so the latency window sees no candidate. -/
theorem C31_no_writes_without_primary (t : TopologyDescription)
    (hk : t.type = TopologyType.RS_NO_PRIMARY) (rp : ReadPrefs) (thr : Nat) :
    mongoc_topology_description_suitable_servers OpType.WRITE t rp thr = some [] := by
  simp [mongoc_topology_description_suitable_servers, hk, latency_window_nil]

/-- Witness for C31: a topology of kind RS_NO_PRIMARY holding a secondary, a
possible primary and a server of kind RS_PRIMARY; a write with a threshold of
15 ms gets no server. -/
theorem C31_witness :
    topology_no_primary_kind.type = TopologyType.RS_NO_PRIMARY ∧
    (∃ s ∈ topology_no_primary_kind.servers, s.type = ServerType.POSSIBLE_PRIMARY) ∧
    (∃ s ∈ topology_no_primary_kind.servers, s.type = ServerType.RS_SECONDARY) ∧
    mongoc_topology_description_suitable_servers OpType.WRITE topology_no_primary_kind
      example_prefs 15 = some [] :=
  ⟨rfl, by decide, by decide,
    C31_no_writes_without_primary topology_no_primary_kind rfl example_prefs 15⟩

/-! ## C6: late handshakes -/

/-- C6 (evaluation at the failing input): the state after the discovery of
the secondary A and of the primary B of "rs0" is reached from `init`; B is in
the set and answers as a secondary of the set "other". The claim has the call
return `true`. The run removes B, which destroys its description, finds no
primary left, and `update_rs_with_primary_from_member` reads
`server->current_primary` of the destroyed description: the call has no
defined result. -/
theorem C6_member_handshake_reads_destroyed_server :
    Reached topology_after_second_handshake ∧
    SdPtr.deref topology_after_second_handshake (SdPtr.item 2) =
      some member_B_after_handshake ∧
    (∃ s ∈ topology_after_second_handshake.servers,
      s.connection_address = member_B_after_handshake.connection_address) ∧
    classify response_rogue_secondary = ServerType.RS_SECONDARY ∧
    mongoc_topology_description_handle_ismaster topology_after_second_handshake
      (SdPtr.item 2) (some response_rogue_secondary) 7 false = none :=
  ⟨reached_after_second_handshake, by decide, by decide, by decide, by decide⟩

/-! ## C17: secondary reads -/

/-- C17 (evaluation at the failing input): the state after `init`, the seeds A
and B and the answer of A as a secondary of "rs0" that names B as primary is
reachable; its kind is RS_NO_PRIMARY, A is an RS_SECONDARY with a round-trip
time of 5 ms and B a POSSIBLE_PRIMARY that was never contacted. The filter
keeps every candidate, so the secondary A survives it. A read with mode
SECONDARY_PREFERRED returns B: alone with a threshold of 0 ms, next to A with
15 ms. The strike loop removes the kind RS_PRIMARY only; the mode SECONDARY
returns A alone. -/
theorem C17_possible_primary_returned :
    Reachable topology_after_first_handshake ∧
    topology_after_first_handshake.type = TopologyType.RS_NO_PRIMARY ∧
    topology_after_first_handshake.servers =
      [member_A_after_handshake, example_server 2 "B" ServerType.POSSIBLE_PRIMARY none] ∧
    member_A_after_handshake.type = ServerType.RS_SECONDARY ∧
    (prefs_with_mode ReadMode.SECONDARY_PREFERRED).eligible
      (topology_after_first_handshake.servers.filter (fun x =>
        _mongoc_topology_description_server_is_candidate x.type
          ReadMode.SECONDARY_PREFERRED topology_after_first_handshake.type))
      member_A_after_handshake = true ∧
    mongoc_topology_description_suitable_servers OpType.READ topology_after_first_handshake
      (prefs_with_mode ReadMode.SECONDARY_PREFERRED) 0 =
      some [example_server 2 "B" ServerType.POSSIBLE_PRIMARY none] ∧
    mongoc_topology_description_suitable_servers OpType.READ topology_after_first_handshake
      (prefs_with_mode ReadMode.SECONDARY_PREFERRED) 15 =
      some [member_A_after_handshake,
            example_server 2 "B" ServerType.POSSIBLE_PRIMARY none] ∧
    mongoc_topology_description_suitable_servers OpType.READ topology_after_first_handshake
      (prefs_with_mode ReadMode.SECONDARY) 0 = some [member_A_after_handshake] :=
  ⟨reachable_after_first_handshake, rfl, rfl, rfl, by decide, by decide, by decide,
    by decide⟩

/-! ## C18: the set name is written once -/

/-- The function `invalidate_server` returns. -/
theorem invalidate_server_returns (t : TopologyDescription) (id : Nat) :
    ∃ t2, mongoc_topology_description_invalidate_server t id = some t2 := by
  cases hget : mongoc_set_get t.servers id with
  | none =>
    refine ⟨t, ?_⟩
    simp only [mongoc_topology_description_invalidate_server,
      mongoc_topology_description_handle_ismaster, SdPtr.deref, hget, Option.map_some']
  | some d0 => exact ⟨_, invalidate_server_eq t id d0 hget⟩

/-- C18: for every topology with a set name `n`: after `add_server` of any
address the set name is `n`; `invalidate_server` of any id returns and the set
name is `n`; and after `handle_ismaster` for any member pointer, response,
round-trip time and error, whatever the call returns, the set name is `n`. -/
theorem C18_set_name_write_once (t : TopologyDescription) (n : String)
    (hn : t.set_name = some n) :
    (∀ a, (mongoc_topology_description_add_server t a).1.set_name = some n) ∧
    (∀ id, ∃ t2, mongoc_topology_description_invalidate_server t id = some t2 ∧
      t2.set_name = some n) ∧
    (∀ p resp rtt err r,
      mongoc_topology_description_handle_ismaster t p resp rtt err = some r →
      r.topology.set_name = some n) := by
  refine ⟨?_, ?_, ?_⟩
  · intro a
    rw [add_server_set_name]; exact hn
  · intro id
    obtain ⟨t2, h2⟩ := invalidate_server_returns t id
    refine ⟨t2, h2, ?_⟩
    unfold mongoc_topology_description_invalidate_server at h2
    cases hr : mongoc_topology_description_handle_ismaster t (SdPtr.item id) none 0 true with
    | none => rw [hr] at h2; cases h2
    | some r =>
      rw [hr] at h2
      simp only [Option.map_some', Option.some.injEq] at h2
      rw [← h2]
      exact handle_ismaster_set_name t n hn (SdPtr.item id) none 0 true r hr
  · intro p resp rtt err r hr
    exact handle_ismaster_set_name t n hn p resp rtt err r hr

/-- Witness for C18: in the set "rs0" the item A answers as primary of the set
"other"; the handshake returns and the set name is still "rs0". -/
theorem C18_witness :
    topology_rs0.set_name = some "rs0" ∧
    ∃ r, mongoc_topology_description_handle_ismaster topology_rs0 (SdPtr.item 1)
        (some response_primary_other) 5 false = some r ∧
      r.topology.set_name = some "rs0" :=
  ⟨rfl,
    (mongoc_topology_description_handle_ismaster topology_rs0 (SdPtr.item 1)
      (some response_primary_other) 5 false).get (by decide),
    (Option.some_get _).symm,
    (C18_set_name_write_once topology_rs0 "rs0" rfl).2.2 (SdPtr.item 1)
      (some response_primary_other) 5 false _ (Option.some_get _).symm⟩

end Mongoc
